import Mathlib

/-!
# sqlbp: statement builder and connection routing

A shallow embedding of the SQL statement builder of `sqlbp` (`operation.go`,
`wrapper.go`, `utils.go`, `base_dao.go`, `connect.go`, `transaction.go`).

Modelling conventions.

* A Go `interface{}` value is a `Value`; `reflect.ValueOf(v).Kind()` is `Value.kind`.
* A Go string is a Lean `String`, read as its sequence of characters.  The only
  byte-level operations of the source are the removal of a trailing `", "` and the
  replacement of the ASCII character `.`, for which byte and character positions agree.
* A function with a `params *[]interface{}` argument takes the parameter list and
  returns the updated one (`SqlOut.params`).  Named results `(result, err)` are
  returned together, so the SQL text on the error path is visible.
* A run-time panic of the source (slice bounds, index out of range) is the outcome
  `none`; every builder function therefore returns an `Option`.
* `int64` fields are integers; the one arithmetic operation of the source on them
  is wrapped by `wrapInt64`.
* An operation that executes SQL is followed up to the first call it makes on a
  driver handle (`Issued`); what the driver answers is outside the model.
* Library code is a parameter where its result matters: the `%s` and `%v` renderings
  of `fmt` (`fmtS`, `fmtV`), `json.Marshal` (`jsonMarshal`), and what reflection shows
  of a struct or a map (`ReflectData`).  A Go map is the partial function it denotes.
* Where the sharing of a backing array matters (rendering through the pointer to a
  wrapper), the parameter slice is a header over a heap of arrays (`Slice`, `Heap`,
  `goAppend`) and the rendering functions are embedded on that memory as well (the
  definitions named `...Mem`); they are proved to return what the list-level
  functions return.
-/

namespace Sqlbp

/-! ## Values -/

/-- The `reflect.Kind`s the builder distinguishes. -/
inductive Kind where
  | invalid
  | bool
  | int
  | string
  | slice
  | array
  | map
  | struct
  deriving DecidableEq, Repr

/-- A Go `interface{}` value. -/
inductive Value where
  | nil
  | bool (b : Bool)
  | int (n : Int)
  | str (s : String)
  | slice (elems : List Value)
  | array (elems : List Value)
  | map (entries : List (Value × Value))
  | struct (typeName : String)

/-- The result of `reflect.ValueOf(v).Kind()`. -/
def Value.kind : Value → Kind
  | .nil => Kind.invalid
  | .bool _ => Kind.bool
  | .int _ => Kind.int
  | .str _ => Kind.string
  | .slice _ => Kind.slice
  | .array _ => Kind.array
  | .map _ => Kind.map
  | .struct _ => Kind.struct

/-! ## Data model (`operation.go`) -/

/-- The `whereItem` struct. -/
structure whereItem where
  field : String
  op : String
  value : Value

/-- The `dataItem` struct. -/
structure dataItem where
  field : String
  op : String
  value : Value

/-- The `queryInfo` struct; the field `where` is spelt `where_`. -/
structure queryInfo where
  selectField : List String := []
  as : String := ""
  join : String := ""
  whereParams : List Value := []
  where_ : List whereItem := []
  tableName : String := ""
  having : String := ""
  order : String := ""
  group : String := ""
  offset : Int := 0
  limit : Int := 0
  page : Int := 0
  queryUseMaster : Bool := false

/-- The function `createWhereItem`. -/
def createWhereItem (field : String) (op : String) (value : Value) : whereItem :=
  { field := field, op := op, value := value }

/-- The `BaseDao` struct. -/
structure BaseDao where
  tableName : String
  dbName : String
  slaveDbName : String

/-- The method `BaseDao.GetTableName`. -/
def BaseDao.GetTableName (dao : BaseDao) : String := dao.tableName

/-- The method `BaseDao.GetDbName`. -/
def BaseDao.GetDbName (dao : BaseDao) : String := dao.dbName

/-- The method `BaseDao.GetSlaveDbName`. -/
def BaseDao.GetSlaveDbName (dao : BaseDao) : String :=
  if dao.slaveDbName = "" then dao.dbName else dao.slaveDbName

/-- The errors the package creates with `fmt.Errorf`, one constructor per call site,
carrying the values the message is formatted from (`wrapperError` carries the whole
message). -/
inductive SqlError where
  | whereValueMap (item : whereItem)
  | opEmpty (item : whereItem)
  | opNotSupport (op : String) (field : String)
  | betweenFormat (key : String)
  | betweenCount (key : String)
  | inNotArray (key : String)
  | inEmpty (key : String)
  | applyFormat (key : String)
  | applyCount (key : String)
  | applyKind (key : String)
  | notSlice
  | deleteAll
  | updateAll
  | dataEmpty
  | tableNameEmpty
  | notInit
  | connectNotExist (name : String)
  | checkDao
  | wrapperError (msg : String)
  | alreadyInit
  | dataNotStructOrMap

/-- What a builder function hands back: the named results `result` and `err`, and
the parameter list behind the `params` pointer after the call. -/
structure SqlOut where
  result : String
  err : Option SqlError
  params : List Value

/-! ## String helpers -/

/-- The number of `?` characters of a text. -/
def placeholders (s : String) : Nat := s.data.count '?'

/-- Go `strings.Join(elems, sep)`. -/
def stringsJoin : List String → String → String
  | [], _ => ""
  | [a], _ => a
  | a :: b :: rest, sep => a ++ sep ++ stringsJoin (b :: rest) sep

/-- Go `strings.ReplaceAll(s, old, new)` for a one-character `old`, on characters. -/
def replaceAllChars (old : Char) (new : List Char) : List Char → List Char
  | [] => []
  | c :: cs => if c = old then new ++ replaceAllChars old new cs
               else c :: replaceAllChars old new cs

/-- Go `strings.ReplaceAll(s, old, new)` for a one-character `old`. -/
def stringsReplaceAll (s : String) (old : Char) (new : String) : String :=
  ⟨replaceAllChars old new.data s.data⟩

/-- The Go slice expression `s[:hi]`; `none` is the slice-bounds panic. -/
def sliceTo (s : String) (hi : Int) : Option String :=
  if 0 ≤ hi ∧ hi ≤ (s.length : Int) then some ⟨s.data.take hi.toNat⟩ else none

/-- The function `keyFormat` of `utils.go`. -/
def keyFormat (key : String) : String :=
  stringsReplaceAll ("`" ++ key ++ "`") '.' "`.`"

/-- The function `interfaceToSlice` of `utils.go`. -/
def interfaceToSlice (params : Value) : List Value × Option SqlError :=
  match params with
  | .slice elems => (elems, none)
  | _ => ([], some SqlError.notSlice)

/-! ## WHERE rendering (`operation.go`) -/

/-- The loop of `getWhereInSql`: one `"?, "` and one argument per element. -/
def getWhereInSqlLoop : List Value → String → List Value → String × List Value
  | [], result, params => (result, params)
  | v :: rest, result, params => getWhereInSqlLoop rest (result ++ "?, ") (params ++ [v])

/-- The function `getWhereInSql`. -/
def getWhereInSql (key : String) (op : String) (value : Value) (params : List Value) :
    Option SqlOut :=
  if value.kind ≠ Kind.slice then
    some ⟨"", some (SqlError.inNotArray key), params⟩
  else
    match interfaceToSlice value with
    | (_, some e) => some ⟨"", some e, params⟩
    | (list, none) =>
      if list.length = 0 then
        some ⟨"", some (SqlError.inEmpty key), params⟩
      else
        match getWhereInSqlLoop list "" params with
        | (result, params) =>
          match sliceTo result ((result.length : Int) - 2) with
          | none => none
          | some result => some ⟨key ++ " " ++ op ++ " (" ++ result ++ ")", none, params⟩

/-- The function `getWhereBetweenSql`. -/
def getWhereBetweenSql (key : String) (op : String) (value : Value) (params : List Value) :
    Option SqlOut :=
  if value.kind ≠ Kind.slice then
    some ⟨"", some (SqlError.betweenFormat key), params⟩
  else
    match interfaceToSlice value with
    | (_, some e) => some ⟨"", some e, params⟩
    | (list, none) =>
      if list.length ≠ 2 then
        some ⟨"", some (SqlError.betweenCount key), params⟩
      else
        match list[0]?, list[1]? with
        | some a, some b => some ⟨key ++ " " ++ op ++ " ? and ?", none, params ++ [a, b]⟩
        | _, _ => none

/-- The function `getWhereApplySql`. -/
def getWhereApplySql (key : String) (value : Value) (params : List Value) : Option SqlOut :=
  if value.kind ≠ Kind.slice then
    some ⟨"", some (SqlError.applyFormat key), params⟩
  else
    match interfaceToSlice value with
    | (_, some e) => some ⟨"", some e, params⟩
    | (list, none) =>
      if list.length < 1 then
        some ⟨"", some (SqlError.applyCount key), params⟩
      else
        match list[0]? with
        | none => none
        | some first =>
          match first with
          | .str fragment => some ⟨"(" ++ fragment ++ ")", none, params ++ list.drop 1⟩
          | _ => some ⟨"", some (SqlError.applyKind key), params⟩

/-- The operators of the first branch of the loop of `getWhereSql`. -/
def isSimpleOp (op : String) : Bool :=
  op = "=" || op = "!=" || op = "<=" || op = "<" || op = ">=" ||
    op = ">" || op = "<>" || op = "like"

/-- What the loop of `getWhereSql` holds when it stops: the clauses collected so far,
the error that stopped it (if any) and the parameter list. -/
structure WhereLoopOut where
  whereList : List String
  err : Option SqlError
  params : List Value

/-- The loop of `getWhereSql` over the remaining conditions. -/
def getWhereSqlLoop : List whereItem → List String → List Value → Option WhereLoopOut
  | [], whereList, params => some ⟨whereList, none, params⟩
  | item :: rest, whereList, params =>
    let field := keyFormat item.field
    if item.value.kind = Kind.map then
      some ⟨whereList, some (SqlError.whereValueMap item), params⟩
    else if item.op = "" then
      some ⟨whereList, some (SqlError.opEmpty item), params⟩
    else if isSimpleOp item.op then
      getWhereSqlLoop rest (whereList ++ [field ++ " " ++ item.op ++ " ?"])
        (params ++ [item.value])
    else if item.op = "in" || item.op = "not in" then
      match getWhereInSql field item.op item.value params with
      | none => none
      | some out =>
        match out.err with
        | some e => some ⟨whereList ++ [out.result], some e, out.params⟩
        | none => getWhereSqlLoop rest (whereList ++ [out.result]) out.params
    else if item.op = "between" || item.op = "not between" then
      match getWhereBetweenSql field item.op item.value params with
      | none => none
      | some out =>
        match out.err with
        | some e => some ⟨whereList ++ [out.result], some e, out.params⟩
        | none => getWhereSqlLoop rest (whereList ++ [out.result]) out.params
    else if item.op = "apply" then
      match getWhereApplySql field item.value params with
      | none => none
      | some out =>
        match out.err with
        | some e => some ⟨whereList ++ [out.result], some e, out.params⟩
        | none => getWhereSqlLoop rest (whereList ++ [out.result]) out.params
    else
      some ⟨whereList, some (SqlError.opNotSupport item.op field), params⟩

/-- The function `getWhereSql`. -/
def getWhereSql (where_ : List whereItem) (params : List Value) : Option SqlOut :=
  if where_.length = 0 then
    some ⟨"", none, params⟩
  else
    match getWhereSqlLoop where_ [] params with
    | none => none
    | some out =>
      match out.err with
      | some e => some ⟨"", some e, out.params⟩
      | none => some ⟨stringsJoin out.whereList " and ", none, out.params⟩

/-! ## DELETE, UPDATE, INSERT rendering (`operation.go`) -/

/-- The function `getDeleteSql`. -/
def getDeleteSql (dao : BaseDao) (where_ : List whereItem) (params : List Value) :
    Option SqlOut :=
  if where_.length = 0 then
    some ⟨"", some SqlError.deleteAll, params⟩
  else
    match getWhereSql where_ params with
    | none => none
    | some out =>
      match out.err with
      | some e => some ⟨"", some e, out.params⟩
      | none =>
        some ⟨"delete from " ++ dao.GetTableName ++ " where " ++ out.result, none, out.params⟩

/-- The loop of `getUpdateSql` over the assignments.  `fmtS` is the rendering of a
value by `fmt` under the verb `%s`. -/
def getUpdateSqlLoop (fmtS : Value → String) :
    List dataItem → String → List Value → String × List Value
  | [], dataPart, params => (dataPart, params)
  | item :: rest, dataPart, params =>
    if item.op = "value" then
      getUpdateSqlLoop fmtS rest (dataPart ++ ("`" ++ item.field ++ "` = ?, "))
        (params ++ [item.value])
    else if item.op = "exp" then
      getUpdateSqlLoop fmtS rest
        (dataPart ++ ("`" ++ item.field ++ "` = " ++ fmtS item.value ++ ", ")) params
    else
      getUpdateSqlLoop fmtS rest dataPart params

/-- The function `getUpdateSql`.  `fmtS` is the rendering of a value by `fmt` under
the verb `%s` (the text itself when the value is a string). -/
def getUpdateSql (fmtS : Value → String) (dao : BaseDao) (data : List dataItem)
    (where_ : List whereItem) (params : List Value) : Option SqlOut :=
  if data.length = 0 then
    some ⟨"", some SqlError.dataEmpty, params⟩
  else if where_.length = 0 then
    some ⟨"", some SqlError.updateAll, params⟩
  else
    let tableName := dao.GetTableName
    match getUpdateSqlLoop fmtS data "" params with
    | (dataPart, params) =>
      match sliceTo dataPart ((dataPart.length : Int) - 2) with
      | none => none
      | some dataPart =>
        match getWhereSql where_ params with
        | none => none
        | some out =>
          match out.err with
          | some e => some ⟨"", some e, out.params⟩
          | none =>
            some ⟨"update " ++ tableName ++ " set " ++ dataPart ++ " where " ++ out.result,
              none, out.params⟩

/-- What the loop of `getInsertSql` builds. -/
structure InsertLoopOut where
  fieldString : String
  valueString : String
  params : List Value

/-- The loop of `getInsertSql` over the assignments. -/
def getInsertSqlLoop : List dataItem → InsertLoopOut → InsertLoopOut
  | [], acc => acc
  | item :: rest, acc =>
    getInsertSqlLoop rest
      ⟨acc.fieldString ++ ("`" ++ item.field ++ "`, "), acc.valueString ++ "?, ",
        acc.params ++ [item.value]⟩

/-- The function `getInsertSql`. -/
def getInsertSql (dao : BaseDao) (data : List dataItem) (params : List Value) :
    Option SqlOut :=
  if data.length = 0 then
    some ⟨"", some SqlError.dataEmpty, params⟩
  else
    match getInsertSqlLoop data ⟨"", "", params⟩ with
    | ⟨fieldString, valueString, params⟩ =>
      match sliceTo fieldString ((fieldString.length : Int) - 2) with
      | none => none
      | some fieldString =>
        match sliceTo valueString ((valueString.length : Int) - 2) with
        | none => none
        | some valueString =>
          some ⟨"insert into `" ++ dao.GetTableName ++ "`(" ++ fieldString ++ ") values ("
            ++ valueString ++ ")", none, params⟩

/-! ## SELECT rendering (`operation.go`) -/

/-- The value an `int64` holds after an arithmetic result `x` (two's complement). -/
def wrapInt64 (x : Int) : Int := (x + 2 ^ 63) % 2 ^ 64 - 2 ^ 63

/-- The rendering of an `int64` by `fmt` under the verb `%d`. -/
def fmtD (n : Int) : String := toString n

/-- The limit clause of `getSelectSql`, computed from the fields `offset`, `limit`
and `page` of the query specification. -/
def limitPart (info : queryInfo) : String :=
  let limit := if info.limit = 0 then 1024 else info.limit
  let start := if info.page > 1 then wrapInt64 ((info.page - 1) * limit) else info.offset
  if start = 0 then " limit " ++ fmtD limit
  else " limit " ++ fmtD start ++ ", " ++ fmtD limit

/-- The function `getSelectSql`.  `SqlOut.params` is the returned `params`.  As in the
source, the having part is `" having "` followed by the still empty `havingPart`,
not by `info.having`. -/
def getSelectSql (tableName : String) (info : queryInfo) : Option SqlOut :=
  let tableName := if info.tableName ≠ "" then info.tableName else tableName
  if tableName = "" then
    some ⟨"", some SqlError.tableNameEmpty, []⟩
  else
    let selectPart :=
      if info.selectField.length ≠ 0 then stringsJoin info.selectField "," else "*"
    let asPart := if info.as ≠ "" then " " ++ info.as else ""
    let joinPart := if info.join ≠ "" then " " ++ info.join else ""
    let whereStep : Option SqlOut :=
      if info.where_.length ≠ 0 then
        match getWhereSql info.where_ info.whereParams with
        | none => none
        | some out =>
          match out.err with
          | some e => some ⟨out.result, some e, out.params⟩
          | none => some ⟨" where " ++ out.result, none, out.params⟩
      else some ⟨"", none, info.whereParams⟩
    match whereStep with
    | none => none
    | some w =>
      match w.err with
      | some e => some ⟨"", some e, []⟩
      | none =>
        let havingPart := if info.having ≠ "" then " having " ++ "" else ""
        let orderPart := if info.order ≠ "" then " order by " ++ info.order else ""
        let groupPart := if info.group ≠ "" then " group by " ++ info.group else ""
        some ⟨"select " ++ selectPart ++ " from " ++ tableName ++ asPart ++ joinPart
            ++ w.result ++ groupPart ++ havingPart ++ orderPart ++ limitPart info,
          none, w.params⟩

/-- The function `getSelectOneSql`.  `SqlOut.params` is the returned `params`. -/
def getSelectOneSql (dao : BaseDao) (info : queryInfo) : Option SqlOut :=
  let tableName := dao.GetTableName
  let selectPart :=
    if info.selectField.length ≠ 0 then stringsJoin info.selectField "," else "*"
  let whereStep : Option SqlOut :=
    if info.where_.length ≠ 0 then
      match getWhereSql info.where_ info.whereParams with
      | none => none
      | some out =>
        match out.err with
        | some e => some ⟨out.result, some e, out.params⟩
        | none => some ⟨" where " ++ out.result, none, out.params⟩
    else some ⟨"", none, info.whereParams⟩
  match whereStep with
  | none => none
  | some w =>
    match w.err with
    | some e => some ⟨"", some e, []⟩
    | none =>
      let orderPart := if info.order.length ≠ 0 then " order by " ++ info.order else ""
      let joinPart := if info.join.length ≠ 0 then " " ++ info.join else ""
      some ⟨"select " ++ selectPart ++ " from " ++ tableName ++ joinPart ++ w.result
          ++ orderPart ++ " limit 0, 1", none, w.params⟩

/-! ## The fluent wrapper (`wrapper.go`) -/

/-- The `Wrapper` struct; a deferred error is kept as its message. -/
structure Wrapper where
  queryInfo : queryInfo
  dataItems : List dataItem
  errList : List String

/-- The function `GetWrapper`. -/
def GetWrapper : Wrapper :=
  { queryInfo := {}, dataItems := [], errList := [] }

/-- The statement `w.queryInfo.where = append(w.queryInfo.where, item)` shared by
the condition methods. -/
def Wrapper.appendWhere (w : Wrapper) (item : whereItem) : Wrapper :=
  { w with queryInfo := { w.queryInfo with where_ := w.queryInfo.where_ ++ [item] } }

/-- The method `Wrapper.Eq`. -/
def Wrapper.Eq (w : Wrapper) (column : String) (value : Value) : Wrapper :=
  w.appendWhere (createWhereItem column "=" value)

/-- The method `Wrapper.Ne`. -/
def Wrapper.Ne (w : Wrapper) (column : String) (value : Value) : Wrapper :=
  w.appendWhere (createWhereItem column "!=" value)

/-- The method `Wrapper.Gt`. -/
def Wrapper.Gt (w : Wrapper) (column : String) (value : Value) : Wrapper :=
  w.appendWhere (createWhereItem column ">" value)

/-- The method `Wrapper.Ge`. -/
def Wrapper.Ge (w : Wrapper) (column : String) (value : Value) : Wrapper :=
  w.appendWhere (createWhereItem column ">=" value)

/-- The method `Wrapper.Lt`. -/
def Wrapper.Lt (w : Wrapper) (column : String) (value : Value) : Wrapper :=
  w.appendWhere (createWhereItem column "<" value)

/-- The method `Wrapper.Le`. -/
def Wrapper.Le (w : Wrapper) (column : String) (value : Value) : Wrapper :=
  w.appendWhere (createWhereItem column "<=" value)

/-- The method `Wrapper.Between`. -/
def Wrapper.Between (w : Wrapper) (column : String) (start : Value) (stop : Value) : Wrapper :=
  w.appendWhere (createWhereItem column "between" (Value.slice [start, stop]))

/-- The method `Wrapper.NotBetween`. -/
def Wrapper.NotBetween (w : Wrapper) (column : String) (start : Value) (stop : Value) :
    Wrapper :=
  w.appendWhere (createWhereItem column "not between" (Value.slice [start, stop]))

/-- The method `Wrapper.Like`. -/
def Wrapper.Like (w : Wrapper) (column : String) (value : String) : Wrapper :=
  w.appendWhere (createWhereItem column "like" (Value.str ("%" ++ value ++ "%")))

/-- The method `Wrapper.NotLike`. -/
def Wrapper.NotLike (w : Wrapper) (column : String) (value : String) : Wrapper :=
  w.appendWhere (createWhereItem column "not like" (Value.str ("%" ++ value ++ "%")))

/-- The method `Wrapper.LikeLeft`. -/
def Wrapper.LikeLeft (w : Wrapper) (column : String) (value : String) : Wrapper :=
  w.appendWhere (createWhereItem column "like" (Value.str ("%" ++ value)))

/-- The method `Wrapper.LikeRight`. -/
def Wrapper.LikeRight (w : Wrapper) (column : String) (value : String) : Wrapper :=
  w.appendWhere (createWhereItem column "like" (Value.str (value ++ "%")))

/-- The method `Wrapper.In`. -/
def Wrapper.In (w : Wrapper) (column : String) (value : Value) : Wrapper :=
  w.appendWhere (createWhereItem column "in" value)

/-- The method `Wrapper.NotIn`. -/
def Wrapper.NotIn (w : Wrapper) (column : String) (value : Value) : Wrapper :=
  w.appendWhere (createWhereItem column "not in" value)

/-- The method `Wrapper.Apply`; the variadic `params` arrive as a slice. -/
def Wrapper.Apply (w : Wrapper) (params : List Value) : Wrapper :=
  w.appendWhere (createWhereItem "" "apply" (Value.slice params))

/-- The method `Wrapper.Set`. -/
def Wrapper.Set (w : Wrapper) (column : String) (value : Value) : Wrapper :=
  { w with dataItems := w.dataItems ++ [{ field := column, op := "value", value := value }] }

/-- The method `Wrapper.SetExp`. -/
def Wrapper.SetExp (w : Wrapper) (column : String) (value : String) : Wrapper :=
  { w with dataItems :=
      w.dataItems ++ [{ field := column, op := "exp", value := Value.str value }] }

/-- The method `Wrapper.Limit`. -/
def Wrapper.Limit (w : Wrapper) (limit : Int) : Wrapper :=
  { w with queryInfo := { w.queryInfo with limit := limit } }

/-- The method `Wrapper.Page`. -/
def Wrapper.Page (w : Wrapper) (page : Int) : Wrapper :=
  { w with queryInfo := { w.queryInfo with page := page } }

/-- The method `Wrapper.Offset`. -/
def Wrapper.Offset (w : Wrapper) (offset : Int) : Wrapper :=
  { w with queryInfo := { w.queryInfo with offset := offset } }

/-- The method `Wrapper.QueryUseMaster`. -/
def Wrapper.QueryUseMaster (w : Wrapper) (useMaster : Bool) : Wrapper :=
  { w with queryInfo := { w.queryInfo with queryUseMaster := useMaster } }

/-- The method `Wrapper.TableName`. -/
def Wrapper.TableName (w : Wrapper) (tableName : String) : Wrapper :=
  { w with queryInfo := { w.queryInfo with tableName := tableName } }

/-- The method `Wrapper.Group`. -/
def Wrapper.Group (w : Wrapper) (group : String) : Wrapper :=
  { w with queryInfo := { w.queryInfo with group := group } }

/-- The method `Wrapper.Order`. -/
def Wrapper.Order (w : Wrapper) (order : String) : Wrapper :=
  { w with queryInfo := { w.queryInfo with order := order } }

/-- The method `Wrapper.Having`. -/
def Wrapper.Having (w : Wrapper) (having : String) : Wrapper :=
  { w with queryInfo := { w.queryInfo with having := having } }

/-- The method `Wrapper.Select`; the variadic `fields` arrive as a list. -/
def Wrapper.Select (w : Wrapper) (fields : List String) : Wrapper :=
  { w with queryInfo :=
      { w.queryInfo with selectField := if fields.length = 0 then ["*"] else fields } }

/-- The method `Wrapper.Where`. -/
def Wrapper.Where (w : Wrapper) (where_ : List whereItem) : Wrapper :=
  { w with queryInfo := { w.queryInfo with where_ := where_ } }

/-- The method `Wrapper.As`. -/
def Wrapper.As (w : Wrapper) (name : String) : Wrapper :=
  { w with queryInfo := { w.queryInfo with as := name } }

/-- The method `Wrapper.Join`. -/
def Wrapper.Join (w : Wrapper) (join : String) : Wrapper :=
  { w with queryInfo := { w.queryInfo with join := w.queryInfo.join ++ (" " ++ join) } }

/-- The method `Wrapper.ToSelectSql`. -/
def Wrapper.ToSelectSql (w : Wrapper) : Option SqlOut :=
  getSelectSql "" w.queryInfo

/-! ## Connections and routing (`connect.go`, `transaction.go`, `operation.go`) -/

/-- The identity of a live `sqlx.DB`; a `*sqlx.DB` is an `Option DB`. -/
structure DB where
  id : Nat
  deriving DecidableEq, Repr

/-- The identity of a live `sqlx.Tx`; a `*sqlx.Tx` is an `Option Tx`. -/
structure Tx where
  id : Nat
  deriving DecidableEq, Repr

/-- A value of the interface `connectInter`: a `*sqlx.DB` or a non-nil `*sqlx.Tx`. -/
inductive connectInter where
  | db (link : Option DB)
  | tx (t : Tx)
  deriving DecidableEq, Repr

/-- The package variables `linkMap` and `isInit` of `connect.go`; a Go map is the
partial function it denotes. -/
structure Registry where
  linkMap : String → Option (Option DB)
  isInit : Bool

/-- The function `getDbConnect`, reading the registry `reg`. -/
def getDbConnect (reg : Registry) (name : String) : Option DB × Option SqlError :=
  if !reg.isInit then
    (none, some SqlError.notInit)
  else
    match reg.linkMap name with
    | none => (none, some (SqlError.connectNotExist name))
    | some link => (link, none)

/-- A value stored in a `context.Context`. -/
inductive CtxValue where
  | tx (p : Option Tx)
  | other (v : Value)

/-- A `context.Context` as its chain of `WithValue` bindings, innermost first. -/
abbrev Context := List (String × CtxValue)

/-- The constant `ctxKeyTransactionPoint`. -/
def ctxKeyTransactionPoint : String := "gbp_transaction_point"

/-- The function `SetCtxTransaction`. -/
def SetCtxTransaction (ctx : Context) (tx : Option Tx) : Context :=
  (ctxKeyTransactionPoint, CtxValue.tx tx) :: ctx

/-- The function `GetCtxTransaction`. -/
def GetCtxTransaction (ctx : Context) : Option Tx :=
  match ctx.lookup ctxKeyTransactionPoint with
  | some (CtxValue.tx p) => p
  | _ => none

/-- The function `getConnectByWrapper`, reading the registry `reg`; a nil `w` is
`none`. -/
def getConnectByWrapper (reg : Registry) (ctx : Context) (dao : BaseDao)
    (w : Option Wrapper) (useMaster : Bool) : connectInter × Option SqlError :=
  match GetCtxTransaction ctx with
  | some tx => (connectInter.tx tx, none)
  | none =>
    let name :=
      if useMaster || (match w with
          | some w => w.queryInfo.queryUseMaster
          | none => false) then dao.GetDbName
      else dao.GetSlaveDbName
    match getDbConnect reg name with
    | (link, err) => (connectInter.db link, err)

/-! ## Execution (`operation.go`, `base_dao.go`) -/

/-- The methods of the interface `connectInter`. -/
inductive DriverMethod where
  | SelectContext
  | GetContext
  | ExecContext
  | QueryContext
  deriving DecidableEq, Repr

/-- A call on a `connectInter` handle: the handle, the method, the context, the SQL
text and the arguments handed to the driver. -/
structure DriverCall where
  conn : connectInter
  method : DriverMethod
  ctx : Context
  query : String
  args : List Value

/-- How far an operation gets: it returns an error before any statement is issued,
or it issues one call on a handle (what the driver answers is outside the model). -/
inductive Issued where
  | failed (e : SqlError)
  | call (c : DriverCall)

/-- The method `BaseDao.CheckDao`. -/
def BaseDao.CheckDao (dao : BaseDao) : Option SqlError :=
  if dao.tableName = "" || dao.dbName = "" then some SqlError.checkDao else none

/-- The function `getOneData`, reading the registry `reg`. -/
def getOneData (reg : Registry) (ctx : Context) (dao : BaseDao) (idKey : String)
    (id : Value) : Option Issued :=
  let dbName := dao.GetSlaveDbName
  match getDbConnect reg dbName with
  | (_, some e) => some (Issued.failed e)
  | (connect, none) =>
    let query : queryInfo := { where_ := [createWhereItem idKey "=" id] }
    match getSelectOneSql dao query with
    | none => none
    | some out =>
      match out.err with
      | some e => some (Issued.failed e)
      | none =>
        some (Issued.call
          ⟨connectInter.db connect, DriverMethod.GetContext, ctx, out.result, out.params⟩)

/-- The method `BaseDao.GetById`, reading the registry `reg`. -/
def BaseDao.GetById (reg : Registry) (dao : BaseDao) (ctx : Context) (idKey : String)
    (id : Value) : Option Issued :=
  match dao.CheckDao with
  | some e => some (Issued.failed e)
  | none => getOneData reg ctx dao idKey id

/-! ## Deferred errors (`wrapper.go`) -/

/-- The loop of `Wrapper.GetError`: `msg += err.Error() + "; "` for every deferred
error. -/
def getErrorLoop : List String → String → String
  | [], msg => msg
  | e :: rest, msg => getErrorLoop rest (msg ++ (e ++ "; "))

/-- The method `Wrapper.GetError`. -/
def Wrapper.GetError (w : Wrapper) : Option SqlError :=
  if w.errList.length = 0 then none
  else some (SqlError.wrapperError ("Wrapper error: " ++ getErrorLoop w.errList ""))

/-- The method `Wrapper.SetJson`.  `jsonMarshal` is `json.Marshal` (the encoded text,
or the message of its error) and `fmtV` the rendering of a value by `fmt` under the
verb `%v`. -/
def Wrapper.SetJson (jsonMarshal : Value → Except String String) (fmtV : Value → String)
    (w : Wrapper) (column : String) (value : Value) : Wrapper :=
  match jsonMarshal value with
  | Except.error err =>
    { w with errList := w.errList ++ [column ++ ": " ++ err ++ "(" ++ fmtV value ++ ")"] }
  | Except.ok data =>
    { w with dataItems :=
        w.dataItems ++ [{ field := column, op := "value", value := Value.str data }] }

/-! ## Registry bootstrap (`connect.go`) -/

/-- The function `InitDbConnectMap`: the registry after the call and the error. -/
def InitDbConnectMap (reg : Registry) (lm : String → Option (Option DB)) :
    Registry × Option SqlError :=
  if reg.isInit then (reg, some SqlError.alreadyInit)
  else (⟨lm, true⟩, none)

/-- The registry after a sequence of calls of `InitDbConnectMap`. -/
def initAll (reg : Registry) : List (String → Option (Option DB)) → Registry
  | [] => reg
  | lm :: rest => initAll (InitDbConnectMap reg lm).1 rest

/-! ## Assignments from a struct or a map (`utils.go`) -/

/-- A field of a struct as the `structs` library shows it: the value of its tag under
a key (empty when there is none) and its value. -/
structure StructField where
  tag : String → String
  value : Value

/-- What reflection shows of the argument `data` of `structToDataItems` once a
pointer has been followed. -/
inductive ReflectData where
  | invalid
  | struct (fields : List StructField)
  | mapStringAny (entries : List (String × Value))
  | mapOther
  | other

/-- The loop of `structToDataItems` over the fields of a struct. -/
def structFieldsLoop (tag : String) (ignoreKey : String) :
    List StructField → List dataItem → List dataItem
  | [], result => result
  | item :: rest, result =>
    let tagValue := item.tag tag
    let value := item.value
    if tagValue = ignoreKey then structFieldsLoop tag ignoreKey rest result
    else if tagValue ≠ "" then
      structFieldsLoop tag ignoreKey rest
        (result ++ [{ field := tagValue, op := "value", value := value }])
    else structFieldsLoop tag ignoreKey rest result

/-- The loop of `structToDataItems` over the entries of a map, in the order the
iteration visits them. -/
def mapEntriesLoop (ignoreKey : String) :
    List (String × Value) → List dataItem → List dataItem
  | [], result => result
  | (key, value) :: rest, result =>
    if key = ignoreKey then mapEntriesLoop ignoreKey rest result
    else mapEntriesLoop ignoreKey rest
      (result ++ [{ field := key, op := "value", value := value }])

/-- The function `structToDataItems`; `none` is a panic (`v.Interface()` on a nil
value, or the type assertion on a map that is not a `map[string]interface{}`). -/
def structToDataItems (data : ReflectData) (tag : String) (ignoreKey : String) :
    Option (List dataItem × Option SqlError) :=
  match data with
  | ReflectData.invalid => none
  | ReflectData.struct fields => some (structFieldsLoop tag ignoreKey fields [], none)
  | ReflectData.mapStringAny entries => some (mapEntriesLoop ignoreKey entries [], none)
  | ReflectData.mapOther => none
  | ReflectData.other => some ([], some SqlError.dataNotStructOrMap)

/-! ## Orchestration (`operation.go`, `base_dao.go`) -/

/-- A call through the pointer `w`: what the call returns and the wrapper behind the
pointer afterwards. -/
structure OnWrapper (α : Type) where
  out : α
  wrapper : Wrapper

/-- The function `selectByWrapper`, reading the registry `reg`. -/
def selectByWrapper (reg : Registry) (ctx : Context) (dao : BaseDao) (w : Wrapper) :
    Option Issued :=
  match getConnectByWrapper reg ctx dao (some w) false with
  | (_, some e) => some (Issued.failed e)
  | (connect, none) =>
    match getSelectSql dao.GetTableName w.queryInfo with
    | none => none
    | some out =>
      match out.err with
      | some e => some (Issued.failed e)
      | none =>
        some (Issued.call ⟨connect, DriverMethod.SelectContext, ctx, out.result, out.params⟩)

/-- The function `selectMapByWrapper`, up to the query it issues. -/
def selectMapByWrapper (reg : Registry) (ctx : Context) (dao : BaseDao) (w : Wrapper) :
    Option Issued :=
  match getConnectByWrapper reg ctx dao (some w) false with
  | (_, some e) => some (Issued.failed e)
  | (connect, none) =>
    match getSelectSql dao.GetTableName w.queryInfo with
    | none => none
    | some out =>
      match out.err with
      | some e => some (Issued.failed e)
      | none =>
        some (Issued.call ⟨connect, DriverMethod.QueryContext, ctx, out.result, out.params⟩)

/-- The function `countByWrapper`.  The specification is copied (`query := w.queryInfo`)
and the field list is overridden on the copy, so the wrapper behind `w` is the one the
call received. -/
def countByWrapper (reg : Registry) (ctx : Context) (dao : BaseDao) (w : Wrapper) :
    OnWrapper (Option Issued) :=
  match getConnectByWrapper reg ctx dao (some w) false with
  | (_, some e) => ⟨some (Issued.failed e), w⟩
  | (connect, none) =>
    let query := w.queryInfo
    let query := { query with selectField := ["count(1) as cn"] }
    match getSelectOneSql dao query with
    | none => ⟨none, w⟩
    | some out =>
      match out.err with
      | some e => ⟨some (Issued.failed e), w⟩
      | none =>
        ⟨some (Issued.call ⟨connect, DriverMethod.GetContext, ctx, out.result, out.params⟩),
          w⟩

/-- The function `insertByWrapper`. -/
def insertByWrapper (reg : Registry) (ctx : Context) (dao : BaseDao) (w : Wrapper) :
    Option Issued :=
  match getConnectByWrapper reg ctx dao (some w) true with
  | (_, some e) => some (Issued.failed e)
  | (connect, none) =>
    match getInsertSql dao w.dataItems [] with
    | none => none
    | some out =>
      match out.err with
      | some e => some (Issued.failed e)
      | none =>
        some (Issued.call ⟨connect, DriverMethod.ExecContext, ctx, out.result, out.params⟩)

/-- The function `deleteByWrapper`. -/
def deleteByWrapper (reg : Registry) (ctx : Context) (dao : BaseDao) (w : Wrapper) :
    Option Issued :=
  match getConnectByWrapper reg ctx dao (some w) true with
  | (_, some e) => some (Issued.failed e)
  | (connect, none) =>
    match getDeleteSql dao w.queryInfo.where_ [] with
    | none => none
    | some out =>
      match out.err with
      | some e => some (Issued.failed e)
      | none =>
        some (Issued.call ⟨connect, DriverMethod.ExecContext, ctx, out.result, out.params⟩)

/-- The function `updateByWrapper`. -/
def updateByWrapper (fmtS : Value → String) (reg : Registry) (ctx : Context)
    (dao : BaseDao) (w : Wrapper) : Option Issued :=
  match getConnectByWrapper reg ctx dao (some w) true with
  | (_, some e) => some (Issued.failed e)
  | (connect, none) =>
    match getUpdateSql fmtS dao w.dataItems w.queryInfo.where_ [] with
    | none => none
    | some out =>
      match out.err with
      | some e => some (Issued.failed e)
      | none =>
        some (Issued.call ⟨connect, DriverMethod.ExecContext, ctx, out.result, out.params⟩)

/-- The method `BaseDao.Insert`. -/
def BaseDao.Insert (reg : Registry) (dao : BaseDao) (ctx : Context) (data : ReflectData) :
    Option Issued :=
  match dao.CheckDao with
  | some e => some (Issued.failed e)
  | none =>
    match structToDataItems data "db" "" with
    | none => none
    | some (_, some e) => some (Issued.failed e)
    | some (dataItems, none) =>
      insertByWrapper reg ctx dao { GetWrapper with dataItems := dataItems }

/-- The method `BaseDao.UpdateById`. -/
def BaseDao.UpdateById (fmtS : Value → String) (reg : Registry) (dao : BaseDao)
    (ctx : Context) (data : ReflectData) (idKey : String) (id : Value) : Option Issued :=
  match dao.CheckDao with
  | some e => some (Issued.failed e)
  | none =>
    match structToDataItems data "db" idKey with
    | none => none
    | some (_, some e) => some (Issued.failed e)
    | some (dataItems, none) =>
      updateByWrapper fmtS reg ctx dao
        { GetWrapper with
          queryInfo := { GetWrapper.queryInfo with where_ := [createWhereItem idKey "=" id] },
          dataItems := dataItems }

/-- The method `BaseDao.UpdateByWrapper`. -/
def BaseDao.UpdateByWrapper (fmtS : Value → String) (reg : Registry) (dao : BaseDao)
    (ctx : Context) (w : Wrapper) : Option Issued :=
  match dao.CheckDao with
  | some e => some (Issued.failed e)
  | none =>
    match w.GetError with
    | some e => some (Issued.failed e)
    | none => updateByWrapper fmtS reg ctx dao w

/-- The method `BaseDao.DeleteByWrapper`. -/
def BaseDao.DeleteByWrapper (reg : Registry) (dao : BaseDao) (ctx : Context)
    (w : Wrapper) : Option Issued :=
  match dao.CheckDao with
  | some e => some (Issued.failed e)
  | none =>
    match w.GetError with
    | some e => some (Issued.failed e)
    | none => deleteByWrapper reg ctx dao w

/-- The method `BaseDao.SelectByWrapper`. -/
def BaseDao.SelectByWrapper (reg : Registry) (dao : BaseDao) (ctx : Context)
    (w : Wrapper) : Option Issued :=
  match dao.CheckDao with
  | some e => some (Issued.failed e)
  | none =>
    match w.GetError with
    | some e => some (Issued.failed e)
    | none => selectByWrapper reg ctx dao w

/-- The method `BaseDao.SelectMapByWrapper`. -/
def BaseDao.SelectMapByWrapper (reg : Registry) (dao : BaseDao) (ctx : Context)
    (w : Wrapper) : Option Issued :=
  match dao.CheckDao with
  | some e => some (Issued.failed e)
  | none =>
    match w.GetError with
    | some e => some (Issued.failed e)
    | none => selectMapByWrapper reg ctx dao w

/-- The method `BaseDao.CountByWrapper`. -/
def BaseDao.CountByWrapper (reg : Registry) (dao : BaseDao) (ctx : Context)
    (w : Wrapper) : Option Issued :=
  match dao.CheckDao with
  | some e => some (Issued.failed e)
  | none =>
    match w.GetError with
    | some e => some (Issued.failed e)
    | none => (countByWrapper reg ctx dao w).out

/-! ## Parameter slices in memory (`operation.go`, `wrapper.go`)

The rendering functions receive the query specification by value, yet the copy shares
the backing array of `whereParams` with the wrapper, and `getWhereSql` appends through
`&info.whereParams`.  This section renders on slice headers over a heap of backing
arrays, so that every `append` of the source is a write to memory. -/

/-- A slice header: the backing array, the length and the capacity. -/
structure Slice where
  arr : Nat
  len : Nat
  cap : Nat

/-- The `nil` slice. -/
def Slice.nil : Slice := ⟨0, 0, 0⟩

/-- The backing arrays of the `[]interface{}` slices: `cells a i` is element `i` of the
array `a`, the arrays below `next` have been allocated, and `growth` is the capacity
the runtime picks when `append` has to allocate (from the old capacity and the length
that is needed). -/
structure Heap where
  cells : Nat → Nat → Value
  next : Nat
  growth : Nat → Nat → Nat

/-- The elements a slice header shows: the first `len` cells of its backing array. -/
def Heap.view (h : Heap) (s : Slice) : List Value :=
  (List.range s.len).map (h.cells s.arr)

/-- The heap after `vs` has been stored in the array `a` from index `start` on. -/
def Heap.writeFrom (h : Heap) (a : Nat) (start : Nat) (vs : List Value) : Heap :=
  { h with cells := fun b i =>
      if b = a ∧ start ≤ i then (vs[i - start]?).getD (h.cells b i) else h.cells b i }

/-- The built-in `append(s, vs...)`: when the capacity suffices the elements are
stored in the backing array of `s` behind its length and the header grows in length;
otherwise a new array is allocated, the elements of `s` are copied to it and `vs` is
stored behind them. -/
def goAppend (h : Heap) (s : Slice) (vs : List Value) : Heap × Slice :=
  if s.len + vs.length ≤ s.cap then
    (h.writeFrom s.arr s.len vs, ⟨s.arr, s.len + vs.length, s.cap⟩)
  else
    ({ h.writeFrom h.next 0 (h.view s ++ vs) with next := h.next + 1 },
      ⟨h.next, s.len + vs.length,
        max (s.len + vs.length) (h.growth s.cap (s.len + vs.length))⟩)

/-- What a rendering function returns, with `params` as a slice header, and the heap
when it returns. -/
structure MemOut where
  result : String
  err : Option SqlError
  heap : Heap
  params : Slice

/-- The returned values with the elements of `params` read from the heap. -/
def MemOut.abs (o : MemOut) : SqlOut := ⟨o.result, o.err, o.heap.view o.params⟩

/-- The loop of `getWhereInSql` on a slice header: `*params = append(*params, v)`. -/
def getWhereInSqlLoopMem : List Value → String → Heap → Slice → String × Heap × Slice
  | [], result, h, params => (result, h, params)
  | v :: rest, result, h, params =>
    getWhereInSqlLoopMem rest (result ++ "?, ") (goAppend h params [v]).1
      (goAppend h params [v]).2

/-- The function `getWhereInSql` on a slice header. -/
def getWhereInSqlMem (key : String) (op : String) (value : Value) (h : Heap)
    (params : Slice) : Option MemOut :=
  if value.kind ≠ Kind.slice then
    some ⟨"", some (SqlError.inNotArray key), h, params⟩
  else
    match interfaceToSlice value with
    | (_, some e) => some ⟨"", some e, h, params⟩
    | (list, none) =>
      if list.length = 0 then
        some ⟨"", some (SqlError.inEmpty key), h, params⟩
      else
        match getWhereInSqlLoopMem list "" h params with
        | (result, h, params) =>
          match sliceTo result ((result.length : Int) - 2) with
          | none => none
          | some result => some ⟨key ++ " " ++ op ++ " (" ++ result ++ ")", none, h, params⟩

/-- The function `getWhereBetweenSql` on a slice header:
`*params = append(*params, list[0], list[1])`. -/
def getWhereBetweenSqlMem (key : String) (op : String) (value : Value) (h : Heap)
    (params : Slice) : Option MemOut :=
  if value.kind ≠ Kind.slice then
    some ⟨"", some (SqlError.betweenFormat key), h, params⟩
  else
    match interfaceToSlice value with
    | (_, some e) => some ⟨"", some e, h, params⟩
    | (list, none) =>
      if list.length ≠ 2 then
        some ⟨"", some (SqlError.betweenCount key), h, params⟩
      else
        match list[0]?, list[1]? with
        | some a, some b =>
          some ⟨key ++ " " ++ op ++ " ? and ?", none, (goAppend h params [a, b]).1,
            (goAppend h params [a, b]).2⟩
        | _, _ => none

/-- The function `getWhereApplySql` on a slice header:
`*params = append(*params, list[1:]...)`. -/
def getWhereApplySqlMem (key : String) (value : Value) (h : Heap) (params : Slice) :
    Option MemOut :=
  if value.kind ≠ Kind.slice then
    some ⟨"", some (SqlError.applyFormat key), h, params⟩
  else
    match interfaceToSlice value with
    | (_, some e) => some ⟨"", some e, h, params⟩
    | (list, none) =>
      if list.length < 1 then
        some ⟨"", some (SqlError.applyCount key), h, params⟩
      else
        match list[0]? with
        | none => none
        | some first =>
          match first with
          | .str fragment =>
            some ⟨"(" ++ fragment ++ ")", none, (goAppend h params (list.drop 1)).1,
              (goAppend h params (list.drop 1)).2⟩
          | _ => some ⟨"", some (SqlError.applyKind key), h, params⟩

/-- What the loop of `getWhereSql` holds when it stops, with the parameters as a slice
header, and the heap at that point. -/
structure WhereLoopMemOut where
  whereList : List String
  err : Option SqlError
  heap : Heap
  params : Slice

/-- The state of the loop with the elements of `params` read from the heap. -/
def WhereLoopMemOut.abs (o : WhereLoopMemOut) : WhereLoopOut :=
  ⟨o.whereList, o.err, o.heap.view o.params⟩

/-- The loop of `getWhereSql` on a slice header. -/
def getWhereSqlLoopMem :
    List whereItem → List String → Heap → Slice → Option WhereLoopMemOut
  | [], whereList, h, params => some ⟨whereList, none, h, params⟩
  | item :: rest, whereList, h, params =>
    let field := keyFormat item.field
    if item.value.kind = Kind.map then
      some ⟨whereList, some (SqlError.whereValueMap item), h, params⟩
    else if item.op = "" then
      some ⟨whereList, some (SqlError.opEmpty item), h, params⟩
    else if isSimpleOp item.op then
      getWhereSqlLoopMem rest (whereList ++ [field ++ " " ++ item.op ++ " ?"])
        (goAppend h params [item.value]).1 (goAppend h params [item.value]).2
    else if item.op = "in" || item.op = "not in" then
      match getWhereInSqlMem field item.op item.value h params with
      | none => none
      | some out =>
        match out.err with
        | some e => some ⟨whereList ++ [out.result], some e, out.heap, out.params⟩
        | none => getWhereSqlLoopMem rest (whereList ++ [out.result]) out.heap out.params
    else if item.op = "between" || item.op = "not between" then
      match getWhereBetweenSqlMem field item.op item.value h params with
      | none => none
      | some out =>
        match out.err with
        | some e => some ⟨whereList ++ [out.result], some e, out.heap, out.params⟩
        | none => getWhereSqlLoopMem rest (whereList ++ [out.result]) out.heap out.params
    else if item.op = "apply" then
      match getWhereApplySqlMem field item.value h params with
      | none => none
      | some out =>
        match out.err with
        | some e => some ⟨whereList ++ [out.result], some e, out.heap, out.params⟩
        | none => getWhereSqlLoopMem rest (whereList ++ [out.result]) out.heap out.params
    else
      some ⟨whereList, some (SqlError.opNotSupport item.op field), h, params⟩

/-- The function `getWhereSql` on a slice header; `MemOut.params` is `*params` when the
function returns. -/
def getWhereSqlMem (where_ : List whereItem) (h : Heap) (params : Slice) : Option MemOut :=
  if where_.length = 0 then
    some ⟨"", none, h, params⟩
  else
    match getWhereSqlLoopMem where_ [] h params with
    | none => none
    | some out =>
      match out.err with
      | some e => some ⟨"", some e, out.heap, out.params⟩
      | none => some ⟨stringsJoin out.whereList " and ", none, out.heap, out.params⟩

/-- A `queryInfo` value as it lies in memory: `whereParams` is a slice header, the
other fields are those of `fields` (whose own `whereParams` is not read).  The slices
`where` and `selectField` are never stored to by the rendering functions and stay
lists. -/
structure queryInfoMem where
  fields : queryInfo
  whereParams : Slice

/-- The specification a `queryInfo` value shows on a heap. -/
def queryInfoMem.read (q : queryInfoMem) (h : Heap) : queryInfo :=
  { q.fields with whereParams := h.view q.whereParams }

/-- The function `getSelectSql` on a heap.  The parameter `info` is the callee's copy
of the specification: `getWhereSql` appends through `&info.whereParams`, the header
of the copy, and the returned `params` is that header; on an error return the named
result `params` is still `nil`. -/
def getSelectSqlMem (h : Heap) (tableName : String) (info : queryInfoMem) :
    Option MemOut :=
  let tableName := if info.fields.tableName ≠ "" then info.fields.tableName else tableName
  if tableName = "" then
    some ⟨"", some SqlError.tableNameEmpty, h, Slice.nil⟩
  else
    let selectPart :=
      if info.fields.selectField.length ≠ 0 then stringsJoin info.fields.selectField ","
      else "*"
    let asPart := if info.fields.as ≠ "" then " " ++ info.fields.as else ""
    let joinPart := if info.fields.join ≠ "" then " " ++ info.fields.join else ""
    let whereStep : Option MemOut :=
      if info.fields.where_.length ≠ 0 then
        match getWhereSqlMem info.fields.where_ h info.whereParams with
        | none => none
        | some out =>
          match out.err with
          | some e => some ⟨out.result, some e, out.heap, out.params⟩
          | none => some ⟨" where " ++ out.result, none, out.heap, out.params⟩
      else some ⟨"", none, h, info.whereParams⟩
    match whereStep with
    | none => none
    | some w =>
      match w.err with
      | some e => some ⟨"", some e, w.heap, Slice.nil⟩
      | none =>
        let havingPart := if info.fields.having ≠ "" then " having " ++ "" else ""
        let orderPart :=
          if info.fields.order ≠ "" then " order by " ++ info.fields.order else ""
        let groupPart :=
          if info.fields.group ≠ "" then " group by " ++ info.fields.group else ""
        some ⟨"select " ++ selectPart ++ " from " ++ tableName ++ asPart ++ joinPart
            ++ w.result ++ groupPart ++ havingPart ++ orderPart
            ++ limitPart info.fields,
          none, w.heap, w.params⟩

/-- The function `getSelectOneSql` on a heap. -/
def getSelectOneSqlMem (h : Heap) (dao : BaseDao) (info : queryInfoMem) : Option MemOut :=
  let tableName := dao.GetTableName
  let selectPart :=
    if info.fields.selectField.length ≠ 0 then stringsJoin info.fields.selectField ","
    else "*"
  let whereStep : Option MemOut :=
    if info.fields.where_.length ≠ 0 then
      match getWhereSqlMem info.fields.where_ h info.whereParams with
      | none => none
      | some out =>
        match out.err with
        | some e => some ⟨out.result, some e, out.heap, out.params⟩
        | none => some ⟨" where " ++ out.result, none, out.heap, out.params⟩
    else some ⟨"", none, h, info.whereParams⟩
  match whereStep with
  | none => none
  | some w =>
    match w.err with
    | some e => some ⟨"", some e, w.heap, Slice.nil⟩
    | none =>
      let orderPart :=
        if info.fields.order.length ≠ 0 then " order by " ++ info.fields.order else ""
      let joinPart :=
        if info.fields.join.length ≠ 0 then " " ++ info.fields.join else ""
      some ⟨"select " ++ selectPart ++ " from " ++ tableName ++ joinPart ++ w.result
          ++ orderPart ++ " limit 0, 1", none, w.heap, w.params⟩

/-- A `Wrapper` value as it lies in memory. -/
structure WrapperMem where
  queryInfo : queryInfoMem
  dataItems : List dataItem
  errList : List String

/-- The memory a call through the pointer `w` runs on: the heap of backing arrays and
the `Wrapper` value the pointer refers to. -/
structure Memory where
  heap : Heap
  wrapper : WrapperMem

/-- The wrapper the pointer `w` shows in a memory. -/
def Memory.read (m : Memory) : Wrapper :=
  { queryInfo := m.wrapper.queryInfo.read m.heap, dataItems := m.wrapper.dataItems,
    errList := m.wrapper.errList }

/-- The function `countByWrapper` on a memory: the statement it issues (or the error
it returns) and the memory afterwards.  `query := w.queryInfo` copies the struct, the
slice headers included; the field list is set on the copy; the copy is handed to
`getSelectOneSql` by value; the driver receives the elements of `params`. -/
def countByWrapperMem (reg : Registry) (ctx : Context) (dao : BaseDao) (m : Memory) :
    Option (Issued × Memory) :=
  match getConnectByWrapper reg ctx dao (some m.read) false with
  | (_, some e) => some (Issued.failed e, m)
  | (connect, none) =>
    let query := m.wrapper.queryInfo
    let query := { query with fields := { query.fields with selectField := ["count(1) as cn"] } }
    match getSelectOneSqlMem m.heap dao query with
    | none => none
    | some out =>
      match out.err with
      | some e => some (Issued.failed e, { m with heap := out.heap })
      | none =>
        some (Issued.call ⟨connect, DriverMethod.GetContext, ctx, out.result,
            out.heap.view out.params⟩, { m with heap := out.heap })

/-- The method `Wrapper.ToSelectSql` on a memory: `w.queryInfo` is handed to
`getSelectSql` by value; the returned values and the memory afterwards. -/
def Wrapper.ToSelectSqlMem (m : Memory) : Option (MemOut × Memory) :=
  match getSelectSqlMem m.heap "" m.wrapper.queryInfo with
  | none => none
  | some out => some (out, { m with heap := out.heap })

/-! ## Definitions that follow the specification -/

/-- The dot-separated segments of a list of characters: a new segment starts after
each `.`. -/
def segmentChars : List Char → List (List Char)
  | [] => [[]]
  | c :: cs =>
    if c = '.' then [] :: segmentChars cs
    else
      match segmentChars cs with
      | [] => [[c]]
      | seg :: segs => (c :: seg) :: segs

/-- The dot-separated segments of a column reference (it is split at each `.`). -/
def segments (s : String) : List String :=
  (segmentChars s.data).map String.mk

/-- The normalisation of the paging fields the specification describes: the limit
becomes `L` (the limit, or 1024 when it is 0) and, when `page > 1`, the page is cleared
and the offset becomes `(page - 1) * L` in `int64` arithmetic. -/
def normalizePaging (info : queryInfo) : queryInfo :=
  let L := if info.limit = 0 then 1024 else info.limit
  if info.page > 1 then
    { info with limit := L, page := 0, offset := wrapInt64 ((info.page - 1) * L) }
  else
    { info with limit := L }

/-- What one assignment contributes to the set clause of UPDATE according to the
specification: a placeholder for the kind `value`, the raw text otherwise. -/
def setClause (fmtS : Value → String) (d : dataItem) : String :=
  if d.op = "value" then "`" ++ d.field ++ "` = ?"
  else "`" ++ d.field ++ "` = " ++ fmtS d.value

/-- The arguments one assignment contributes to UPDATE according to the
specification: its value for the kind `value`, nothing otherwise. -/
def setArgs (d : dataItem) : List Value :=
  if d.op = "value" then [d.value] else []

/-- The text `pre ++ s` of an optional part, present when `s` is not empty. -/
def optionalPart (pre : String) (s : String) : String :=
  if s ≠ "" then pre ++ s else ""

/-- The text of the deferred errors as the specification describes it: every message
in accumulation order, each followed by `"; "`. -/
def deferredText : List String → String
  | [] => ""
  | e :: rest => e ++ "; " ++ deferredText rest

/-- Every assignment has the kind `value` or the kind `exp`. -/
def kindsOk (data : List dataItem) : Prop :=
  ∀ d ∈ data, d.op = "value" ∨ d.op = "exp"

/-- The wrappers whose assignments are accumulated only through `Set`, `SetJson`,
`SetExp` and `structToDataItems` (as `Insert` and `UpdateById` store them); the query
specification and the deferred errors may be anything. -/
inductive Wrapper.Built : Wrapper → Prop where
  | start : Wrapper.Built GetWrapper
  | set (w : Wrapper) (column : String) (value : Value) :
      Wrapper.Built w → Wrapper.Built (w.Set column value)
  | setJson (jsonMarshal : Value → Except String String) (fmtV : Value → String)
      (w : Wrapper) (column : String) (value : Value) :
      Wrapper.Built w → Wrapper.Built (w.SetJson jsonMarshal fmtV column value)
  | setExp (w : Wrapper) (column : String) (value : String) :
      Wrapper.Built w → Wrapper.Built (w.SetExp column value)
  | fromData (w : Wrapper) (data : ReflectData) (tag ignoreKey : String)
      (items : List dataItem) :
      structToDataItems data tag ignoreKey = some (items, none) →
      Wrapper.Built w → Wrapper.Built { w with dataItems := items }
  | query (w : Wrapper) (q : Sqlbp.queryInfo) (errs : List String) :
      Wrapper.Built w → Wrapper.Built { w with queryInfo := q, errList := errs }

/-- The operators of the specification's closed set. -/
def supportedOps : List String :=
  ["=", "!=", "<", "<=", ">", ">=", "<>", "like", "in", "not in", "between",
    "not between", "apply"]

/-! ## Auxiliary definitions for the proofs -/

/-- The text a builder loop accumulates: every element followed by `", "`. -/
def joinTrail : List String → String
  | [] => ""
  | x :: xs => x ++ ", " ++ joinTrail xs

/-- The clause and the arguments one condition contributes when it renders, in closed
form; `none` when it does not render.  Used to state the loop invariant of
`getWhereSql`. -/
def clauseOf (item : whereItem) : Option (String × List Value) :=
  if item.value.kind = Kind.map then none
  else if item.op = "" then none
  else if isSimpleOp item.op then
    some (keyFormat item.field ++ " " ++ item.op ++ " ?", [item.value])
  else if item.op = "in" || item.op = "not in" then
    match item.value with
    | .slice (x :: xs) =>
      some (keyFormat item.field ++ " " ++ item.op ++ " ("
        ++ stringsJoin (List.replicate (xs.length + 1) "?") ", " ++ ")", x :: xs)
    | _ => none
  else if item.op = "between" || item.op = "not between" then
    match item.value with
    | .slice [a, b] => some (keyFormat item.field ++ " " ++ item.op ++ " ? and ?", [a, b])
    | _ => none
  else if item.op = "apply" then
    match item.value with
    | .slice (.str fragment :: args) => some ("(" ++ fragment ++ ")", args)
    | _ => none
  else none

/-- The clause of a condition that renders (the empty text otherwise). -/
def clauseText (item : whereItem) : String :=
  match clauseOf item with
  | some c => c.1
  | none => ""

/-- The arguments of a condition that renders (none otherwise). -/
def clauseArgs (item : whereItem) : List Value :=
  match clauseOf item with
  | some c => c.2
  | none => []

/-- The frame of a condition method: `w2` is `w1` with `item` appended to the end of
the condition list and nothing else changed. -/
def appendsCondition (w1 w2 : Wrapper) (item : whereItem) : Prop :=
  w2.queryInfo.where_ = w1.queryInfo.where_ ++ [item] ∧
  { w2.queryInfo with where_ := w1.queryInfo.where_ } = w1.queryInfo ∧
  w2.dataItems = w1.dataItems ∧
  w2.errList = w1.errList

/-- The allocated cells outside the spare capacity of the slice `s0` hold in `h` what
they held in `h0`. -/
def Frame (h0 : Heap) (s0 : Slice) (h : Heap) : Prop :=
  h0.next ≤ h.next ∧
    ∀ a i, a < h0.next → (a ≠ s0.arr ∨ i < s0.len) → h.cells a i = h0.cells a i

/-- The frame together with where the running header `s` lies: it extends `s0` in
place, or its array was allocated after `h0`. -/
def Keeps (h0 : Heap) (s0 : Slice) (h : Heap) (s : Slice) : Prop :=
  Frame h0 s0 h ∧ ((s.arr = s0.arr ∧ s0.len ≤ s.len) ∨ h0.next ≤ s.arr)

/-! ## Lemmas on the string helpers -/

theorem sliceTo_append_two (s t : String) (h : t.length = 2) :
    sliceTo (s ++ t) (((s ++ t).length : Int) - 2) = some s := by
  have hlen : (((s ++ t).length : Int) - 2) = (s.length : Int) := by
    rw [String.length_append, h]; push_cast; ring
  rw [hlen]
  unfold sliceTo
  have hle : (0 : Int) ≤ (s.length : Int) ∧ (s.length : Int) ≤ ((s ++ t).length : Int) := by
    constructor
    · exact Int.natCast_nonneg _
    · rw [String.length_append]; push_cast; omega
  rw [if_pos hle]
  have htake : List.take s.length (s ++ t).data = s.data := by
    rw [String.data_append]; exact List.take_left _ _
  simp [htake]

theorem joinTrail_cons (x : String) (xs : List String) :
    joinTrail (x :: xs) = stringsJoin (x :: xs) ", " ++ ", " := by
  induction xs generalizing x with
  | nil => simp [joinTrail, stringsJoin]
  | cons y ys ih =>
    rw [joinTrail, ih y, stringsJoin]
    simp [String.append_assoc]

theorem sliceTo_joinTrail (x : String) (xs : List String) :
    sliceTo (joinTrail (x :: xs)) (((joinTrail (x :: xs)).length : Int) - 2)
      = some (stringsJoin (x :: xs) ", ") := by
  rw [joinTrail_cons]
  exact sliceTo_append_two _ _ rfl

theorem placeholders_append (s t : String) :
    placeholders (s ++ t) = placeholders s + placeholders t := by
  simp [placeholders, String.data_append, List.count_append]

theorem placeholders_stringsJoin_replicate (n : Nat) :
    placeholders (stringsJoin (List.replicate n "?") ", ") = n := by
  induction n with
  | zero => rfl
  | succ k ih =>
    cases k with
    | zero => rfl
    | succ j =>
      have h : List.replicate (j + 1 + 1) "?" = "?" :: "?" :: List.replicate j "?" := rfl
      have h2 : List.replicate (j + 1) "?" = "?" :: List.replicate j "?" := rfl
      rw [h, stringsJoin, placeholders_append, placeholders_append]
      rw [h2] at ih
      rw [ih]
      have h3 : placeholders "?" = 1 := by decide
      have h4 : placeholders ", " = 0 := by decide
      omega

/-! ## Lemmas on the WHERE rendering -/

theorem getWhereInSqlLoop_eq (l : List Value) (r : String) (p : List Value) :
    getWhereInSqlLoop l r p = (r ++ joinTrail (l.map fun _ => "?"), p ++ l) := by
  induction l generalizing r p with
  | nil => simp [getWhereInSqlLoop, joinTrail]
  | cons v rest ih =>
    rw [getWhereInSqlLoop, ih]
    have h : "?, " = "?" ++ ", " := by decide
    simp [joinTrail, String.append_assoc, h]

theorem getWhereInSql_slice (key op : String) (x : Value) (xs p : List Value) :
    getWhereInSql key op (Value.slice (x :: xs)) p
      = some ⟨key ++ " " ++ op ++ " (" ++ stringsJoin (List.replicate (xs.length + 1) "?") ", "
          ++ ")", none, p ++ x :: xs⟩ := by
  have hs := sliceTo_joinTrail "?" (xs.map fun _ => "?")
  simp only [getWhereInSql, Value.kind, interfaceToSlice, getWhereInSqlLoop_eq,
    List.map_cons, String.empty_append]
  simp only [List.map_const'] at hs ⊢
  simp [hs, List.replicate_succ]


theorem getWhereBetweenSql_pair (key op : String) (a b : Value) (p : List Value) :
    getWhereBetweenSql key op (Value.slice [a, b]) p
      = some ⟨key ++ " " ++ op ++ " ? and ?", none, p ++ [a, b]⟩ := by
  simp [getWhereBetweenSql, Value.kind, interfaceToSlice]

theorem getWhereApplySql_text (key fragment : String) (args p : List Value) :
    getWhereApplySql key (Value.slice (Value.str fragment :: args)) p
      = some ⟨"(" ++ fragment ++ ")", none, p ++ args⟩ := by
  simp [getWhereApplySql, Value.kind, interfaceToSlice]

theorem getWhereSqlLoop_cons_some (item : whereItem) (rest : List whereItem)
    (wl : List String) (p : List Value) (s : String) (a : List Value)
    (h : clauseOf item = some (s, a)) :
    getWhereSqlLoop (item :: rest) wl p = getWhereSqlLoop rest (wl ++ [s]) (p ++ a) := by
  obtain ⟨field, op, value⟩ := item
  unfold clauseOf at h
  rw [getWhereSqlLoop]
  simp only at h ⊢
  by_cases h1 : value.kind = Kind.map
  · simp [h1] at h
  · rw [if_neg h1] at h ⊢
    by_cases h2 : op = ""
    · simp [h2] at h
    · rw [if_neg h2] at h ⊢
      by_cases h3 : isSimpleOp op = true
      · rw [if_pos h3] at h ⊢
        simp only [Option.some.injEq, Prod.mk.injEq] at h
        obtain ⟨rfl, rfl⟩ := h
        rfl
      · rw [if_neg h3] at h ⊢
        by_cases h4 : (op = "in" || op = "not in") = true
        · rw [if_pos h4] at h ⊢
          match value, h with
          | .slice (x :: xs), h =>
            simp only [Option.some.injEq, Prod.mk.injEq] at h
            obtain ⟨rfl, rfl⟩ := h
            rw [getWhereInSql_slice]
        · rw [if_neg h4] at h ⊢
          by_cases h5 : (op = "between" || op = "not between") = true
          · rw [if_pos h5] at h ⊢
            match value, h with
            | .slice [x, y], h =>
              simp only [Option.some.injEq, Prod.mk.injEq] at h
              obtain ⟨rfl, rfl⟩ := h
              rw [getWhereBetweenSql_pair]
          · rw [if_neg h5] at h ⊢
            by_cases h6 : op = "apply"
            · rw [if_pos h6] at h ⊢
              match value, h with
              | .slice (.str f :: args), h =>
                simp only [Option.some.injEq, Prod.mk.injEq] at h
                obtain ⟨rfl, rfl⟩ := h
                rw [getWhereApplySql_text]
            · rw [if_neg h6] at h
              exact absurd h (by simp)

theorem getWhereInSql_fail (key op : String) (value : Value) (p : List Value)
    (h : ∀ x xs, value ≠ Value.slice (x :: xs)) :
    ∃ e, getWhereInSql key op value p = some ⟨"", some e, p⟩ := by
  cases value with
  | slice l =>
    cases l with
    | nil => exact ⟨_, by simp [getWhereInSql, Value.kind, interfaceToSlice]; rfl⟩
    | cons x xs => exact absurd rfl (h x xs)
  | _ => exact ⟨_, by simp [getWhereInSql, Value.kind]; rfl⟩

theorem getWhereBetweenSql_fail (key op : String) (value : Value) (p : List Value)
    (h : ∀ a b, value ≠ Value.slice [a, b]) :
    ∃ e, getWhereBetweenSql key op value p = some ⟨"", some e, p⟩ := by
  cases value with
  | slice l =>
    match l, h with
    | [], _ => exact ⟨_, by simp [getWhereBetweenSql, Value.kind, interfaceToSlice]; rfl⟩
    | [_], _ => exact ⟨_, by simp [getWhereBetweenSql, Value.kind, interfaceToSlice]; rfl⟩
    | [a, b], h => exact absurd rfl (h a b)
    | _ :: _ :: _ :: _, _ =>
      exact ⟨_, by simp [getWhereBetweenSql, Value.kind, interfaceToSlice]; rfl⟩
  | _ => exact ⟨_, by simp [getWhereBetweenSql, Value.kind]; rfl⟩

theorem getWhereApplySql_fail (key : String) (value : Value) (p : List Value)
    (h : ∀ f args, value ≠ Value.slice (Value.str f :: args)) :
    ∃ e, getWhereApplySql key value p = some ⟨"", some e, p⟩ := by
  cases value with
  | slice l =>
    cases l with
    | nil => exact ⟨_, by simp [getWhereApplySql, Value.kind, interfaceToSlice]; rfl⟩
    | cons first args =>
      cases first with
      | str f => exact absurd rfl (h f args)
      | _ => exact ⟨_, by simp [getWhereApplySql, Value.kind, interfaceToSlice]; rfl⟩
  | _ => exact ⟨_, by simp [getWhereApplySql, Value.kind]; rfl⟩

theorem getWhereSqlLoop_cons_none (item : whereItem) (rest : List whereItem)
    (wl : List String) (p : List Value) (h : clauseOf item = none) :
    ∃ wl' e, getWhereSqlLoop (item :: rest) wl p = some ⟨wl', some e, p⟩ := by
  obtain ⟨field, op, value⟩ := item
  unfold clauseOf at h
  rw [getWhereSqlLoop]
  simp only at h ⊢
  by_cases h1 : value.kind = Kind.map
  · rw [if_pos h1]; exact ⟨_, _, rfl⟩
  · rw [if_neg h1] at h ⊢
    by_cases h2 : op = ""
    · rw [if_pos h2]; exact ⟨_, _, rfl⟩
    · rw [if_neg h2] at h ⊢
      by_cases h3 : isSimpleOp op = true
      · rw [if_pos h3] at h; exact absurd h (by simp)
      · rw [if_neg h3] at h ⊢
        by_cases h4 : (op = "in" || op = "not in") = true
        · rw [if_pos h4] at h ⊢
          have hv : ∀ x xs, value ≠ Value.slice (x :: xs) := by
            intro x xs hx; rw [hx] at h; exact absurd h (by simp)
          obtain ⟨e, he⟩ := getWhereInSql_fail (keyFormat field) op value p hv
          rw [he]; exact ⟨_, _, rfl⟩
        · rw [if_neg h4] at h ⊢
          by_cases h5 : (op = "between" || op = "not between") = true
          · rw [if_pos h5] at h ⊢
            have hv : ∀ a b, value ≠ Value.slice [a, b] := by
              intro a b hx; rw [hx] at h; exact absurd h (by simp)
            obtain ⟨e, he⟩ := getWhereBetweenSql_fail (keyFormat field) op value p hv
            rw [he]; exact ⟨_, _, rfl⟩
          · rw [if_neg h5] at h ⊢
            by_cases h6 : op = "apply"
            · rw [if_pos h6] at h ⊢
              have hv : ∀ f args, value ≠ Value.slice (Value.str f :: args) := by
                intro f args hx; rw [hx] at h; exact absurd h (by simp)
              obtain ⟨e, he⟩ := getWhereApplySql_fail (keyFormat field) value p hv
              rw [he]; exact ⟨_, _, rfl⟩
            · rw [if_neg h6]; exact ⟨_, _, rfl⟩

/-- The loop of `getWhereSql` on conditions that all render: the clauses and the
arguments are appended in order. -/
theorem getWhereSqlLoop_all (items : List whereItem) (wl : List String) (p : List Value)
    (h : ∀ item ∈ items, (clauseOf item).isSome) :
    getWhereSqlLoop items wl p
      = some ⟨wl ++ items.map clauseText, none, p ++ (items.map clauseArgs).flatten⟩ := by
  induction items generalizing wl p with
  | nil => simp [getWhereSqlLoop]
  | cons item rest ih =>
    have hi := h item (List.mem_cons_self _ _)
    obtain ⟨c, hc⟩ := Option.isSome_iff_exists.mp hi
    obtain ⟨s, a⟩ := c
    rw [getWhereSqlLoop_cons_some _ _ _ _ _ _ hc,
      ih _ _ (fun it hit => h it (List.mem_cons_of_mem _ hit))]
    simp [clauseText, clauseArgs, hc]

/-- The loop of `getWhereSql` stops with an error at the first condition that does
not render. -/
theorem getWhereSqlLoop_err (items : List whereItem) (wl : List String) (p : List Value)
    (h : ∃ item ∈ items, clauseOf item = none) :
    ∃ wl' e p', getWhereSqlLoop items wl p = some ⟨wl', some e, p'⟩ := by
  induction items generalizing wl p with
  | nil => simp at h
  | cons item rest ih =>
    cases hc : clauseOf item with
    | none =>
      obtain ⟨wl', e, he⟩ := getWhereSqlLoop_cons_none item rest wl p hc
      exact ⟨wl', e, p, he⟩
    | some c =>
      obtain ⟨s, a⟩ := c
      rw [getWhereSqlLoop_cons_some _ _ _ _ _ _ hc]
      apply ih
      obtain ⟨it, hmem, hnone⟩ := h
      rcases List.mem_cons.mp hmem with rfl | hmem
      · rw [hc] at hnone; exact absurd hnone (by simp)
      · exact ⟨it, hmem, hnone⟩

theorem getWhereSql_all (items : List whereItem) (p : List Value)
    (h : ∀ item ∈ items, (clauseOf item).isSome) :
    getWhereSql items p
      = some ⟨stringsJoin (items.map clauseText) " and ", none,
          p ++ (items.map clauseArgs).flatten⟩ := by
  cases items with
  | nil => simp [getWhereSql, stringsJoin]
  | cons item rest =>
    simp [getWhereSql, getWhereSqlLoop_all _ [] p h]

theorem getWhereSql_err (items : List whereItem) (p : List Value)
    (h : ∃ item ∈ items, clauseOf item = none) :
    ∃ e p', getWhereSql items p = some ⟨"", some e, p'⟩ := by
  obtain ⟨wl', e, p', he⟩ := getWhereSqlLoop_err items [] p h
  cases items with
  | nil => simp at h
  | cons item rest => exact ⟨e, p', by simp [getWhereSql, he]⟩

theorem clauseOf_isSome_of_ok (items : List whereItem) (p : List Value) (out : SqlOut)
    (hout : getWhereSql items p = some out) (herr : out.err = none) :
    ∀ item ∈ items, (clauseOf item).isSome := by
  intro item hmem
  by_contra hnot
  have hnone : clauseOf item = none := by
    cases hc : clauseOf item with
    | none => rfl
    | some c => rw [hc] at hnot; exact absurd rfl hnot
  obtain ⟨e, p', he⟩ := getWhereSql_err items p ⟨item, hmem, hnone⟩
  rw [he] at hout
  cases hout
  cases herr

theorem getWhereSql_single_some (item : whereItem) (p : List Value) (s : String)
    (a : List Value) (h : clauseOf item = some (s, a)) :
    getWhereSql [item] p = some ⟨s, none, p ++ a⟩ := by
  have hall : ∀ it ∈ [item], (clauseOf it).isSome := by
    intro it hit
    rw [List.mem_singleton.mp hit, h]; rfl
  rw [getWhereSql_all [item] p hall]
  simp [clauseText, clauseArgs, h, stringsJoin]

theorem getWhereSql_single_none (item : whereItem) (p : List Value)
    (h : clauseOf item = none) :
    ∃ e, getWhereSql [item] p = some ⟨"", some e, p⟩ := by
  obtain ⟨wl', e, he⟩ := getWhereSqlLoop_cons_none item [] [] p h
  exact ⟨e, by simp [getWhereSql, he]⟩

/-! ## Placeholder counting -/

theorem count_replaceAllChars (cs : List Char) :
    List.count '?' (replaceAllChars '.' "`.`".data cs) = List.count '?' cs := by
  induction cs with
  | nil => rfl
  | cons c cs ih =>
    unfold replaceAllChars
    by_cases hc : c = '.'
    · subst hc
      rw [if_pos rfl, List.count_append, ih]
      have h1 : List.count '?' "`.`".data = 0 := by decide
      have h2 : List.count '?' ('.' :: cs) = List.count '?' cs := by
        rw [List.count_cons]; simp
      rw [h1, h2]; omega
    · rw [if_neg hc, List.count_cons, List.count_cons, ih]

theorem placeholders_keyFormat (field : String) (h : '?' ∉ field.data) :
    placeholders (keyFormat field) = 0 := by
  unfold placeholders keyFormat stringsReplaceAll
  rw [count_replaceAllChars]
  have h0 : List.count '?' field.data = 0 := List.count_eq_zero.mpr h
  simp only [String.data_append, List.count_append, h0]
  decide

theorem placeholders_simpleOp (op : String) (h : isSimpleOp op = true) :
    placeholders op = 0 := by
  simp only [isSimpleOp, Bool.or_eq_true, decide_eq_true_eq] at h
  rcases h with ((((((rfl | rfl) | rfl) | rfl) | rfl) | rfl) | rfl) | rfl <;> decide

theorem placeholders_stringsJoin (xs : List String) (sep : String)
    (hsep : placeholders sep = 0) :
    placeholders (stringsJoin xs sep) = (xs.map placeholders).sum := by
  induction xs with
  | nil => rfl
  | cons x rest ih =>
    cases rest with
    | nil => simp [stringsJoin]
    | cons y ys =>
      rw [stringsJoin, placeholders_append, placeholders_append, ih, hsep]
      simp

/-- A condition that renders has as many `?` in its clause as it has arguments,
when its field has no `?` and, for `apply`, the fragment has one `?` per argument. -/
theorem placeholders_clauseOf (item : whereItem) (s : String) (a : List Value)
    (hc : clauseOf item = some (s, a)) (hfield : '?' ∉ item.field.data)
    (happly : item.op = "apply" → ∀ f args,
      item.value = Value.slice (Value.str f :: args) → placeholders f = args.length) :
    placeholders s = a.length := by
  obtain ⟨field, op, value⟩ := item
  have hk := placeholders_keyFormat field hfield
  unfold clauseOf at hc
  simp only at hc happly
  by_cases h1 : value.kind = Kind.map
  · simp [h1] at hc
  · rw [if_neg h1] at hc
    by_cases h2 : op = ""
    · simp [h2] at hc
    · rw [if_neg h2] at hc
      by_cases h3 : isSimpleOp op = true
      · rw [if_pos h3] at hc
        simp only [Option.some.injEq, Prod.mk.injEq] at hc
        obtain ⟨rfl, rfl⟩ := hc
        have ho := placeholders_simpleOp op h3
        have h4 : placeholders " ?" = 1 := by decide
        have h5 : placeholders " " = 0 := by decide
        simp [placeholders_append, hk, ho, h4, h5]
      · rw [if_neg h3] at hc
        by_cases h4 : (op = "in" || op = "not in") = true
        · rw [if_pos h4] at hc
          have ho : placeholders op = 0 := by
            simp only [Bool.or_eq_true, decide_eq_true_eq] at h4
            rcases h4 with rfl | rfl <;> decide
          match value, hc with
          | .slice (x :: xs), hc =>
            simp only [Option.some.injEq, Prod.mk.injEq] at hc
            obtain ⟨rfl, rfl⟩ := hc
            have h5 : placeholders " " = 0 := by decide
            have h6 : placeholders " (" = 0 := by decide
            have h7 : placeholders ")" = 0 := by decide
            simp [placeholders_append, hk, ho, h5, h6, h7,
              placeholders_stringsJoin_replicate]
        · rw [if_neg h4] at hc
          by_cases h5 : (op = "between" || op = "not between") = true
          · rw [if_pos h5] at hc
            have ho : placeholders op = 0 := by
              simp only [Bool.or_eq_true, decide_eq_true_eq] at h5
              rcases h5 with rfl | rfl <;> decide
            match value, hc with
            | .slice [x, y], hc =>
              simp only [Option.some.injEq, Prod.mk.injEq] at hc
              obtain ⟨rfl, rfl⟩ := hc
              have h6 : placeholders " " = 0 := by decide
              have h7 : placeholders " ? and ?" = 2 := by decide
              simp [placeholders_append, hk, ho, h6, h7]
          · rw [if_neg h5] at hc
            by_cases h6 : op = "apply"
            · rw [if_pos h6] at hc
              match value, hc, happly with
              | .slice (.str f :: args), hc, happly =>
                simp only [Option.some.injEq, Prod.mk.injEq] at hc
                obtain ⟨rfl, rfl⟩ := hc
                have hf := happly h6 f _ rfl
                have h7 : placeholders "(" = 0 := by decide
                have h8 : placeholders ")" = 0 := by decide
                simp [placeholders_append, hf, h7, h8]
            · rw [if_neg h6] at hc
              exact absurd hc (by simp)

/-! ## Properties of the statement builder and the router -/

/-- C1 (as amended): for every condition list (non-empty or not) on which `getWhereSql`
succeeds, in which no field name contains `?` and every `apply` fragment has as many
`?` as it has arguments, the number of `?` in the rendered WHERE clause equals the
number of arguments the call appended to the parameter list. -/
theorem getWhereSql_placeholders_eq_args (where_ : List whereItem) (p : List Value)
    (out : SqlOut) (hout : getWhereSql where_ p = some out)
    (herr : out.err = none)
    (hfield : ∀ item ∈ where_, '?' ∉ item.field.data)
    (happly : ∀ item ∈ where_, item.op = "apply" → ∀ f args,
      item.value = Value.slice (Value.str f :: args) → placeholders f = args.length) :
    ∃ appended, out.params = p ++ appended ∧
      placeholders out.result = appended.length := by
  have hall := clauseOf_isSome_of_ok where_ p out hout herr
  rw [getWhereSql_all where_ p hall] at hout
  cases hout
  refine ⟨(where_.map clauseArgs).flatten, rfl, ?_⟩
  have hsep : placeholders " and " = 0 := by decide
  simp only []
  rw [placeholders_stringsJoin _ _ hsep, List.length_flatten, List.map_map, List.map_map]
  congr 1
  apply List.map_congr_left
  intro item hmem
  obtain ⟨c, hc⟩ := Option.isSome_iff_exists.mp (hall item hmem)
  obtain ⟨s, a⟩ := c
  have := placeholders_clauseOf item s a hc (hfield item hmem) (happly item hmem)
  simp [clauseText, clauseArgs, hc, this]

/-- C1, an instance of the amended claim: an `=` condition followed by an `apply`
condition whose fragment has two `?` and two arguments. -/
theorem getWhereSql_placeholders_eq_args_witness :
    getWhereSql [⟨"age", "=", Value.int 30⟩,
        ⟨"", "apply", Value.slice [Value.str "id = ? or id = ?", Value.int 1, Value.int 2]⟩] []
      = some ⟨"`age` = ? and (id = ? or id = ?)", none,
          [Value.int 30, Value.int 1, Value.int 2]⟩ ∧
    ∃ appended, [Value.int 30, Value.int 1, Value.int 2] = [] ++ appended ∧
      placeholders "`age` = ? and (id = ? or id = ?)" = appended.length :=
  ⟨rfl,
   getWhereSql_placeholders_eq_args
    [⟨"age", "=", Value.int 30⟩,
      ⟨"", "apply", Value.slice [Value.str "id = ? or id = ?", Value.int 1, Value.int 2]⟩] []
    ⟨"`age` = ? and (id = ? or id = ?)", none, [Value.int 30, Value.int 1, Value.int 2]⟩
    rfl rfl
    (by
      intro item h
      simp only [List.mem_cons, List.mem_singleton, List.not_mem_nil, or_false] at h
      rcases h with rfl | rfl <;> decide)
    (by
      intro item h
      simp only [List.mem_cons, List.mem_singleton, List.not_mem_nil, or_false] at h
      rcases h with rfl | rfl
      · intro hop; exact absurd hop (by decide)
      · intro _ f args hv
        simp only [Value.slice.injEq, List.cons.injEq, Value.str.injEq] at hv
        obtain ⟨rfl, rfl⟩ := hv
        decide)⟩

/-- C1 fails as stated: `Apply("status = 1", 5)` renders a clause without any `?` and
appends one argument; `Eq("a?", 1)` renders a clause with two `?` and appends one
argument. -/
theorem getWhereSql_placeholders_counterexample :
    getWhereSql (GetWrapper.Apply [Value.str "status = 1", Value.int 5]).queryInfo.where_ []
      = some ⟨"(status = 1)", none, [Value.int 5]⟩ ∧
    placeholders "(status = 1)" = 0 ∧ [Value.int 5].length = 1 ∧
    getWhereSql (GetWrapper.Eq "a?" (Value.int 1)).queryInfo.where_ []
      = some ⟨"`a?` = ?", none, [Value.int 1]⟩ ∧
    placeholders "`a?` = ?" = 2 ∧ [Value.int 1].length = 1 :=
  ⟨rfl, by decide, rfl, rfl, by decide, rfl⟩

/-- C2: `getWhereSql` is a left-to-right composition.  For conditions `c1..cn` where
each `ci` rendered alone yields clause `si` and arguments `ai`, the call on the whole
list with initial parameters `p` succeeds with `s1 and ... and sn` and leaves the
parameter list `p ++ a1 ++ ... ++ an`; on the empty list it returns the empty text and
leaves the parameter list unchanged. -/
theorem getWhereSql_composition (l : List (whereItem × String × List Value))
    (p : List Value)
    (h : ∀ t ∈ l, getWhereSql [t.1] [] = some ⟨t.2.1, none, t.2.2⟩) :
    getWhereSql (l.map fun t => t.1) p
        = some ⟨stringsJoin (l.map fun t => t.2.1) " and ", none,
            p ++ (l.map fun t => t.2.2).flatten⟩ ∧
      getWhereSql [] p = some ⟨"", none, p⟩ := by
  have hcl : ∀ t ∈ l, clauseOf t.1 = some (t.2.1, t.2.2) := by
    intro t ht
    have ht' := h t ht
    cases hc : clauseOf t.1 with
    | none =>
      obtain ⟨e, he⟩ := getWhereSql_single_none t.1 [] hc
      rw [he] at ht'
      simp at ht'
    | some c =>
      obtain ⟨s, a⟩ := c
      rw [getWhereSql_single_some t.1 [] s a hc] at ht'
      simp only [Option.some.injEq, SqlOut.mk.injEq, List.nil_append, true_and] at ht'
      rw [ht'.1, ht'.2]
  have hall : ∀ item ∈ l.map (fun t => t.1), (clauseOf item).isSome := by
    intro item hmem
    obtain ⟨t, ht, rfl⟩ := List.mem_map.mp hmem
    rw [hcl t ht]; rfl
  refine ⟨?_, by simp [getWhereSql]⟩
  rw [getWhereSql_all _ p hall, List.map_map, List.map_map]
  have h1 : l.map (clauseText ∘ fun t => t.1) = l.map fun t => t.2.1 := by
    apply List.map_congr_left
    intro t ht
    simp [clauseText, hcl t ht]
  have h2 : l.map (clauseArgs ∘ fun t => t.1) = l.map fun t => t.2.2 := by
    apply List.map_congr_left
    intro t ht
    simp [clauseArgs, hcl t ht]
  rw [h1, h2]

/-- C2, an instance: three conditions rendered alone and together, starting from a
parameter list that already holds one value. -/
theorem getWhereSql_composition_witness :
    getWhereSql [⟨"age", ">=", Value.int 18⟩, ⟨"id", "in", Value.slice [Value.int 1, Value.int 2]⟩,
        ⟨"t.score", "between", Value.slice [Value.int 60, Value.int 90]⟩] [Value.str "x"]
      = some ⟨stringsJoin ["`age` >= ?", "`id` in (?, ?)", "`t`.`score` between ? and ?"] " and ",
          none,
          [Value.str "x"] ++ [[Value.int 18], [Value.int 1, Value.int 2],
            [Value.int 60, Value.int 90]].flatten⟩ ∧
      getWhereSql [] [Value.str "x"] = some ⟨"", none, [Value.str "x"]⟩ :=
  getWhereSql_composition
    [(⟨"age", ">=", Value.int 18⟩, "`age` >= ?", [Value.int 18]),
     (⟨"id", "in", Value.slice [Value.int 1, Value.int 2]⟩, "`id` in (?, ?)",
        [Value.int 1, Value.int 2]),
     (⟨"t.score", "between", Value.slice [Value.int 60, Value.int 90]⟩,
        "`t`.`score` between ? and ?", [Value.int 60, Value.int 90])]
    [Value.str "x"]
    (by
      intro t ht
      simp only [List.mem_cons, List.mem_singleton, List.not_mem_nil, or_false] at ht
      rcases ht with rfl | rfl | rfl <;> rfl)

/-- C3: a condition with operator `in` or `not in` fails to render when its value is
not a slice or is an empty slice; when its value is a slice of `N >= 1` elements the
clause is the quoted field, the operator and a parenthesised list of exactly `N`
placeholders, and exactly the `N` elements are appended to the arguments in order. -/
theorem getWhereSql_in (item : whereItem) (p : List Value)
    (hop : item.op = "in" ∨ item.op = "not in") :
    (∀ xs, item.value = Value.slice xs → xs ≠ [] →
      getWhereSql [item] p
        = some ⟨keyFormat item.field ++ " " ++ item.op ++ " ("
            ++ stringsJoin (List.replicate xs.length "?") ", " ++ ")", none, p ++ xs⟩ ∧
      placeholders (stringsJoin (List.replicate xs.length "?") ", ") = xs.length) ∧
    ((item.value.kind ≠ Kind.slice ∨ item.value = Value.slice []) →
      ∃ e, getWhereSql [item] p = some ⟨"", some e, p⟩) := by
  obtain ⟨field, op, value⟩ := item
  simp only at hop ⊢
  constructor
  · intro xs hv hne
    subst hv
    refine ⟨?_, placeholders_stringsJoin_replicate _⟩
    cases xs with
    | nil => exact absurd rfl hne
    | cons x rest =>
      apply getWhereSql_single_some
      rcases hop with rfl | rfl <;> simp [clauseOf, Value.kind, isSimpleOp]
  · intro hv
    apply getWhereSql_single_none
    rcases hv with hk | rfl
    · cases value <;> first
        | exact absurd rfl hk
        | (rcases hop with rfl | rfl <;> simp [clauseOf, Value.kind, isSimpleOp])
    · rcases hop with rfl | rfl <;> simp [clauseOf, Value.kind, isSimpleOp]

/-- C3, an instance: `id in [1, 2, 3]`. -/
theorem getWhereSql_in_witness :
    getWhereSql [⟨"id", "in", Value.slice [Value.int 1, Value.int 2, Value.int 3]⟩] []
      = some ⟨"`id` in (?, ?, ?)", none, [Value.int 1, Value.int 2, Value.int 3]⟩ ∧
    placeholders "?, ?, ?" = 3 ∧
    ∃ e, getWhereSql [⟨"id", "not in", Value.slice []⟩] [] = some ⟨"", some e, []⟩ :=
  ⟨((getWhereSql_in ⟨"id", "in", Value.slice [Value.int 1, Value.int 2, Value.int 3]⟩ []
      (Or.inl rfl)).1 [Value.int 1, Value.int 2, Value.int 3] rfl (by simp)).1,
   by decide,
   (getWhereSql_in ⟨"id", "not in", Value.slice []⟩ [] (Or.inr rfl)).2 (Or.inr rfl)⟩

/-- C4: a condition with operator `between` or `not between` renders if and only if its
value is a slice of exactly two elements; the clause is then the quoted field, the
operator and `? and ?`, and the two elements are appended to the arguments in order. -/
theorem getWhereSql_between (item : whereItem) (p : List Value)
    (hop : item.op = "between" ∨ item.op = "not between") :
    (∀ a b, item.value = Value.slice [a, b] →
      getWhereSql [item] p
        = some ⟨keyFormat item.field ++ " " ++ item.op ++ " ? and ?", none, p ++ [a, b]⟩) ∧
    ((∀ a b, item.value ≠ Value.slice [a, b]) →
      ∃ e, getWhereSql [item] p = some ⟨"", some e, p⟩) ∧
    ((∃ out, getWhereSql [item] p = some out ∧ out.err = none) ↔
      ∃ a b, item.value = Value.slice [a, b]) := by
  obtain ⟨field, op, value⟩ := item
  simp only at hop ⊢
  have hpair : ∀ a b, value = Value.slice [a, b] →
      getWhereSql [⟨field, op, value⟩] p
        = some ⟨keyFormat field ++ " " ++ op ++ " ? and ?", none, p ++ [a, b]⟩ := by
    intro a b hv
    subst hv
    apply getWhereSql_single_some
    rcases hop with rfl | rfl <;> simp [clauseOf, Value.kind, isSimpleOp]
  have hfail : (∀ a b, value ≠ Value.slice [a, b]) →
      ∃ e, getWhereSql [⟨field, op, value⟩] p = some ⟨"", some e, p⟩ := by
    intro hv
    apply getWhereSql_single_none
    have hnone : ∀ v : Value, (∀ a b, v ≠ Value.slice [a, b]) →
        (match v with
          | Value.slice [a, b] => some (keyFormat field ++ " " ++ op ++ " ? and ?", [a, b])
          | _ => none) = none := by
      intro v hv'
      split
      · exact absurd rfl (hv' _ _)
      · rfl
    rcases hop with rfl | rfl <;>
      simp [clauseOf, isSimpleOp, hnone value hv]
  refine ⟨hpair, hfail, ?_⟩
  constructor
  · rintro ⟨out, hout, herr⟩
    by_contra hno
    have hv : ∀ a b, value ≠ Value.slice [a, b] := fun a b hab => hno ⟨a, b, hab⟩
    obtain ⟨e, he⟩ := hfail hv
    rw [he] at hout
    cases hout
    cases herr
  · rintro ⟨a, b, hab⟩
    exact ⟨_, hpair a b hab, rfl⟩

/-- C4, an instance: `id between 1 and 3` renders, a one-element value does not. -/
theorem getWhereSql_between_witness :
    getWhereSql [⟨"id", "between", Value.slice [Value.int 1, Value.int 3]⟩] []
      = some ⟨"`id` between ? and ?", none, [Value.int 1, Value.int 3]⟩ ∧
    ∃ e, getWhereSql [⟨"id", "not between", Value.slice [Value.int 1]⟩] []
      = some ⟨"", some e, []⟩ :=
  ⟨(getWhereSql_between ⟨"id", "between", Value.slice [Value.int 1, Value.int 3]⟩ []
      (Or.inl rfl)).1 (Value.int 1) (Value.int 3) rfl,
   (getWhereSql_between ⟨"id", "not between", Value.slice [Value.int 1]⟩ []
      (Or.inr rfl)).2.1 (by intro a b h; simp at h)⟩

/-- C5: UPDATE or DELETE with zero conditions fails before producing SQL: whatever
the table binding, the assignments and the parameter list, `getUpdateSql` and
`getDeleteSql` on an empty condition list return an error and an empty SQL text, and
leave the parameter list as it was. -/
theorem update_delete_without_conditions_fail (fmtS : Value → String) (dao : BaseDao)
    (data : List dataItem) (params : List Value) :
    (∃ e, getUpdateSql fmtS dao data [] params = some ⟨"", some e, params⟩) ∧
    (∃ e, getDeleteSql dao [] params = some ⟨"", some e, params⟩) := by
  constructor
  · cases data with
    | nil => exact ⟨SqlError.dataEmpty, by simp [getUpdateSql]⟩
    | cons d ds => exact ⟨SqlError.updateAll, by simp [getUpdateSql]⟩
  · exact ⟨SqlError.deleteAll, by simp [getDeleteSql]⟩

/-- C6: INSERT or UPDATE with zero assignments fails: whatever the table binding, the
conditions and the parameter list, `getInsertSql` and `getUpdateSql` on an empty
assignment list return an error, an empty SQL text and the parameter list unchanged. -/
theorem insert_update_without_assignments_fail (fmtS : Value → String) (dao : BaseDao)
    (where_ : List whereItem) (params : List Value) :
    (∃ e, getInsertSql dao [] params = some ⟨"", some e, params⟩) ∧
    (∃ e, getUpdateSql fmtS dao [] where_ params = some ⟨"", some e, params⟩) :=
  ⟨⟨SqlError.dataEmpty, by simp [getInsertSql]⟩,
   ⟨SqlError.dataEmpty, by simp [getUpdateSql]⟩⟩

theorem getInsertSqlLoop_eq (data : List dataItem) (acc : InsertLoopOut) :
    getInsertSqlLoop data acc
      = ⟨acc.fieldString ++ joinTrail (data.map fun d => "`" ++ d.field ++ "`"),
          acc.valueString ++ joinTrail (data.map fun _ => "?"),
          acc.params ++ data.map fun d => d.value⟩ := by
  induction data generalizing acc with
  | nil => simp [getInsertSqlLoop, joinTrail]
  | cons d rest ih =>
    rw [getInsertSqlLoop, ih]
    have h1 : "?, " = "?" ++ ", " := by decide
    have h2 : "`, " = "`" ++ ", " := by decide
    simp [joinTrail, String.append_assoc, h1, h2]

/-- C7: for a non-empty assignment list `(f1,v1)..(fn,vn)` and table name `t`,
`getInsertSql` renders the insert statement with the back-quoted table name, the
back-quoted fields joined by `", "` and exactly `n` placeholders joined by `", "`, and
appends `v1..vn` to the arguments in order. -/
theorem getInsertSql_render (dao : BaseDao) (data : List dataItem) (params : List Value)
    (h : data ≠ []) :
    getInsertSql dao data params
      = some ⟨"insert into `" ++ dao.tableName ++ "`("
            ++ stringsJoin (data.map fun d => "`" ++ d.field ++ "`") ", "
            ++ ") values (" ++ stringsJoin (List.replicate data.length "?") ", " ++ ")",
          none, params ++ data.map fun d => d.value⟩ ∧
      placeholders (stringsJoin (List.replicate data.length "?") ", ") = data.length := by
  refine ⟨?_, placeholders_stringsJoin_replicate _⟩
  cases data with
  | nil => exact absurd rfl h
  | cons d rest =>
    have hf := sliceTo_joinTrail ("`" ++ d.field ++ "`")
      (rest.map fun d => "`" ++ d.field ++ "`")
    have hv := sliceTo_joinTrail "?" (rest.map fun _ => "?")
    simp only [getInsertSql, getInsertSqlLoop_eq, List.map_cons, String.empty_append,
      BaseDao.GetTableName]
    simp only [List.map_const'] at hv ⊢
    simp [hf, hv, List.replicate_succ]

/-- C7, the scenario of the specification: `name = "a"`, `age = 30` on table `t`. -/
theorem getInsertSql_render_witness :
    getInsertSql ⟨"t", "master", ""⟩
        [⟨"name", "value", Value.str "a"⟩, ⟨"age", "value", Value.int 30⟩] []
      = some ⟨"insert into `t`(`name`, `age`) values (?, ?)", none,
          [Value.str "a", Value.int 30]⟩ ∧
      placeholders "?, ?" = 2 :=
  getInsertSql_render ⟨"t", "master", ""⟩
    [⟨"name", "value", Value.str "a"⟩, ⟨"age", "value", Value.int 30⟩] [] (by simp)

/-- C8 (as amended): a successful `getSelectSql` ends with the limit clause computed
from the specification, and that clause is ` limit 20, 10` for `page = 3`,
`limit = 10`; ` limit 5, <limit>` for `offset = 5` and no page (with 1024 for an unset
limit); and ` limit 1024`, the start being left out, when neither page, offset nor
limit is set. -/
theorem getSelectSql_limit (tableName : String) (info : queryInfo) (out : SqlOut)
    (hout : getSelectSql tableName info = some out) (herr : out.err = none) :
    (∃ pre, out.result = pre ++ limitPart info) ∧
    (info.page = 3 → info.limit = 10 → limitPart info = " limit 20, 10") ∧
    (info.page = 0 → info.offset = 5 →
      limitPart info = " limit 5, " ++ fmtD (if info.limit = 0 then 1024 else info.limit)) ∧
    (info.page = 0 → info.offset = 0 → info.limit = 0 → limitPart info = " limit 1024") := by
  refine ⟨?_, ?_, ?_, ?_⟩
  · unfold getSelectSql at hout
    simp only at hout
    repeat' split at hout
    all_goals first
      | (simp at hout; done)
      | (simp only [Option.some.injEq] at hout
         subst hout
         first
           | (simp at herr; done)
           | exact ⟨_, rfl⟩)
  · intro hp hl
    have h : (" limit " ++ fmtD 20 ++ ", " ++ fmtD 10 : String) = " limit 20, 10" := by decide
    simpa [limitPart, hp, hl, wrapInt64] using h
  · intro hp ho
    have h : (" limit " ++ fmtD 5 ++ ", " : String) = " limit 5, " := by decide
    simp [limitPart, hp, ho, h]
  · intro hp ho hl
    have h : (" limit " ++ fmtD 1024 : String) = " limit 1024" := by decide
    simpa [limitPart, hp, ho, hl] using h

/-- C8, an instance of the amended claim: `page = 3`, `limit = 10` on table `t`. -/
theorem getSelectSql_limit_witness :
    getSelectSql "t" { page := 3, limit := 10 }
      = some ⟨"select * from t limit 20, 10", none, []⟩ ∧
    ∃ pre, "select * from t limit 20, 10" = pre ++ " limit 20, 10" :=
  ⟨rfl, (getSelectSql_limit "t" { page := 3, limit := 10 }
    ⟨"select * from t limit 20, 10", none, []⟩ rfl rfl).1⟩

/-- C8 fails as stated: with neither page, offset nor limit set the statement ends in
` limit 1024`, not in `limit 0,1024`; with `page = 3`, `limit = 10` and with
`offset = 5` the two numbers are separated by `", "`. -/
theorem getSelectSql_limit_counterexample :
    getSelectSql "t" {} = some ⟨"select * from t limit 1024", none, []⟩ ∧
    limitPart {} ≠ " limit 0,1024" ∧
    getSelectSql "t" { page := 3, limit := 10 }
      = some ⟨"select * from t limit 20, 10", none, []⟩ ∧
    limitPart { page := 3, limit := 10 } ≠ " limit 20,10" ∧
    getSelectSql "t" { offset := 5 } = some ⟨"select * from t limit 5, 1024", none, []⟩ ∧
    limitPart { offset := 5 } ≠ " limit 5,1024" :=
  ⟨rfl, by decide, rfl, by decide, rfl, by decide⟩

/-- C9: connection routing follows a strict precedence.  A transaction handle bound
to the context is returned whatever `useMaster`, the wrapper, the binding and the
registry are; without one, the primary name is looked up when `useMaster` is true or
the wrapper's force-primary hint is set, and otherwise the replica name, which is the
primary name when no replica name is configured. -/
theorem getConnectByWrapper_precedence (reg : Registry) (ctx : Context) (dao : BaseDao)
    (w : Option Wrapper) (useMaster : Bool) :
    (∀ tx, GetCtxTransaction ctx = some tx →
      getConnectByWrapper reg ctx dao w useMaster = (connectInter.tx tx, none)) ∧
    (∀ tx, getConnectByWrapper reg (SetCtxTransaction ctx (some tx)) dao w useMaster
      = (connectInter.tx tx, none)) ∧
    (GetCtxTransaction ctx = none →
      (useMaster = true ∨ ∃ wr, w = some wr ∧ wr.queryInfo.queryUseMaster = true) →
      getConnectByWrapper reg ctx dao w useMaster
        = (connectInter.db (getDbConnect reg dao.dbName).1,
            (getDbConnect reg dao.dbName).2)) ∧
    (GetCtxTransaction ctx = none → useMaster = false →
      (∀ wr, w = some wr → wr.queryInfo.queryUseMaster = false) →
      getConnectByWrapper reg ctx dao w useMaster
        = (connectInter.db
            (getDbConnect reg (if dao.slaveDbName = "" then dao.dbName
              else dao.slaveDbName)).1,
           (getDbConnect reg (if dao.slaveDbName = "" then dao.dbName
              else dao.slaveDbName)).2)) := by
  refine ⟨?_, ?_, ?_, ?_⟩
  · intro tx htx
    simp [getConnectByWrapper, htx]
  · intro tx
    have htx : GetCtxTransaction (SetCtxTransaction ctx (some tx)) = some tx := by
      simp [GetCtxTransaction, SetCtxTransaction, List.lookup]
    simp [getConnectByWrapper, htx]
  · intro hno hforce
    rcases hforce with hm | ⟨wr, rfl, hq⟩
    · simp [getConnectByWrapper, hno, hm, BaseDao.GetDbName]
    · simp [getConnectByWrapper, hno, hq, BaseDao.GetDbName]
  · intro hno hm hw
    cases w with
    | none => simp [getConnectByWrapper, hno, hm, BaseDao.GetSlaveDbName]
    | some wr =>
      simp [getConnectByWrapper, hno, hm, hw wr rfl, BaseDao.GetSlaveDbName]

/-- C9, an instance: with a registry holding a primary and a replica, a bound
transaction wins over a forced primary; without one, the force-primary hint selects
the primary and the default is the replica. -/
theorem getConnectByWrapper_precedence_witness :
    getConnectByWrapper
        ⟨fun n => if n = "m" then some (some ⟨1⟩) else if n = "s" then some (some ⟨2⟩)
          else none, true⟩
        (SetCtxTransaction [] (some ⟨7⟩)) ⟨"t", "m", "s"⟩
        (some (GetWrapper.QueryUseMaster true)) true
      = (connectInter.tx ⟨7⟩, none) ∧
    (getConnectByWrapper
        ⟨fun n => if n = "m" then some (some ⟨1⟩) else if n = "s" then some (some ⟨2⟩)
          else none, true⟩
        [] ⟨"t", "m", "s"⟩ (some (GetWrapper.QueryUseMaster true)) false).1
      = connectInter.db (some ⟨1⟩) ∧
    (getConnectByWrapper
        ⟨fun n => if n = "m" then some (some ⟨1⟩) else if n = "s" then some (some ⟨2⟩)
          else none, true⟩
        [] ⟨"t", "m", "s"⟩ (some GetWrapper) false).1
      = connectInter.db (some ⟨2⟩) :=
  ⟨(getConnectByWrapper_precedence _ [] ⟨"t", "m", "s"⟩
      (some (GetWrapper.QueryUseMaster true)) true).2.1 ⟨7⟩,
   by decide, by decide⟩

/-- C10: each fluent comparison method appends exactly one condition to the end of
the wrapper's condition list and changes nothing else, with the operator `=`, `!=`,
`>`, `>=`, `<`, `<=`, `in`, `not in` for `Eq`, `Ne`, `Gt`, `Ge`, `Lt`, `Le`, `In`,
`NotIn`; and `GetWrapper().Eq("age",30).In("id",[1,2,3])` renders the WHERE clause
with one placeholder for `age`, three for `id`, and the arguments `[30,1,2,3]`. -/
theorem fluent_comparison_appends (w : Wrapper) (column : String) (value : Value) :
    appendsCondition w (w.Eq column value) ⟨column, "=", value⟩ ∧
    appendsCondition w (w.Ne column value) ⟨column, "!=", value⟩ ∧
    appendsCondition w (w.Gt column value) ⟨column, ">", value⟩ ∧
    appendsCondition w (w.Ge column value) ⟨column, ">=", value⟩ ∧
    appendsCondition w (w.Lt column value) ⟨column, "<", value⟩ ∧
    appendsCondition w (w.Le column value) ⟨column, "<=", value⟩ ∧
    appendsCondition w (w.In column value) ⟨column, "in", value⟩ ∧
    appendsCondition w (w.NotIn column value) ⟨column, "not in", value⟩ ∧
    getWhereSql ((GetWrapper.Eq "age" (Value.int 30)).In "id"
        (Value.slice [Value.int 1, Value.int 2, Value.int 3])).queryInfo.where_ []
      = some ⟨"`age` = ? and `id` in (?, ?, ?)", none,
          [Value.int 30, Value.int 1, Value.int 2, Value.int 3]⟩ ∧
    getSelectSql "t" ((GetWrapper.Eq "age" (Value.int 30)).In "id"
        (Value.slice [Value.int 1, Value.int 2, Value.int 3])).queryInfo
      = some ⟨"select * from t where `age` = ? and `id` in (?, ?, ?) limit 1024", none,
          [Value.int 30, Value.int 1, Value.int 2, Value.int 3]⟩ := by
  refine ⟨?_, ?_, ?_, ?_, ?_, ?_, ?_, ?_, rfl, rfl⟩ <;>
    exact ⟨rfl, rfl, rfl, rfl⟩

/-- C11: a condition whose operator is one of `=`, `!=`, `<`, `<=`, `>`, `>=`, `<>`,
`like` and whose value is not a map renders as the quoted field, the operator and one
`?`, and exactly one argument, the condition's value, is appended. -/
theorem getWhereSql_simple (item : whereItem) (p : List Value)
    (hop : item.op = "=" ∨ item.op = "!=" ∨ item.op = "<" ∨ item.op = "<=" ∨
      item.op = ">" ∨ item.op = ">=" ∨ item.op = "<>" ∨ item.op = "like")
    (hval : item.value.kind ≠ Kind.map) :
    getWhereSql [item] p
      = some ⟨keyFormat item.field ++ " " ++ item.op ++ " ?", none, p ++ [item.value]⟩ := by
  obtain ⟨field, op, value⟩ := item
  simp only at hop hval ⊢
  apply getWhereSql_single_some
  rcases hop with rfl | rfl | rfl | rfl | rfl | rfl | rfl | rfl <;>
    simp [clauseOf, hval, isSimpleOp]

/-- C11, instances: `Gt("age", 18)` and a `like` condition on a dotted column. -/
theorem getWhereSql_simple_witness :
    getWhereSql (GetWrapper.Gt "age" (Value.int 18)).queryInfo.where_ []
      = some ⟨"`age` > ?", none, [Value.int 18]⟩ ∧
    getWhereSql [⟨"u.name", "like", Value.str "%bob%"⟩] [Value.int 1]
      = some ⟨"`u`.`name` like ?", none, [Value.int 1, Value.str "%bob%"]⟩ :=
  ⟨getWhereSql_simple ⟨"age", ">", Value.int 18⟩ []
      (Or.inr (Or.inr (Or.inr (Or.inr (Or.inl rfl))))) (by decide),
   getWhereSql_simple ⟨"u.name", "like", Value.str "%bob%"⟩ [Value.int 1]
      (Or.inr (Or.inr (Or.inr (Or.inr (Or.inr (Or.inr (Or.inr rfl))))))) (by decide)⟩

/-- C12: a condition with operator `apply` whose value is a slice that starts with a
text fragment renders as the fragment in parentheses, and the remaining elements are
appended to the arguments as they are and in order; it fails to render when the value
is not a slice, is empty, or its first element is not text. -/
theorem getWhereSql_apply (item : whereItem) (p : List Value) (hop : item.op = "apply") :
    (∀ fragment args, item.value = Value.slice (Value.str fragment :: args) →
      getWhereSql [item] p = some ⟨"(" ++ fragment ++ ")", none, p ++ args⟩) ∧
    ((item.value.kind ≠ Kind.slice ∨ item.value = Value.slice [] ∨
        ∃ first args, item.value = Value.slice (first :: args) ∧
          first.kind ≠ Kind.string) →
      ∃ e, getWhereSql [item] p = some ⟨"", some e, p⟩) := by
  obtain ⟨field, op, value⟩ := item
  simp only at hop ⊢
  subst hop
  constructor
  · intro fragment args hv
    subst hv
    apply getWhereSql_single_some
    simp [clauseOf, Value.kind, isSimpleOp]
  · intro hv
    apply getWhereSql_single_none
    rcases hv with hk | rfl | ⟨first, args, rfl, hfirst⟩
    · cases value <;> first
        | exact absurd rfl hk
        | simp [clauseOf, Value.kind, isSimpleOp]
    · simp [clauseOf, Value.kind, isSimpleOp]
    · cases first <;> first
        | exact absurd rfl hfirst
        | simp [clauseOf, Value.kind, isSimpleOp]

/-- C12, instances: `Apply("id = ? or id = ?", 1, 2)` renders; a value whose first
element is a number does not. -/
theorem getWhereSql_apply_witness :
    getWhereSql (GetWrapper.Apply
        [Value.str "id = ? or id = ?", Value.int 1, Value.int 2]).queryInfo.where_ []
      = some ⟨"(id = ? or id = ?)", none, [Value.int 1, Value.int 2]⟩ ∧
    ∃ e, getWhereSql [⟨"", "apply", Value.slice [Value.int 1, Value.str "id = ?"]⟩] []
      = some ⟨"", some e, []⟩ :=
  ⟨(getWhereSql_apply ⟨"", "apply",
        Value.slice [Value.str "id = ? or id = ?", Value.int 1, Value.int 2]⟩ [] rfl).1
      "id = ? or id = ?" [Value.int 1, Value.int 2] rfl,
   (getWhereSql_apply ⟨"", "apply", Value.slice [Value.int 1, Value.str "id = ?"]⟩ []
      rfl).2 (Or.inr (Or.inr ⟨Value.int 1, [Value.str "id = ?"], rfl, by decide⟩))⟩

/-! ## Field quoting -/

theorem segmentChars_ne_nil (cs : List Char) : segmentChars cs ≠ [] := by
  cases cs with
  | nil => simp [segmentChars]
  | cons c cs =>
    unfold segmentChars
    split
    · simp
    · split <;> simp

theorem segmentChars_of_no_dot (cs : List Char) (h : '.' ∉ cs) : segmentChars cs = [cs] := by
  induction cs with
  | nil => rfl
  | cons c cs ih =>
    have hc : c ≠ '.' := fun hc => h (hc ▸ List.mem_cons_self _ _)
    have hcs : '.' ∉ cs := fun hm => h (List.mem_cons_of_mem _ hm)
    unfold segmentChars
    rw [if_neg hc, ih hcs]

/-- The characters of the quoted segments joined by `.` are a back quote followed by
the replacement of every `.` in the reference closed by a back quote. -/
theorem quoted_segments_data (cs : List Char) :
    (stringsJoin ((segmentChars cs).map fun seg => "`" ++ String.mk seg ++ "`") ".").data
      = "`".data ++ replaceAllChars '.' "`.`".data (cs ++ "`".data) := by
  have hbt : "`".data = [Char.ofNat 96] := rfl
  have hnew : "`.`".data = [Char.ofNat 96, '.', Char.ofNat 96] := rfl
  have hdot : ".".data = ['.'] := rfl
  have hne : ¬ (Char.ofNat 96 = '.') := by decide
  induction cs with
  | nil =>
    simp [segmentChars, stringsJoin, replaceAllChars, hbt, hne]
  | cons c cs ih =>
    obtain ⟨seg, segs, hseg⟩ := List.exists_cons_of_ne_nil (segmentChars_ne_nil cs)
    rw [hseg] at ih
    by_cases hc : c = '.'
    · subst hc
      have h1 : segmentChars ('.' :: cs) = [] :: seg :: segs := by
        rw [segmentChars, if_pos rfl, hseg]
      rw [h1]
      simp only [List.map_cons, stringsJoin, String.data_append, List.cons_append,
        replaceAllChars, if_true]
      simp only [List.map_cons] at ih
      rw [ih]
      simp [hbt, hnew, hdot]
    · have h1 : segmentChars (c :: cs) = (c :: seg) :: segs := by
        rw [segmentChars, if_neg hc, hseg]
      rw [h1]
      cases segs with
      | nil =>
        simp only [List.map_cons, List.map_nil, stringsJoin, String.data_append, hbt,
          List.cons_append, List.nil_append, replaceAllChars, if_neg hc] at ih ⊢
        simp only [List.cons.injEq, true_and] at ih ⊢
        exact ih
      | cons s2 rest =>
        simp only [List.map_cons, stringsJoin, String.data_append, hbt,
          List.cons_append, List.nil_append, replaceAllChars, if_neg hc] at ih ⊢
        simp only [List.cons.injEq, true_and] at ih ⊢
        exact ih

/-- C13: field quoting back-quotes every dot-separated segment on its own: for every
column reference with segments `s1 .. sk` (split at each `.`), `keyFormat` returns the
back-quoted segments joined by `.`; so `a.b` becomes the back-quoted `a`, a dot and the
back-quoted `b`, and a name without a dot is back-quoted as a whole. -/
theorem keyFormat_segments (s : String) :
    keyFormat s = stringsJoin ((segments s).map fun seg => "`" ++ seg ++ "`") "." ∧
    keyFormat "a.b" = "`a`.`b`" ∧
    ('.' ∉ s.data → keyFormat s = "`" ++ s ++ "`") := by
  have hmain : keyFormat s
      = stringsJoin ((segments s).map fun seg => "`" ++ seg ++ "`") "." := by
    apply String.ext
    have h := quoted_segments_data s.data
    simp only [segments, List.map_map]
    have hfun : ((fun seg => "`" ++ seg ++ "`") ∘ String.mk)
        = fun seg : List Char => "`" ++ String.mk seg ++ "`" := rfl
    rw [hfun, h]
    simp [keyFormat, stringsReplaceAll, replaceAllChars]
  refine ⟨hmain, by decide, ?_⟩
  intro hdot
  rw [hmain]
  simp [segments, segmentChars_of_no_dot s.data hdot, stringsJoin]

/-! ## UPDATE rendering -/

/-- A condition list that renders from the empty parameter list renders to the same
clause from any parameter list, with its arguments appended. -/
theorem getWhereSql_params (where_ : List whereItem) (p : List Value) (W : String)
    (A : List Value) (h : getWhereSql where_ [] = some ⟨W, none, A⟩) :
    getWhereSql where_ p = some ⟨W, none, p ++ A⟩ := by
  have hall := clauseOf_isSome_of_ok where_ [] _ h rfl
  rw [getWhereSql_all where_ [] hall] at h
  simp only [Option.some.injEq, SqlOut.mk.injEq, List.nil_append, true_and] at h
  rw [getWhereSql_all where_ p hall, h.1, h.2]

theorem setArgs_flatten (data : List dataItem) :
    (data.map setArgs).flatten
      = (data.filter fun d => d.op = "value").map fun d => d.value := by
  induction data with
  | nil => rfl
  | cons d rest ih =>
    by_cases hd : d.op = "value"
    · simp [setArgs, hd, ih]
    · simp [setArgs, hd, ih]

theorem getUpdateSqlLoop_eq (fmtS : Value → String) (data : List dataItem)
    (acc : String) (p : List Value)
    (hkind : ∀ d ∈ data, d.op = "value" ∨ d.op = "exp") :
    getUpdateSqlLoop fmtS data acc p
      = (acc ++ joinTrail (data.map (setClause fmtS)), p ++ (data.map setArgs).flatten) := by
  induction data generalizing acc p with
  | nil => simp [getUpdateSqlLoop, joinTrail]
  | cons d rest ih =>
    have hrest : ∀ d ∈ rest, d.op = "value" ∨ d.op = "exp" :=
      fun x hx => hkind x (List.mem_cons_of_mem _ hx)
    have h1 : "` = ?, " = "` = ?" ++ ", " := by decide
    rcases hkind d (List.mem_cons_self _ _) with hv | he
    · rw [getUpdateSqlLoop, if_pos hv, ih _ _ hrest]
      simp [joinTrail, setClause, setArgs, hv, String.append_assoc, h1]
    · have hnv : ¬ d.op = "value" := by rw [he]; decide
      rw [getUpdateSqlLoop, if_neg hnv, if_pos he, ih _ _ hrest]
      simp [joinTrail, setClause, setArgs, hnv, String.append_assoc]

/-- C14: for a non-empty assignment list whose kinds are all `value` or `exp` and a
non-empty condition list that renders to clause `W` with arguments `A`, `getUpdateSql`
renders `update <table> set <a1>, ..., <an> where W`; an assignment of kind `value`
contributes its back-quoted field, `=` and a placeholder, and one argument; one of
kind `exp` contributes its back-quoted field, `=` and the raw text, and no argument;
the arguments are the `value` assignments' values in order followed by `A`. -/
theorem getUpdateSql_render (fmtS : Value → String) (dao : BaseDao) (data : List dataItem)
    (where_ : List whereItem) (p : List Value) (W : String) (A : List Value)
    (hdata : data ≠ []) (hkind : ∀ d ∈ data, d.op = "value" ∨ d.op = "exp")
    (hwhere : where_ ≠ []) (hw : getWhereSql where_ [] = some ⟨W, none, A⟩) :
    getUpdateSql fmtS dao data where_ p
        = some ⟨"update " ++ dao.tableName ++ " set "
            ++ stringsJoin (data.map (setClause fmtS)) ", " ++ " where " ++ W, none,
            p ++ ((data.filter fun d => d.op = "value").map fun d => d.value) ++ A⟩ ∧
      (∀ d : dataItem, d.op = "value" → setClause fmtS d = "`" ++ d.field ++ "` = ?") ∧
      (∀ d : dataItem, d.op = "exp" →
        setClause fmtS d = "`" ++ d.field ++ "` = " ++ fmtS d.value) := by
  refine ⟨?_, ?_, ?_⟩
  · cases data with
    | nil => exact absurd rfl hdata
    | cons d rest =>
      cases where_ with
      | nil => exact absurd rfl hwhere
      | cons c cs =>
        have hs := sliceTo_joinTrail (setClause fmtS d) (rest.map (setClause fmtS))
        have hw' := getWhereSql_params (c :: cs)
          (p ++ (setArgs d ++ (rest.map setArgs).flatten)) W A hw
        rw [← setArgs_flatten]
        simp only [getUpdateSql, getUpdateSqlLoop_eq fmtS (d :: rest) "" p hkind,
          List.map_cons, String.empty_append, BaseDao.GetTableName] at hs hw' ⊢
        simp [hs, hw']
  · intro d hd
    simp [setClause, hd]
  · intro d hd
    have hnv : ¬ d.op = "value" := by rw [hd]; decide
    simp [setClause, hnv]

/-- C14, an instance: `Set("name", "a")`, `SetExp("ts", "NOW()")` and the condition
`id = 1` on table `t`. -/
theorem getUpdateSql_render_witness :
    getUpdateSql (fun v => match v with
          | Value.str s => s
          | _ => "") ⟨"t", "master", ""⟩
        ((GetWrapper.Set "name" (Value.str "a")).SetExp "ts" "NOW()").dataItems
        [⟨"id", "=", Value.int 1⟩] []
      = some ⟨"update t set `name` = ?, `ts` = NOW() where `id` = ?", none,
          [Value.str "a", Value.int 1]⟩ :=
  (getUpdateSql_render (fun v => match v with
          | Value.str s => s
          | _ => "") ⟨"t", "master", ""⟩
      [⟨"name", "value", Value.str "a"⟩, ⟨"ts", "exp", Value.str "NOW()"⟩]
      [⟨"id", "=", Value.int 1⟩] [] "`id` = ?" [Value.int 1] (by simp)
      (by
        intro d hd
        simp only [List.mem_cons, List.mem_singleton, List.not_mem_nil, or_false] at hd
        rcases hd with rfl | rfl
        · exact Or.inl rfl
        · exact Or.inr rfl)
      (by simp) rfl).1

/-- C15 fails as stated: `getInsertSql` renders the `exp` assignment
`SetExp("ts", "NOW()")` as a placeholder and binds the text `NOW()` as an argument,
while `getUpdateSql` splices the same assignment into the SQL text and binds only the
argument of the condition. -/
theorem getInsertSql_binds_expression :
    getInsertSql ⟨"t", "master", ""⟩ (GetWrapper.SetExp "ts" "NOW()").dataItems []
      = some ⟨"insert into `t`(`ts`) values (?)", none, [Value.str "NOW()"]⟩ ∧
    getUpdateSql (fun v => match v with
          | Value.str s => s
          | _ => "") ⟨"t", "master", ""⟩
        (GetWrapper.SetExp "ts" "NOW()").dataItems [⟨"id", "=", Value.int 1⟩] []
      = some ⟨"update t set `ts` = NOW() where `id` = ?", none, [Value.int 1]⟩ :=
  ⟨rfl, rfl⟩

/-! ## SELECT rendering -/

/-- The WHERE step shared by `getSelectSql` and `getSelectOneSql` when the conditions
render: from the specification's own parameter list. -/
theorem getWhereSql_whereParams (info : queryInfo) (W : String) (A : List Value)
    (hw : getWhereSql info.where_ [] = some ⟨W, none, A⟩) :
    getWhereSql info.where_ info.whereParams
      = some ⟨W, none, info.whereParams ++ A⟩ :=
  getWhereSql_params info.where_ info.whereParams W A hw

/-- The text and the arguments `getSelectSql` returns when the table name resolves
and the conditions render. -/
theorem getSelectSql_parts (tableName : String) (info : queryInfo) (W : String)
    (A : List Value)
    (htable : (if info.tableName ≠ "" then info.tableName else tableName) ≠ "")
    (hw : getWhereSql info.where_ [] = some ⟨W, none, A⟩) :
    getSelectSql tableName info
        = some ⟨"select "
            ++ (if info.selectField.length ≠ 0 then stringsJoin info.selectField ","
                else "*")
            ++ " from " ++ (if info.tableName ≠ "" then info.tableName else tableName)
            ++ optionalPart " " info.as
            ++ optionalPart " " info.join
            ++ (if info.where_.length ≠ 0 then " where " ++ W else "")
            ++ optionalPart " group by " info.group
            ++ (if info.having ≠ "" then " having " else "")
            ++ optionalPart " order by " info.order
            ++ limitPart info, none, info.whereParams ++ A⟩ := by
  have hw' := getWhereSql_whereParams info W A hw
  unfold getSelectSql
  simp only [if_neg htable, optionalPart, String.append_empty]
  by_cases hne : info.where_.length ≠ 0
  · simp only [if_pos hne, hw']
  · have hnil : info.where_ = [] := by
      cases hl : info.where_ with
      | nil => rfl
      | cons c cs => rw [hl] at hne; simp at hne
    rw [hnil] at hw
    simp only [getWhereSql, List.length_nil, if_true, Option.some.injEq,
      SqlOut.mk.injEq, true_and] at hw
    simp only [if_neg hne, ← hw.2, List.append_nil]

/-- C16: for a query specification whose table name resolves to a non-empty text (the
explicit override when set, else the binding's table name) and whose conditions render
to clause `W` with arguments `A`, `getSelectSql` returns, in this order, the select
and from part, the alias, the join, the where part, the group-by part, the having part,
the order-by part and the limit part, each optional part being present exactly when its
field is not empty, with `*` for an empty field list and the comma-joined fields
otherwise; the returned arguments are the specification's bound parameters followed by
`A`; when both table names are empty the call is an error. -/
theorem getSelectSql_render (tableName : String) (info : queryInfo) (W : String)
    (A : List Value)
    (htable : (if info.tableName ≠ "" then info.tableName else tableName) ≠ "")
    (hw : getWhereSql info.where_ [] = some ⟨W, none, A⟩) :
    getSelectSql tableName info
        = some ⟨"select "
            ++ (if info.selectField.length ≠ 0 then stringsJoin info.selectField ","
                else "*")
            ++ " from " ++ (if info.tableName ≠ "" then info.tableName else tableName)
            ++ optionalPart " " info.as
            ++ optionalPart " " info.join
            ++ (if info.where_.length ≠ 0 then " where " ++ W else "")
            ++ optionalPart " group by " info.group
            ++ (if info.having ≠ "" then " having " else "")
            ++ optionalPart " order by " info.order
            ++ limitPart info, none, info.whereParams ++ A⟩ ∧
      (info.whereParams = [] → ∀ out, getSelectSql tableName info = some out →
        out.params = A) ∧
      (info.tableName = "" →
        getSelectSql "" info = some ⟨"", some SqlError.tableNameEmpty, []⟩) := by
  have hmain := getSelectSql_parts tableName info W A htable hw
  refine ⟨hmain, ?_, ?_⟩
  · intro hp out hout
    rw [hmain] at hout
    cases hout
    simp [hp]
  · intro hname
    simp [getSelectSql, hname]

/-- C16, an instance: fields, alias, join, one condition, group, having, order and a
page on the table `dev_student`. -/
theorem getSelectSql_render_witness :
    getSelectSql "dev_student"
        { selectField := ["c.name", "count(*) as cn"], as := "s",
          join := " left join dev_class as c on s.class_id = c.id",
          where_ := [⟨"s.age", ">", Value.int 18⟩], group := "c.id", having := "cn > 1",
          order := "cn desc", limit := 10, page := 2 }
      = some ⟨"select c.name,count(*) as cn from dev_student s "
          ++ " left join dev_class as c on s.class_id = c.id where `s`.`age` > ?"
          ++ " group by c.id having  order by cn desc limit 10, 10", none,
          [Value.int 18]⟩ :=
  (getSelectSql_render "dev_student"
      { selectField := ["c.name", "count(*) as cn"], as := "s",
        join := " left join dev_class as c on s.class_id = c.id",
        where_ := [⟨"s.age", ">", Value.int 18⟩], group := "c.id", having := "cn > 1",
        order := "cn desc", limit := 10, page := 2 }
      "`s`.`age` > ?" [Value.int 18] (by decide) rfl).1

/-- C17, the code at the failing input: with the HAVING expression `count(*) > 1`
(and with any other non-empty one, such as `cn > 5`) `getSelectSql` renders the bare
keyword ` having ` between the group-by and the order-by part; the expression is not
in the SQL text. -/
theorem getSelectSql_having_dropped :
    getSelectSql "t"
        (((GetWrapper.Group "c.id").Having "count(*) > 1").Order "cn").queryInfo
      = some ⟨"select * from t group by c.id having  order by cn limit 1024", none, []⟩ ∧
    getSelectSql "t" (((GetWrapper.Group "c.id").Having "cn > 5").Order "cn").queryInfo
      = some ⟨"select * from t group by c.id having  order by cn limit 1024", none, []⟩ :=
  ⟨rfl, rfl⟩

theorem limitPart_normalizePaging (info : queryInfo) :
    limitPart (normalizePaging info) = limitPart info := by
  have h1024 : ¬ ((1024 : Int) = 0) := by decide
  have h01 : ¬ ((0 : Int) > 1) := by decide
  by_cases hp : info.page > 1
  · by_cases hl : info.limit = 0
    · simp [limitPart, normalizePaging, hp, hl, h1024, h01]
    · simp [limitPart, normalizePaging, hp, hl, h01]
  · by_cases hl : info.limit = 0
    · simp [limitPart, normalizePaging, hp, hl, h1024]
    · simp [limitPart, normalizePaging, hp, hl]

/-- The normalisation changes the paging fields only. -/
theorem normalizePaging_frame (info : queryInfo) :
    ∃ o l pg, normalizePaging info = { info with offset := o, limit := l, page := pg } := by
  unfold normalizePaging
  simp only
  split <;> exact ⟨_, _, _, rfl⟩

/-- The test `len(s) != 0` of the source is the test `s != ""`. -/
theorem length_ne_zero_eq (s : String) : (s.length ≠ 0) = (s ≠ "") := by
  obtain ⟨data⟩ := s
  cases data with
  | nil =>
    have h : (String.mk []) = "" := rfl
    simp [String.length, h]
  | cons c cs =>
    have h : String.mk (c :: cs) ≠ "" := by
      intro h
      have hd := congrArg String.data h
      simp at hd
    simp [String.length, h]

/-- C20, the code at the failing input: with the transaction `7` bound to the
context, `GetById` on a binding with primary `m` and replica `s` issues its statement
on the replica connection `2`, while `getConnectByWrapper` returns the transaction for
the same context and binding. -/
theorem GetById_ignores_transaction :
    BaseDao.GetById
        ⟨fun n => if n = "m" then some (some ⟨1⟩) else if n = "s" then some (some ⟨2⟩)
          else none, true⟩
        ⟨"dev_student", "m", "s"⟩ (SetCtxTransaction [] (some ⟨7⟩)) "id" (Value.int 1)
      = some (Issued.call ⟨connectInter.db (some ⟨2⟩), DriverMethod.GetContext,
          SetCtxTransaction [] (some ⟨7⟩),
          "select * from dev_student where `id` = ? limit 0, 1", [Value.int 1]⟩) ∧
    getConnectByWrapper
        ⟨fun n => if n = "m" then some (some ⟨1⟩) else if n = "s" then some (some ⟨2⟩)
          else none, true⟩
        (SetCtxTransaction [] (some ⟨7⟩)) ⟨"dev_student", "m", "s"⟩ (some GetWrapper) false
      = (connectInter.tx ⟨7⟩, none) :=
  ⟨rfl, rfl⟩

/-! ## Conditions that do not render -/

theorem clauseOf_map (item : whereItem) (h : item.value.kind = Kind.map) :
    clauseOf item = none := by
  simp [clauseOf, h]

theorem clauseOf_unsupported (item : whereItem)
    (h : item.op = "" ∨ item.op ∉ supportedOps) : clauseOf item = none := by
  have hno : item.op ∉ supportedOps := by
    rcases h with h | h
    · rw [h]; decide
    · exact h
  simp only [supportedOps, List.mem_cons, List.mem_singleton, List.not_mem_nil,
    or_false, not_or] at hno
  obtain ⟨h1, h2, h3, h4, h5, h6, h7, h8, h9, h10, h11, h12, h13⟩ := hno
  simp [clauseOf, isSimpleOp, h1, h2, h3, h4, h5, h6, h7, h8, h9, h10, h11, h12, h13]

theorem length_ne_zero_of_mem {α : Type} (l : List α) (a : α) (h : a ∈ l) :
    l.length ≠ 0 := by
  cases l with
  | nil => simp at h
  | cons x xs => simp

/-- `getSelectSql` returns an error and no text when a condition does not render. -/
theorem getSelectSql_fails (tableName : String) (info : queryInfo)
    (h : ∃ item ∈ info.where_, clauseOf item = none) :
    ∃ e, getSelectSql tableName info = some ⟨"", some e, []⟩ := by
  obtain ⟨e, p', he⟩ := getWhereSql_err info.where_ info.whereParams h
  obtain ⟨item, hmem, _⟩ := h
  have hlen := length_ne_zero_of_mem _ _ hmem
  by_cases ht : (if info.tableName ≠ "" then info.tableName else tableName) = ""
  · simp only [getSelectSql, if_pos ht]
    exact ⟨_, rfl⟩
  · simp only [getSelectSql, if_neg ht, if_pos hlen, he]
    exact ⟨_, rfl⟩

/-- `getSelectOneSql` returns an error and no text when a condition does not render. -/
theorem getSelectOneSql_fails (dao : BaseDao) (info : queryInfo)
    (h : ∃ item ∈ info.where_, clauseOf item = none) :
    ∃ e, getSelectOneSql dao info = some ⟨"", some e, []⟩ := by
  obtain ⟨e, p', he⟩ := getWhereSql_err info.where_ info.whereParams h
  obtain ⟨item, hmem, _⟩ := h
  have hlen := length_ne_zero_of_mem _ _ hmem
  unfold getSelectOneSql
  simp only [if_pos hlen, he]
  exact ⟨_, rfl⟩

/-- `getDeleteSql` returns an error and no text when a condition does not render. -/
theorem getDeleteSql_fails (dao : BaseDao) (where_ : List whereItem) (p : List Value)
    (h : ∃ item ∈ where_, clauseOf item = none) :
    ∃ e p', getDeleteSql dao where_ p = some ⟨"", some e, p'⟩ := by
  obtain ⟨e, p', he⟩ := getWhereSql_err where_ p h
  obtain ⟨item, hmem, _⟩ := h
  have hlen := length_ne_zero_of_mem _ _ hmem
  unfold getDeleteSql
  simp only [if_neg hlen, he]
  exact ⟨_, _, rfl⟩

/-- `getUpdateSql` returns no text when a condition does not render. -/
theorem getUpdateSql_fails (fmtS : Value → String) (dao : BaseDao) (data : List dataItem)
    (where_ : List whereItem) (p : List Value)
    (h : ∃ item ∈ where_, clauseOf item = none) (out : SqlOut)
    (hout : getUpdateSql fmtS dao data where_ p = some out) :
    out.result = "" ∧ ∃ e, out.err = some e := by
  unfold getUpdateSql at hout
  simp only at hout
  split at hout
  · cases hout; exact ⟨rfl, _, rfl⟩
  · split at hout
    · cases hout; exact ⟨rfl, _, rfl⟩
    · split at hout
      · cases hout
      · obtain ⟨e, p', he⟩ :=
          getWhereSql_err where_ (getUpdateSqlLoop fmtS data "" p).2 h
        rw [he] at hout
        simp only [Option.some.injEq] at hout
        subst hout
        exact ⟨rfl, _, rfl⟩

/-- C21: a map as filter value is rejected when the conditions are rendered, not when
they are accumulated: a condition list that contains a condition whose value is a map
makes `getWhereSql` return an error and no text, whatever the operators are, while
`Eq`, `Ne`, `Gt`, `Ge`, `Lt`, `Le`, `In` and `NotIn` record the condition with such a
value and leave the deferred errors as they were. -/
theorem map_value_rejected_at_render (items : List whereItem) (p : List Value)
    (h : ∃ item ∈ items, item.value.kind = Kind.map) :
    (∃ e p', getWhereSql items p = some ⟨"", some e, p'⟩) ∧
    (∀ (w : Wrapper) (column : String) (entries : List (Value × Value)),
      appendsCondition w (w.Eq column (Value.map entries))
        ⟨column, "=", Value.map entries⟩ ∧
      appendsCondition w (w.Ne column (Value.map entries))
        ⟨column, "!=", Value.map entries⟩ ∧
      appendsCondition w (w.Gt column (Value.map entries))
        ⟨column, ">", Value.map entries⟩ ∧
      appendsCondition w (w.Ge column (Value.map entries))
        ⟨column, ">=", Value.map entries⟩ ∧
      appendsCondition w (w.Lt column (Value.map entries))
        ⟨column, "<", Value.map entries⟩ ∧
      appendsCondition w (w.Le column (Value.map entries))
        ⟨column, "<=", Value.map entries⟩ ∧
      appendsCondition w (w.In column (Value.map entries))
        ⟨column, "in", Value.map entries⟩ ∧
      appendsCondition w (w.NotIn column (Value.map entries))
        ⟨column, "not in", Value.map entries⟩ ∧
      (w.Eq column (Value.map entries)).GetError = w.GetError) := by
  constructor
  · obtain ⟨item, hmem, hk⟩ := h
    exact getWhereSql_err items p ⟨item, hmem, clauseOf_map item hk⟩
  · intro w column entries
    refine ⟨⟨rfl, rfl, rfl, rfl⟩, ⟨rfl, rfl, rfl, rfl⟩, ⟨rfl, rfl, rfl, rfl⟩,
      ⟨rfl, rfl, rfl, rfl⟩, ⟨rfl, rfl, rfl, rfl⟩, ⟨rfl, rfl, rfl, rfl⟩,
      ⟨rfl, rfl, rfl, rfl⟩, ⟨rfl, rfl, rfl, rfl⟩, rfl⟩

/-- C21, an instance: `Eq("age", 30).In("tags", <a map>)` accumulates two conditions
and no deferred error, and does not render. -/
theorem map_value_rejected_at_render_witness :
    ((GetWrapper.Eq "age" (Value.int 30)).In "tags"
        (Value.map [(Value.str "k", Value.int 1)])).queryInfo.where_.length = 2 ∧
    ((GetWrapper.Eq "age" (Value.int 30)).In "tags"
        (Value.map [(Value.str "k", Value.int 1)])).GetError = none ∧
    ∃ e p', getWhereSql ((GetWrapper.Eq "age" (Value.int 30)).In "tags"
        (Value.map [(Value.str "k", Value.int 1)])).queryInfo.where_ []
      = some ⟨"", some e, p'⟩ :=
  ⟨rfl, rfl,
   (map_value_rejected_at_render
      [⟨"age", "=", Value.int 30⟩, ⟨"tags", "in", Value.map [(Value.str "k", Value.int 1)]⟩]
      [] ⟨⟨"tags", "in", Value.map [(Value.str "k", Value.int 1)]⟩, by simp, rfl⟩).1⟩

/-! ## Operations on a wrapper whose conditions do not render -/

theorem selectByWrapper_fails (reg : Registry) (ctx : Context) (dao : BaseDao)
    (w : Wrapper) (h : ∃ item ∈ w.queryInfo.where_, clauseOf item = none) :
    ∃ e, selectByWrapper reg ctx dao w = some (Issued.failed e) := by
  obtain ⟨e, he⟩ := getSelectSql_fails dao.GetTableName w.queryInfo h
  unfold selectByWrapper
  rcases getConnectByWrapper reg ctx dao (some w) false with ⟨conn, _ | e'⟩
  · simp only [he]; exact ⟨_, rfl⟩
  · exact ⟨_, rfl⟩

theorem selectMapByWrapper_fails (reg : Registry) (ctx : Context) (dao : BaseDao)
    (w : Wrapper) (h : ∃ item ∈ w.queryInfo.where_, clauseOf item = none) :
    ∃ e, selectMapByWrapper reg ctx dao w = some (Issued.failed e) := by
  obtain ⟨e, he⟩ := getSelectSql_fails dao.GetTableName w.queryInfo h
  unfold selectMapByWrapper
  rcases getConnectByWrapper reg ctx dao (some w) false with ⟨conn, _ | e'⟩
  · simp only [he]; exact ⟨_, rfl⟩
  · exact ⟨_, rfl⟩

theorem countByWrapper_fails (reg : Registry) (ctx : Context) (dao : BaseDao)
    (w : Wrapper) (h : ∃ item ∈ w.queryInfo.where_, clauseOf item = none) :
    ∃ e, (countByWrapper reg ctx dao w).out = some (Issued.failed e) := by
  obtain ⟨e, he⟩ := getSelectOneSql_fails dao
    { w.queryInfo with selectField := ["count(1) as cn"] } h
  unfold countByWrapper
  rcases getConnectByWrapper reg ctx dao (some w) false with ⟨conn, _ | e'⟩
  · simp only [he]; exact ⟨_, rfl⟩
  · exact ⟨_, rfl⟩

theorem deleteByWrapper_fails (reg : Registry) (ctx : Context) (dao : BaseDao)
    (w : Wrapper) (h : ∃ item ∈ w.queryInfo.where_, clauseOf item = none) :
    ∃ e, deleteByWrapper reg ctx dao w = some (Issued.failed e) := by
  obtain ⟨e, p', he⟩ := getDeleteSql_fails dao w.queryInfo.where_ [] h
  unfold deleteByWrapper
  rcases getConnectByWrapper reg ctx dao (some w) true with ⟨conn, _ | e'⟩
  · simp only [he]; exact ⟨_, rfl⟩
  · exact ⟨_, rfl⟩

theorem updateByWrapper_fails (fmtS : Value → String) (reg : Registry) (ctx : Context)
    (dao : BaseDao) (w : Wrapper)
    (h : ∃ item ∈ w.queryInfo.where_, clauseOf item = none) (c : DriverCall) :
    updateByWrapper fmtS reg ctx dao w ≠ some (Issued.call c) := by
  unfold updateByWrapper
  rcases getConnectByWrapper reg ctx dao (some w) true with ⟨conn, _ | e'⟩
  · simp only
    cases hu : getUpdateSql fmtS dao w.dataItems w.queryInfo.where_ [] with
    | none => simp
    | some out =>
      obtain ⟨_, e, he⟩ := getUpdateSql_fails fmtS dao _ _ [] h out hu
      simp [he]
  · simp

/-- The condition `NotLike` accumulates does not render. -/
theorem notLike_unsupported (w : Wrapper) (column value : String) :
    ∃ item ∈ (w.NotLike column value).queryInfo.where_, clauseOf item = none := by
  refine ⟨⟨column, "not like", Value.str ("%" ++ value ++ "%")⟩, ?_, ?_⟩
  · simp [Wrapper.NotLike, Wrapper.appendWhere, createWhereItem]
  · have hop : "not like" ∉ supportedOps := by decide
    exact clauseOf_unsupported _ (Or.inr hop)

/-! ## Deferred errors -/

theorem getErrorLoop_eq (errs : List String) (msg : String) :
    getErrorLoop errs msg = msg ++ deferredText errs := by
  induction errs generalizing msg with
  | nil => simp [getErrorLoop, deferredText]
  | cons e rest ih =>
    rw [getErrorLoop, ih]
    simp [deferredText, String.append_assoc]

theorem GetError_of_ne_nil (w : Wrapper) (h : w.errList ≠ []) :
    w.GetError
      = some (SqlError.wrapperError ("Wrapper error: " ++ deferredText w.errList)) := by
  have hlen : ¬ w.errList.length = 0 := by
    cases hl : w.errList with
    | nil => exact absurd hl h
    | cons e rest => simp
  simp [Wrapper.GetError, hlen, getErrorLoop_eq]

/-- C23: `Wrapper.GetError` returns no error if and only if the wrapper's deferred
error list is empty; otherwise it returns one error whose message is `Wrapper error: `
followed by every deferred message in accumulation order, each followed by `"; "`; a
failing `SetJson` adds one message to the end of the list. -/
theorem GetError_spec (w : Wrapper) :
    (w.GetError = none ↔ w.errList = []) ∧
    (w.errList ≠ [] →
      w.GetError
        = some (SqlError.wrapperError ("Wrapper error: " ++ deferredText w.errList))) ∧
    (∀ (e : String) (rest : List String),
      deferredText (e :: rest) = e ++ "; " ++ deferredText rest) ∧
    (∀ (jsonMarshal : Value → Except String String) (fmtV : Value → String)
        (column : String) (value : Value) (err : String),
      jsonMarshal value = Except.error err →
      (w.SetJson jsonMarshal fmtV column value).errList
          = w.errList ++ [column ++ ": " ++ err ++ "(" ++ fmtV value ++ ")"] ∧
        (w.SetJson jsonMarshal fmtV column value).dataItems = w.dataItems) := by
  refine ⟨?_, GetError_of_ne_nil w, fun _ _ => rfl, ?_⟩
  · constructor
    · intro hnone
      by_contra hne
      rw [GetError_of_ne_nil w hne] at hnone
      cases hnone
    · intro hnil
      simp [Wrapper.GetError, hnil]
  · intro jsonMarshal fmtV column value err herr
    simp [Wrapper.SetJson, herr]

/-- C23, an instance: two deferred errors. -/
theorem GetError_spec_witness :
    Wrapper.GetError { GetWrapper with errList := ["a: bad(1)", "b: worse(2)"] }
      = some (SqlError.wrapperError "Wrapper error: a: bad(1); b: worse(2); ") ∧
    GetWrapper.GetError = none :=
  ⟨(GetError_spec { GetWrapper with errList := ["a: bad(1)", "b: worse(2)"] }).2.1
      (by simp),
   rfl⟩

/-- C24: on a fully configured table binding and a wrapper with at least one deferred
error, each of `UpdateByWrapper`, `DeleteByWrapper`, `SelectByWrapper`,
`SelectMapByWrapper` and `CountByWrapper` returns the error of `GetError`, whatever
the registry and the context hold: no connection is looked up, no SQL is built and no
statement is issued. -/
theorem byWrapper_returns_deferred_error (fmtS : Value → String) (reg : Registry)
    (ctx : Context) (dao : BaseDao) (w : Wrapper)
    (htable : dao.tableName ≠ "") (hdb : dao.dbName ≠ "") (herr : w.errList ≠ []) :
    ∃ e, w.GetError = some e ∧
      e = SqlError.wrapperError ("Wrapper error: " ++ deferredText w.errList) ∧
      BaseDao.UpdateByWrapper fmtS reg dao ctx w = some (Issued.failed e) ∧
      BaseDao.DeleteByWrapper reg dao ctx w = some (Issued.failed e) ∧
      BaseDao.SelectByWrapper reg dao ctx w = some (Issued.failed e) ∧
      BaseDao.SelectMapByWrapper reg dao ctx w = some (Issued.failed e) ∧
      BaseDao.CountByWrapper reg dao ctx w = some (Issued.failed e) := by
  have hge := GetError_of_ne_nil w herr
  have hdao : dao.CheckDao = none := by
    simp [BaseDao.CheckDao, htable, hdb]
  refine ⟨_, hge, rfl, ?_, ?_, ?_, ?_, ?_⟩
  · simp [BaseDao.UpdateByWrapper, hdao, hge]
  · simp [BaseDao.DeleteByWrapper, hdao, hge]
  · simp [BaseDao.SelectByWrapper, hdao, hge]
  · simp [BaseDao.SelectMapByWrapper, hdao, hge]
  · simp [BaseDao.CountByWrapper, hdao, hge]

/-- C24, an instance: a wrapper whose `SetJson` failed, on an empty registry. -/
theorem byWrapper_returns_deferred_error_witness :
    ∃ e, ((GetWrapper.Eq "id" (Value.int 1)).SetJson (fun _ => Except.error "bad")
          (fun _ => "v") "c" Value.nil).GetError = some e ∧
      e = SqlError.wrapperError ("Wrapper error: " ++ deferredText ["c: bad(v)"]) ∧
      BaseDao.UpdateByWrapper (fun _ => "") ⟨fun _ => none, false⟩ ⟨"t", "m", ""⟩ []
          ((GetWrapper.Eq "id" (Value.int 1)).SetJson (fun _ => Except.error "bad")
            (fun _ => "v") "c" Value.nil) = some (Issued.failed e) ∧
      BaseDao.DeleteByWrapper ⟨fun _ => none, false⟩ ⟨"t", "m", ""⟩ []
          ((GetWrapper.Eq "id" (Value.int 1)).SetJson (fun _ => Except.error "bad")
            (fun _ => "v") "c" Value.nil) = some (Issued.failed e) ∧
      BaseDao.SelectByWrapper ⟨fun _ => none, false⟩ ⟨"t", "m", ""⟩ []
          ((GetWrapper.Eq "id" (Value.int 1)).SetJson (fun _ => Except.error "bad")
            (fun _ => "v") "c" Value.nil) = some (Issued.failed e) ∧
      BaseDao.SelectMapByWrapper ⟨fun _ => none, false⟩ ⟨"t", "m", ""⟩ []
          ((GetWrapper.Eq "id" (Value.int 1)).SetJson (fun _ => Except.error "bad")
            (fun _ => "v") "c" Value.nil) = some (Issued.failed e) ∧
      BaseDao.CountByWrapper ⟨fun _ => none, false⟩ ⟨"t", "m", ""⟩ []
          ((GetWrapper.Eq "id" (Value.int 1)).SetJson (fun _ => Except.error "bad")
            (fun _ => "v") "c" Value.nil) = some (Issued.failed e) :=
  byWrapper_returns_deferred_error (fun _ => "") ⟨fun _ => none, false⟩ [] ⟨"t", "m", ""⟩
    ((GetWrapper.Eq "id" (Value.int 1)).SetJson (fun _ => Except.error "bad")
      (fun _ => "v") "c" Value.nil)
    (by decide) (by decide) (by simp [Wrapper.SetJson])

/-! ## Registry bootstrap -/

theorem InitDbConnectMap_of_init (reg : Registry) (lm : String → Option (Option DB))
    (h : reg.isInit = true) :
    InitDbConnectMap reg lm = (reg, some SqlError.alreadyInit) := by
  simp [InitDbConnectMap, h]

theorem initAll_of_init (reg : Registry) (later : List (String → Option (Option DB)))
    (h : reg.isInit = true) : initAll reg later = reg := by
  induction later with
  | nil => rfl
  | cons lm rest ih => rw [initAll, InitDbConnectMap_of_init reg lm h]; exact ih

/-- C25: registry bootstrap is single-shot: the first `InitDbConnectMap(m1)` on the
registry not yet initialised succeeds; after it, whatever sequence of further calls
has been made, the registry is the one the first call left, every further call
returns an error and leaves it unchanged, and `getDbConnect(name)` returns the handle
`m1` maps `name` to, or the unknown-connection error when `m1` has no such name. -/
theorem InitDbConnectMap_single_shot (reg : Registry) (m1 : String → Option (Option DB))
    (later : List (String → Option (Option DB))) (h : reg.isInit = false) :
    (InitDbConnectMap reg m1).2 = none ∧
    initAll (InitDbConnectMap reg m1).1 later = (InitDbConnectMap reg m1).1 ∧
    (∀ m2, InitDbConnectMap (initAll (InitDbConnectMap reg m1).1 later) m2
      = ((InitDbConnectMap reg m1).1, some SqlError.alreadyInit)) ∧
    (∀ name, getDbConnect (initAll (InitDbConnectMap reg m1).1 later) name
      = match m1 name with
        | some link => (link, none)
        | none => (none, some (SqlError.connectNotExist name))) := by
  have h1 : InitDbConnectMap reg m1 = (⟨m1, true⟩, none) := by
    simp [InitDbConnectMap, h]
  have hinit : (InitDbConnectMap reg m1).1.isInit = true := by rw [h1]
  have hall := initAll_of_init (InitDbConnectMap reg m1).1 later hinit
  refine ⟨by rw [h1], hall, ?_, ?_⟩
  · intro m2
    rw [hall]
    exact InitDbConnectMap_of_init _ m2 hinit
  · intro name
    rw [hall, h1]
    simp only [getDbConnect]
    cases m1 name <;> simp

/-- C25, an instance: after a first bootstrap with `master`, two further calls are
rejected and the lookups are those of the first map. -/
theorem InitDbConnectMap_single_shot_witness :
    (InitDbConnectMap ⟨fun _ => none, false⟩
        (fun n => if n = "master" then some (some ⟨1⟩) else none)).2 = none ∧
    getDbConnect (initAll (InitDbConnectMap ⟨fun _ => none, false⟩
        (fun n => if n = "master" then some (some ⟨1⟩) else none)).1
        [fun n => if n = "other" then some (some ⟨2⟩) else none, fun _ => none]) "master"
      = (some ⟨1⟩, none) ∧
    (getDbConnect (initAll (InitDbConnectMap ⟨fun _ => none, false⟩
        (fun n => if n = "master" then some (some ⟨1⟩) else none)).1
        [fun n => if n = "other" then some (some ⟨2⟩) else none, fun _ => none]) "other").1
      = none :=
  ⟨(InitDbConnectMap_single_shot ⟨fun _ => none, false⟩
      (fun n => if n = "master" then some (some ⟨1⟩) else none)
      [fun n => if n = "other" then some (some ⟨2⟩) else none, fun _ => none] rfl).1,
   rfl, rfl⟩

/-! ## Rendering and the wrapper -/

/-- The text and the arguments `getSelectOneSql` returns when the conditions render. -/
theorem getSelectOneSql_parts (dao : BaseDao) (info : queryInfo) (W : String)
    (A : List Value) (hw : getWhereSql info.where_ [] = some ⟨W, none, A⟩) :
    getSelectOneSql dao info
      = some ⟨"select "
          ++ (if info.selectField.length ≠ 0 then stringsJoin info.selectField ","
              else "*")
          ++ " from " ++ dao.tableName
          ++ optionalPart " " info.join
          ++ (if info.where_.length ≠ 0 then " where " ++ W else "")
          ++ optionalPart " order by " info.order
          ++ " limit 0, 1", none, info.whereParams ++ A⟩ := by
  have hw' := getWhereSql_whereParams info W A hw
  unfold getSelectOneSql
  simp only [optionalPart, BaseDao.GetTableName, length_ne_zero_eq]
  by_cases hne : info.where_.length ≠ 0
  · simp only [if_pos hne, hw']
  · have hnil : info.where_ = [] := by
      cases hl : info.where_ with
      | nil => rfl
      | cons c cs => rw [hl] at hne; simp at hne
    rw [hnil] at hw
    simp only [getWhereSql, List.length_nil, if_true, Option.some.injEq,
      SqlOut.mk.injEq, true_and] at hw
    simp only [if_neg hne, ← hw.2, List.append_nil, String.append_empty]

/-- Conditions either all render or one of them does not. -/
theorem renders_or_not (items : List whereItem) :
    (∃ W A, getWhereSql items [] = some ⟨W, none, A⟩) ∨
      ∃ item ∈ items, clauseOf item = none := by
  by_cases hbad : ∃ item ∈ items, clauseOf item = none
  · exact Or.inr hbad
  · left
    have hall : ∀ item ∈ items, (clauseOf item).isSome := by
      intro item hmem
      cases hc : clauseOf item with
      | none => exact absurd ⟨item, hmem, hc⟩ hbad
      | some c => rfl
    exact ⟨_, _, getWhereSql_all items [] hall⟩

/-- A successful `getSelectSql` returns the specification's bound parameters followed
by the arguments of the conditions. -/
theorem getSelectSql_ok_params (tableName : String) (info : queryInfo) (out : SqlOut)
    (hout : getSelectSql tableName info = some out) (herr : out.err = none) :
    ∃ W A, getWhereSql info.where_ [] = some ⟨W, none, A⟩ ∧
      out.params = info.whereParams ++ A := by
  rcases renders_or_not info.where_ with ⟨W, A, hw⟩ | hbad
  · by_cases ht : (if info.tableName ≠ "" then info.tableName else tableName) = ""
    · simp only [getSelectSql, if_pos ht, Option.some.injEq] at hout
      subst hout
      cases herr
    · rw [getSelectSql_parts tableName info W A ht hw] at hout
      simp only [Option.some.injEq] at hout
      subst hout
      exact ⟨W, A, hw, rfl⟩
  · obtain ⟨e, he⟩ := getSelectSql_fails tableName info hbad
    rw [he] at hout
    simp only [Option.some.injEq] at hout
    subst hout
    cases herr

/-- `getSelectSql` never panics. -/
theorem getSelectSql_isSome (tableName : String) (info : queryInfo) :
    ∃ out, getSelectSql tableName info = some out := by
  rcases renders_or_not info.where_ with ⟨W, A, hw⟩ | hbad
  · by_cases ht : (if info.tableName ≠ "" then info.tableName else tableName) = ""
    · exact ⟨⟨"", some SqlError.tableNameEmpty, []⟩, by
        simp only [getSelectSql, if_pos ht]⟩
    · exact ⟨_, getSelectSql_parts tableName info W A ht hw⟩
  · obtain ⟨e, he⟩ := getSelectSql_fails tableName info hbad
    exact ⟨_, he⟩

/-- `getSelectOneSql` never panics. -/
theorem getSelectOneSql_isSome (dao : BaseDao) (info : queryInfo) :
    ∃ out, getSelectOneSql dao info = some out := by
  rcases renders_or_not info.where_ with ⟨W, A, hw⟩ | hbad
  · exact ⟨_, getSelectOneSql_parts dao info W A hw⟩
  · obtain ⟨e, he⟩ := getSelectOneSql_fails dao info hbad
    exact ⟨_, he⟩

/-- The statement `countByWrapper` issues. -/
theorem countByWrapper_call (reg : Registry) (ctx : Context) (dao : BaseDao)
    (w : Wrapper) (c : DriverCall)
    (hc : (countByWrapper reg ctx dao w).out = some (Issued.call c)) :
    ∃ W A, getWhereSql w.queryInfo.where_ [] = some ⟨W, none, A⟩ ∧
      c.args = w.queryInfo.whereParams ++ A ∧
      ∃ rest, c.query = "select count(1) as cn from " ++ rest := by
  rcases renders_or_not w.queryInfo.where_ with ⟨W, A, hw⟩ | hbad
  · have hparts := getSelectOneSql_parts dao
      { w.queryInfo with selectField := ["count(1) as cn"] } W A hw
    unfold countByWrapper at hc
    revert hc
    rcases getConnectByWrapper reg ctx dao (some w) false with ⟨conn, _ | e⟩ <;> intro hc
    · simp only [hparts, Option.some.injEq, Issued.call.injEq] at hc
      subst hc
      refine ⟨W, A, hw, rfl, ?_⟩
      have hlit : "select " ++ "count(1) as cn" ++ " from "
          = "select count(1) as cn from " := by decide
      refine ⟨dao.tableName ++ optionalPart " " w.queryInfo.join
        ++ (if w.queryInfo.where_.length ≠ 0 then " where " ++ W else "")
        ++ optionalPart " order by " w.queryInfo.order ++ " limit 0, 1", ?_⟩
      rw [← hlit]
      simp [stringsJoin, String.append_assoc]
    · simp at hc
  · obtain ⟨e, he⟩ := countByWrapper_fails reg ctx dao w hbad
    rw [he] at hc
    simp at hc

/-! ## Assignment kinds and the trailing-separator trims -/

theorem kindsOk_append (data : List dataItem) (d : dataItem) (h : kindsOk data)
    (hd : d.op = "value" ∨ d.op = "exp") : kindsOk (data ++ [d]) := by
  intro x hx
  rcases List.mem_append.mp hx with hx | hx
  · exact h x hx
  · rw [List.mem_singleton.mp hx]; exact hd

theorem kindsOk_structFieldsLoop (tag ignoreKey : String) (fields : List StructField)
    (result : List dataItem) (h : kindsOk result) :
    kindsOk (structFieldsLoop tag ignoreKey fields result) := by
  induction fields generalizing result with
  | nil => exact h
  | cons item rest ih =>
    unfold structFieldsLoop
    simp only
    split
    · exact ih result h
    · split
      · exact ih _ (kindsOk_append result _ h (Or.inl rfl))
      · exact ih result h

theorem kindsOk_mapEntriesLoop (ignoreKey : String) (entries : List (String × Value))
    (result : List dataItem) (h : kindsOk result) :
    kindsOk (mapEntriesLoop ignoreKey entries result) := by
  induction entries generalizing result with
  | nil => exact h
  | cons entry rest ih =>
    obtain ⟨key, value⟩ := entry
    unfold mapEntriesLoop
    split
    · exact ih result h
    · exact ih _ (kindsOk_append result _ h (Or.inl rfl))

theorem kindsOk_nil : kindsOk [] := by
  intro x hx
  simp at hx

theorem kindsOk_structToDataItems (data : ReflectData) (tag ignoreKey : String)
    (items : List dataItem) (e : Option SqlError)
    (h : structToDataItems data tag ignoreKey = some (items, e)) : kindsOk items := by
  cases data with
  | invalid => simp [structToDataItems] at h
  | struct fields =>
    simp only [structToDataItems, Option.some.injEq, Prod.mk.injEq] at h
    rw [← h.1]
    exact kindsOk_structFieldsLoop tag ignoreKey fields [] kindsOk_nil
  | mapStringAny entries =>
    simp only [structToDataItems, Option.some.injEq, Prod.mk.injEq] at h
    rw [← h.1]
    exact kindsOk_mapEntriesLoop ignoreKey entries [] kindsOk_nil
  | mapOther => simp [structToDataItems] at h
  | other =>
    simp only [structToDataItems, Option.some.injEq, Prod.mk.injEq] at h
    rw [← h.1]
    exact kindsOk_nil

/-- The invariant of the accumulation: every assignment of a wrapper built through
`Set`, `SetJson`, `SetExp` and `structToDataItems` has the kind `value` or `exp`. -/
theorem Built_kindsOk (w : Wrapper) (h : w.Built) : kindsOk w.dataItems := by
  induction h with
  | start => exact kindsOk_nil
  | set w column value _ ih => exact kindsOk_append _ _ ih (Or.inl rfl)
  | setJson jsonMarshal fmtV w column value _ ih =>
    unfold Wrapper.SetJson
    cases jsonMarshal value with
    | error err => exact ih
    | ok data => exact kindsOk_append _ _ ih (Or.inl rfl)
  | setExp w column value _ ih => exact kindsOk_append _ _ ih (Or.inr rfl)
  | fromData w data tag ignoreKey items hitems _ _ =>
    exact kindsOk_structToDataItems data tag ignoreKey items none hitems
  | query w q errs _ ih => exact ih

/-- `getWhereSql` never panics. -/
theorem getWhereSql_isSome (items : List whereItem) (p : List Value) :
    ∃ out, getWhereSql items p = some out := by
  rcases renders_or_not items with ⟨W, A, hw⟩ | hbad
  · exact ⟨_, getWhereSql_params items p W A hw⟩
  · obtain ⟨e, p', he⟩ := getWhereSql_err items p hbad
    exact ⟨_, he⟩

/-- `getWhereInSql` never panics. -/
theorem getWhereInSql_isSome (key op : String) (value : Value) (p : List Value) :
    (getWhereInSql key op value p).isSome = true := by
  by_cases h : ∃ x xs, value = Value.slice (x :: xs)
  · obtain ⟨x, xs, rfl⟩ := h
    rw [getWhereInSql_slice]; rfl
  · have hv : ∀ x xs, value ≠ Value.slice (x :: xs) := fun x xs hx => h ⟨x, xs, hx⟩
    obtain ⟨e, he⟩ := getWhereInSql_fail key op value p hv
    rw [he]; rfl

/-- `getInsertSql` never panics. -/
theorem getInsertSql_isSome (dao : BaseDao) (data : List dataItem) (p : List Value) :
    (getInsertSql dao data p).isSome = true := by
  cases data with
  | nil => simp [getInsertSql]
  | cons d rest =>
    have hf := sliceTo_joinTrail ("`" ++ d.field ++ "`")
      (rest.map fun d => "`" ++ d.field ++ "`")
    have hv := sliceTo_joinTrail "?" (rest.map fun _ => "?")
    simp only [getInsertSql, getInsertSqlLoop_eq, List.map_cons, String.empty_append]
    simp only [List.map_const'] at hv ⊢
    simp [hf, hv]

/-- The text the loop of `getUpdateSql` builds from assignments of the kinds `value`
and `exp` ends with the separator the trim removes. -/
theorem getUpdateSqlLoop_length (fmtS : Value → String) (data : List dataItem)
    (p : List Value) (hkind : kindsOk data) (hdata : data ≠ []) :
    2 ≤ (getUpdateSqlLoop fmtS data "" p).1.length := by
  cases data with
  | nil => exact absurd rfl hdata
  | cons d rest =>
    rw [getUpdateSqlLoop_eq fmtS (d :: rest) "" p hkind]
    simp only [List.map_cons, String.empty_append, joinTrail_cons, String.length_append]
    have h2 : ", ".length = 2 := rfl
    omega

/-- `getUpdateSql` does not panic on assignments of the kinds `value` and `exp`. -/
theorem getUpdateSql_isSome (fmtS : Value → String) (dao : BaseDao)
    (data : List dataItem) (where_ : List whereItem) (p : List Value)
    (hkind : kindsOk data) :
    (getUpdateSql fmtS dao data where_ p).isSome = true := by
  cases data with
  | nil => simp [getUpdateSql]
  | cons d rest =>
    cases where_ with
    | nil => simp [getUpdateSql]
    | cons c cs =>
      have hs := sliceTo_joinTrail (setClause fmtS d) (rest.map (setClause fmtS))
      obtain ⟨out, hout⟩ := getWhereSql_isSome (c :: cs)
        (p ++ (setArgs d ++ (rest.map setArgs).flatten))
      simp only [getUpdateSql, getUpdateSqlLoop_eq fmtS (d :: rest) "" p hkind,
        List.map_cons, String.empty_append] at hs ⊢
      simp only [List.length_cons, Nat.add_one_ne_zero, if_false, hs, List.flatten_cons,
        hout]
      cases out.err <;> rfl

/-- C27: every assignment accumulated through `Set`, `SetJson`, `SetExp` or
`structToDataItems` has the kind `value` or `exp`; hence for a wrapper built only
through these operations with at least one assignment, and every condition list
(non-empty or not), the set-clause text of `getUpdateSql` holds at least the two
characters of its trailing separator before the trim, and the trim does not slice out
of range; the trims of `getInsertSql` and `getWhereInSql` do not either, whatever
their input. -/
theorem trims_in_range (fmtS : Value → String) (dao : BaseDao) (w : Wrapper)
    (where_ : List whereItem) (p : List Value)
    (hb : w.Built) (hdata : w.dataItems ≠ []) :
    kindsOk w.dataItems ∧
    (∀ (data : ReflectData) (tag ignoreKey : String) (items : List dataItem)
        (e : Option SqlError),
      structToDataItems data tag ignoreKey = some (items, e) → kindsOk items) ∧
    2 ≤ (getUpdateSqlLoop fmtS w.dataItems "" p).1.length ∧
    (getUpdateSql fmtS dao w.dataItems where_ p).isSome = true ∧
    (∀ (data : List dataItem) (q : List Value), (getInsertSql dao data q).isSome = true) ∧
    (∀ (key op : String) (value : Value) (q : List Value),
      (getWhereInSql key op value q).isSome = true) := by
  have hk := Built_kindsOk w hb
  exact ⟨hk, kindsOk_structToDataItems,
    getUpdateSqlLoop_length fmtS w.dataItems p hk hdata,
    getUpdateSql_isSome fmtS dao w.dataItems where_ p hk,
    getInsertSql_isSome dao, getWhereInSql_isSome⟩

/-- C27, an instance: `Set("name", "a").SetExp("ts", "NOW()")` with the condition
`id = 1`; the loop text ends with the separator and the statement is rendered. -/
theorem trims_in_range_witness :
    (getUpdateSqlLoop (fun v => match v with
          | Value.str s => s
          | _ => "")
        ((GetWrapper.Set "name" (Value.str "a")).SetExp "ts" "NOW()").dataItems "" []).1
      = "`name` = ?, `ts` = NOW(), " ∧
    2 ≤ (getUpdateSqlLoop (fun v => match v with
          | Value.str s => s
          | _ => "")
        ((GetWrapper.Set "name" (Value.str "a")).SetExp "ts" "NOW()").dataItems "" []).1.length ∧
    (getUpdateSql (fun v => match v with
          | Value.str s => s
          | _ => "") ⟨"t", "master", ""⟩
        ((GetWrapper.Set "name" (Value.str "a")).SetExp "ts" "NOW()").dataItems
        [⟨"id", "=", Value.int 1⟩] []).isSome = true :=
  ⟨rfl,
   (trims_in_range (fun v => match v with
          | Value.str s => s
          | _ => "") ⟨"t", "master", ""⟩
      ((GetWrapper.Set "name" (Value.str "a")).SetExp "ts" "NOW()")
      [⟨"id", "=", Value.int 1⟩] []
      (Wrapper.Built.setExp _ _ _ (Wrapper.Built.set _ _ _ Wrapper.Built.start))
      (by simp [Wrapper.Set, Wrapper.SetExp, GetWrapper])).2.2.1,
   (trims_in_range (fun v => match v with
          | Value.str s => s
          | _ => "") ⟨"t", "master", ""⟩
      ((GetWrapper.Set "name" (Value.str "a")).SetExp "ts" "NOW()")
      [⟨"id", "=", Value.int 1⟩] []
      (Wrapper.Built.setExp _ _ _ (Wrapper.Built.set _ _ _ Wrapper.Built.start))
      (by simp [Wrapper.Set, Wrapper.SetExp, GetWrapper])).2.2.2.1⟩

/-! ## Paging -/

/-- A successful `getSelectSql` returns a text that ends with the limit clause. -/
theorem getSelectSql_ok_result (tableName : String) (info : queryInfo) (out : SqlOut)
    (hout : getSelectSql tableName info = some out) (herr : out.err = none) :
    ∃ pre, out.result = pre ++ limitPart info := by
  rcases renders_or_not info.where_ with ⟨W, A, hw⟩ | hbad
  · by_cases ht : (if info.tableName ≠ "" then info.tableName else tableName) = ""
    · simp only [getSelectSql, if_pos ht, Option.some.injEq] at hout
      subst hout
      cases herr
    · rw [getSelectSql_parts tableName info W A ht hw] at hout
      simp only [Option.some.injEq] at hout
      subst hout
      exact ⟨_, rfl⟩
  · obtain ⟨e, he⟩ := getSelectSql_fails tableName info hbad
    rw [he] at hout
    simp only [Option.some.injEq] at hout
    subst hout
    cases herr

/-- C18: limit math is a normalisation of the specification: `getSelectSql` gives the
same result on a specification and on the one whose limit is replaced by `L` (the
limit, or 1024 when it is 0) and, when `page > 1`, whose page is cleared and whose
offset is `(page - 1) * L` in `int64` arithmetic; `getSelectSql` returns, and every
statement it renders ends with a limit clause; with `page > 1` the result is the same for every
offset; with `page <= 1` the rendered statement ends with the clause computed from the
offset. -/
theorem getSelectSql_normalizePaging (tableName : String) (info : queryInfo) :
    getSelectSql tableName info = getSelectSql tableName (normalizePaging info) ∧
    (∃ out, getSelectSql tableName info = some out) ∧
    (∀ out, getSelectSql tableName info = some out → out.err = none →
      ∃ pre rest, out.result = pre ++ limitPart info ∧
        limitPart info = " limit " ++ rest) ∧
    (info.page > 1 → ∀ offset,
      getSelectSql tableName { info with offset := offset }
        = getSelectSql tableName info) ∧
    (info.page ≤ 1 → ∀ out, getSelectSql tableName info = some out → out.err = none →
      ∃ pre, out.result = pre ++
        (if info.offset = 0 then
            " limit " ++ fmtD (if info.limit = 0 then 1024 else info.limit)
          else " limit " ++ fmtD info.offset ++ ", "
            ++ fmtD (if info.limit = 0 then 1024 else info.limit))) ∧
    (∃ rest, limitPart info = " limit " ++ rest) ∧
    (info.page > 1 → ∀ offset, limitPart { info with offset := offset } = limitPart info) ∧
    (info.page ≤ 1 →
      limitPart info
        = if info.offset = 0 then
            " limit " ++ fmtD (if info.limit = 0 then 1024 else info.limit)
          else " limit " ++ fmtD info.offset ++ ", "
            ++ fmtD (if info.limit = 0 then 1024 else info.limit)) := by
  have hstart : ∃ rest, limitPart info = " limit " ++ rest := by
    unfold limitPart
    simp only
    split_ifs <;> exact ⟨_, rfl⟩
  have hover : info.page > 1 → ∀ offset,
      limitPart { info with offset := offset } = limitPart info := by
    intro hp offset
    simp [limitPart, hp]
  have hforce : info.page ≤ 1 →
      limitPart info
        = if info.offset = 0 then
            " limit " ++ fmtD (if info.limit = 0 then 1024 else info.limit)
          else " limit " ++ fmtD info.offset ++ ", "
            ++ fmtD (if info.limit = 0 then 1024 else info.limit) := by
    intro hp
    have hp' : ¬ info.page > 1 := not_lt.mpr hp
    simp [limitPart, hp']
  refine ⟨?_, getSelectSql_isSome tableName info, ?_, ?_, ?_, hstart, hover, hforce⟩
  · have hl := limitPart_normalizePaging info
    obtain ⟨o, l, pg, hframe⟩ := normalizePaging_frame info
    unfold getSelectSql
    rw [hl, hframe]
  · intro out hout herr
    obtain ⟨pre, hpre⟩ := getSelectSql_ok_result tableName info out hout herr
    obtain ⟨rest, hrest⟩ := hstart
    exact ⟨pre, rest, hpre, hrest⟩
  · intro hp offset
    have hl := hover hp offset
    unfold getSelectSql
    rw [hl]
  · intro hp out hout herr
    obtain ⟨pre, hpre⟩ := getSelectSql_ok_result tableName info out hout herr
    exact ⟨pre, by rw [hpre, hforce hp]⟩

/-- C18, instances: `Page(1).Offset(5).Limit(10)` keeps the offset, and
`Page(3).Offset(5).Limit(10)` renders the same statement as its normalisation
`Offset(20).Limit(10)`. -/
theorem getSelectSql_normalizePaging_witness :
    getSelectSql "t" (((GetWrapper.Page 1).Offset 5).Limit 10).queryInfo
      = some ⟨"select * from t limit 5, 10", none, []⟩ ∧
    getSelectSql "t" (((GetWrapper.Page 3).Offset 5).Limit 10).queryInfo
      = some ⟨"select * from t limit 20, 10", none, []⟩ ∧
    normalizePaging (((GetWrapper.Page 3).Offset 5).Limit 10).queryInfo
      = ((GetWrapper.Offset 20).Limit 10).queryInfo ∧
    getSelectSql "t" (((GetWrapper.Page 3).Offset 5).Limit 10).queryInfo
      = getSelectSql "t"
          (normalizePaging (((GetWrapper.Page 3).Offset 5).Limit 10).queryInfo) :=
  ⟨rfl, rfl, rfl,
   (getSelectSql_normalizePaging "t" (((GetWrapper.Page 3).Offset 5).Limit 10).queryInfo).1⟩

/-! ## The single-row statement -/

/-- C19, the code at the failing input: for the wrapper
`TableName("other").As("s").Eq("age", 30)` on the binding of table `t`,
`CountByWrapper` issues its statement on `t` without the alias, while
`SelectByWrapper` selects from `other s` for the same wrapper. -/
theorem CountByWrapper_ignores_table_override :
    BaseDao.CountByWrapper ⟨fun n => if n = "m" then some (some ⟨1⟩) else none, true⟩
        ⟨"t", "m", ""⟩ []
        (((GetWrapper.TableName "other").As "s").Eq "age" (Value.int 30))
      = some (Issued.call ⟨connectInter.db (some ⟨1⟩), DriverMethod.GetContext, [],
          "select count(1) as cn from t where `age` = ? limit 0, 1", [Value.int 30]⟩) ∧
    BaseDao.SelectByWrapper ⟨fun n => if n = "m" then some (some ⟨1⟩) else none, true⟩
        ⟨"t", "m", ""⟩ []
        (((GetWrapper.TableName "other").As "s").Eq "age" (Value.int 30))
      = some (Issued.call ⟨connectInter.db (some ⟨1⟩), DriverMethod.SelectContext, [],
          "select * from other s where `age` = ? limit 1024", [Value.int 30]⟩) ∧
    getSelectOneSql ⟨"t", "m", ""⟩ ((GetWrapper.TableName "other").As "s").queryInfo
      = some ⟨"select * from t limit 0, 1", none, []⟩ ∧
    getSelectSql "t" ((GetWrapper.TableName "other").As "s").queryInfo
      = some ⟨"select * from other s limit 1024", none, []⟩ :=
  ⟨rfl, rfl, rfl, rfl⟩

/-! ## The operator set -/

theorem appendWhere_keeps (w : Wrapper) (extra : whereItem) (op : String)
    (h : ∃ item ∈ w.queryInfo.where_, item.op = op) :
    ∃ item ∈ (w.appendWhere extra).queryInfo.where_, item.op = op := by
  obtain ⟨item, hmem, hop⟩ := h
  exact ⟨item, by simp [Wrapper.appendWhere, hmem], hop⟩

theorem clauseOf_none_of_notLike (w : Wrapper)
    (h : ∃ item ∈ w.queryInfo.where_, item.op = "not like") :
    ∃ item ∈ w.queryInfo.where_, clauseOf item = none := by
  obtain ⟨item, hmem, hop⟩ := h
  have hno : "not like" ∉ supportedOps := by decide
  exact ⟨item, hmem, clauseOf_unsupported item (Or.inr (hop ▸ hno))⟩

/-- C22 (as amended): the operator set is closed: a condition list that contains a
condition whose operator is empty or is not one of `=`, `!=`, `<`, `<=`, `>`, `>=`,
`<>`, `like`, `in`, `not in`, `between`, `not between`, `apply` makes `getWhereSql`
return an error and no text, and so do the SELECT, COUNT and DELETE renderings, while
the UPDATE rendering returns no text; in particular `NotLike` accumulates the operator
`not like`, the condition methods keep it in the list, and every wrapper whose
condition list holds such a condition renders in none of SELECT, COUNT, UPDATE and
DELETE: no statement is issued for it. -/
theorem operator_set_closed (items : List whereItem) (p : List Value)
    (h : ∃ item ∈ items, item.op = "" ∨ item.op ∉ supportedOps) :
    (∃ e p', getWhereSql items p = some ⟨"", some e, p'⟩) ∧
    (∀ (tableName : String) (info : queryInfo), info.where_ = items →
      ∃ e, getSelectSql tableName info = some ⟨"", some e, []⟩) ∧
    (∀ (dao : BaseDao) (info : queryInfo), info.where_ = items →
      ∃ e, getSelectOneSql dao info = some ⟨"", some e, []⟩) ∧
    (∀ (fmtS : Value → String) (dao : BaseDao) (data : List dataItem) (out : SqlOut),
      getUpdateSql fmtS dao data items p = some out →
        out.result = "" ∧ ∃ e, out.err = some e) ∧
    (∀ dao : BaseDao, ∃ e p', getDeleteSql dao items p = some ⟨"", some e, p'⟩) ∧
    (∀ (w : Wrapper) (column value : String),
      ∃ item ∈ (w.NotLike column value).queryInfo.where_, item.op = "not like") ∧
    (∀ (w : Wrapper) (extra : whereItem),
      (∃ item ∈ w.queryInfo.where_, item.op = "not like") →
      ∃ item ∈ (w.appendWhere extra).queryInfo.where_, item.op = "not like") ∧
    (∀ (fmtS : Value → String) (reg : Registry) (ctx : Context) (dao : BaseDao)
        (w : Wrapper),
      (∃ item ∈ w.queryInfo.where_, item.op = "not like") →
      (∃ e, selectByWrapper reg ctx dao w = some (Issued.failed e)) ∧
      (∃ e, selectMapByWrapper reg ctx dao w = some (Issued.failed e)) ∧
      (∃ e, (countByWrapper reg ctx dao w).out = some (Issued.failed e)) ∧
      (∀ c, updateByWrapper fmtS reg ctx dao w ≠ some (Issued.call c)) ∧
      (∃ e, deleteByWrapper reg ctx dao w = some (Issued.failed e))) := by
  have hnone : ∃ item ∈ items, clauseOf item = none := by
    obtain ⟨item, hmem, hop⟩ := h
    exact ⟨item, hmem, clauseOf_unsupported item hop⟩
  refine ⟨getWhereSql_err items p hnone, ?_, ?_, ?_, ?_, ?_, ?_, ?_⟩
  · intro tableName info hinfo
    exact getSelectSql_fails tableName info (hinfo ▸ hnone)
  · intro dao info hinfo
    exact getSelectOneSql_fails dao info (hinfo ▸ hnone)
  · intro fmtS dao data out hout
    exact getUpdateSql_fails fmtS dao data items p hnone out hout
  · intro dao
    exact getDeleteSql_fails dao items p hnone
  · intro w column value
    refine ⟨⟨column, "not like", Value.str ("%" ++ value ++ "%")⟩, ?_, rfl⟩
    simp [Wrapper.NotLike, Wrapper.appendWhere, createWhereItem]
  · intro w extra hw
    exact appendWhere_keeps w extra "not like" hw
  · intro fmtS reg ctx dao w hw
    have hn := clauseOf_none_of_notLike w hw
    exact ⟨selectByWrapper_fails reg ctx dao w hn, selectMapByWrapper_fails reg ctx dao w hn,
      countByWrapper_fails reg ctx dao w hn, updateByWrapper_fails fmtS reg ctx dao w hn,
      deleteByWrapper_fails reg ctx dao w hn⟩

/-- C22, an instance of the amended claim: `Eq("age", 30).NotLike("name", "bob")`
does not render. -/
theorem operator_set_closed_witness :
    (GetWrapper.Eq "age" (Value.int 30)).NotLike "name" "bob"
      = { GetWrapper with queryInfo :=
            { where_ := [⟨"age", "=", Value.int 30⟩,
                ⟨"name", "not like", Value.str "%bob%"⟩] } } ∧
    ∃ e p', getWhereSql
        [⟨"age", "=", Value.int 30⟩, ⟨"name", "not like", Value.str "%bob%"⟩] []
      = some ⟨"", some e, p'⟩ :=
  ⟨rfl,
   (operator_set_closed
      [⟨"age", "=", Value.int 30⟩, ⟨"name", "not like", Value.str "%bob%"⟩] []
      ⟨⟨"name", "not like", Value.str "%bob%"⟩, by simp,
        Or.inr (by
          have hno : "not like" ∉ supportedOps := by decide
          exact hno)⟩).1⟩

/-- C22 fails as stated: on the wrapper `NotLike("name", "bob").Where([id = 1])`
`NotLike` has been called, yet `Where` has replaced the condition list, and SELECT,
COUNT, UPDATE and DELETE all render and issue their statement. -/
theorem notLike_then_Where_renders :
    BaseDao.SelectByWrapper ⟨fun n => if n = "m" then some (some ⟨1⟩) else none, true⟩
        ⟨"t", "m", ""⟩ []
        ((GetWrapper.NotLike "name" "bob").Where [⟨"id", "=", Value.int 1⟩])
      = some (Issued.call ⟨connectInter.db (some ⟨1⟩), DriverMethod.SelectContext, [],
          "select * from t where `id` = ? limit 1024", [Value.int 1]⟩) ∧
    BaseDao.CountByWrapper ⟨fun n => if n = "m" then some (some ⟨1⟩) else none, true⟩
        ⟨"t", "m", ""⟩ []
        ((GetWrapper.NotLike "name" "bob").Where [⟨"id", "=", Value.int 1⟩])
      = some (Issued.call ⟨connectInter.db (some ⟨1⟩), DriverMethod.GetContext, [],
          "select count(1) as cn from t where `id` = ? limit 0, 1", [Value.int 1]⟩) ∧
    BaseDao.UpdateByWrapper (fun _ => "")
        ⟨fun n => if n = "m" then some (some ⟨1⟩) else none, true⟩ ⟨"t", "m", ""⟩ []
        (((GetWrapper.NotLike "name" "bob").Where [⟨"id", "=", Value.int 1⟩]).Set "age"
          (Value.int 5))
      = some (Issued.call ⟨connectInter.db (some ⟨1⟩), DriverMethod.ExecContext, [],
          "update t set `age` = ? where `id` = ?", [Value.int 5, Value.int 1]⟩) ∧
    BaseDao.DeleteByWrapper ⟨fun n => if n = "m" then some (some ⟨1⟩) else none, true⟩
        ⟨"t", "m", ""⟩ []
        ((GetWrapper.NotLike "name" "bob").Where [⟨"id", "=", Value.int 1⟩])
      = some (Issued.call ⟨connectInter.db (some ⟨1⟩), DriverMethod.ExecContext, [],
          "delete from t where `id` = ?", [Value.int 1]⟩) ∧
    getSelectSql "t" ((GetWrapper.NotLike "name" "bob").Where []).queryInfo
      = some ⟨"select * from t limit 1024", none, []⟩ :=
  ⟨rfl, rfl, rfl, rfl, rfl⟩

/-! ## Expression assignments -/

/-- The text and the arguments `getUpdateSql` returns for assignments of the kinds
`value` and `exp` and conditions that render. -/
theorem getUpdateSql_parts (fmtS : Value → String) (dao : BaseDao) (data : List dataItem)
    (where_ : List whereItem) (p : List Value) (W : String) (A : List Value)
    (hdata : data ≠ []) (hkind : ∀ d ∈ data, d.op = "value" ∨ d.op = "exp")
    (hwhere : where_ ≠ []) (hw : getWhereSql where_ [] = some ⟨W, none, A⟩) :
    getUpdateSql fmtS dao data where_ p
      = some ⟨"update " ++ dao.tableName ++ " set "
          ++ stringsJoin (data.map (setClause fmtS)) ", " ++ " where " ++ W, none,
          p ++ (data.map setArgs).flatten ++ A⟩ := by
  cases data with
  | nil => exact absurd rfl hdata
  | cons d rest =>
    cases where_ with
    | nil => exact absurd rfl hwhere
    | cons c cs =>
      have hs := sliceTo_joinTrail (setClause fmtS d) (rest.map (setClause fmtS))
      have hw' := getWhereSql_params (c :: cs)
        (p ++ (setArgs d ++ (rest.map setArgs).flatten)) W A hw
      simp only [getUpdateSql, getUpdateSqlLoop_eq fmtS (d :: rest) "" p hkind,
        List.map_cons, String.empty_append, BaseDao.GetTableName] at hs hw' ⊢
      simp [hs, hw']

/-- The text and the arguments `getInsertSql` returns for a non-empty list. -/
theorem getInsertSql_parts (dao : BaseDao) (data : List dataItem) (p : List Value)
    (h : data ≠ []) :
    getInsertSql dao data p
      = some ⟨"insert into `" ++ dao.tableName ++ "`("
          ++ stringsJoin (data.map fun d => "`" ++ d.field ++ "`") ", "
          ++ ") values (" ++ stringsJoin (List.replicate data.length "?") ", " ++ ")",
        none, p ++ data.map fun d => d.value⟩ := by
  cases data with
  | nil => exact absurd rfl h
  | cons d rest =>
    have hf := sliceTo_joinTrail ("`" ++ d.field ++ "`")
      (rest.map fun d => "`" ++ d.field ++ "`")
    have hv := sliceTo_joinTrail "?" (rest.map fun _ => "?")
    simp only [getInsertSql, getInsertSqlLoop_eq, List.map_cons, String.empty_append,
      BaseDao.GetTableName]
    simp only [List.map_const'] at hv ⊢
    simp [hf, hv, List.replicate_succ]

theorem structFieldsLoop_value (tag ignoreKey : String) (fields : List StructField)
    (result : List dataItem) (h : ∀ d ∈ result, d.op = "value") :
    ∀ d ∈ structFieldsLoop tag ignoreKey fields result, d.op = "value" := by
  induction fields generalizing result with
  | nil => exact h
  | cons item rest ih =>
    unfold structFieldsLoop
    simp only
    split
    · exact ih result h
    · split
      · apply ih
        intro d hd
        rcases List.mem_append.mp hd with hd | hd
        · exact h d hd
        · rw [List.mem_singleton.mp hd]
      · exact ih result h

theorem mapEntriesLoop_value (ignoreKey : String) (entries : List (String × Value))
    (result : List dataItem) (h : ∀ d ∈ result, d.op = "value") :
    ∀ d ∈ mapEntriesLoop ignoreKey entries result, d.op = "value" := by
  induction entries generalizing result with
  | nil => exact h
  | cons entry rest ih =>
    obtain ⟨key, value⟩ := entry
    unfold mapEntriesLoop
    split
    · exact ih result h
    · apply ih
      intro d hd
      rcases List.mem_append.mp hd with hd | hd
      · exact h d hd
      · rw [List.mem_singleton.mp hd]

/-- Every assignment `structToDataItems` returns has the kind `value`. -/
theorem structToDataItems_value (data : ReflectData) (tag ignoreKey : String)
    (items : List dataItem) (e : Option SqlError)
    (h : structToDataItems data tag ignoreKey = some (items, e)) :
    ∀ d ∈ items, d.op = "value" := by
  cases data with
  | invalid => simp [structToDataItems] at h
  | struct fields =>
    simp only [structToDataItems, Option.some.injEq, Prod.mk.injEq] at h
    rw [← h.1]
    exact structFieldsLoop_value tag ignoreKey fields [] (by simp)
  | mapStringAny entries =>
    simp only [structToDataItems, Option.some.injEq, Prod.mk.injEq] at h
    rw [← h.1]
    exact mapEntriesLoop_value ignoreKey entries [] (by simp)
  | mapOther => simp [structToDataItems] at h
  | other =>
    simp only [structToDataItems, Option.some.injEq, Prod.mk.injEq] at h
    rw [← h.1]
    simp

/-- C15 (as amended): `getUpdateSql` never parameterizes an assignment of the kind
`exp`: for a non-empty assignment list of the kinds `value` and `exp` and conditions
that render, it splices the value of an `exp` assignment into the SQL text and appends
no argument for it, while an assignment of the kind `value` gets a placeholder and one
argument.  `getInsertSql` has no expression mechanism: it renders one placeholder per
assignment and appends every value, whatever the kind; the assignments `Insert` hands
to it come from `structToDataItems` and all have the kind `value`. -/
theorem expression_spliced_by_update (fmtS : Value → String) (dao : BaseDao)
    (data : List dataItem) (where_ : List whereItem) (p : List Value) (W : String)
    (A : List Value)
    (hdata : data ≠ []) (hkind : ∀ d ∈ data, d.op = "value" ∨ d.op = "exp")
    (hwhere : where_ ≠ []) (hw : getWhereSql where_ [] = some ⟨W, none, A⟩) :
    getUpdateSql fmtS dao data where_ p
        = some ⟨"update " ++ dao.tableName ++ " set "
            ++ stringsJoin (data.map (setClause fmtS)) ", " ++ " where " ++ W, none,
            p ++ (data.map setArgs).flatten ++ A⟩ ∧
      (∀ d : dataItem, d.op = "exp" →
        setClause fmtS d = "`" ++ d.field ++ "` = " ++ fmtS d.value ∧ setArgs d = []) ∧
      (∀ d : dataItem, d.op = "value" →
        setClause fmtS d = "`" ++ d.field ++ "` = ?" ∧ setArgs d = [d.value]) ∧
      getInsertSql dao data p
        = some ⟨"insert into `" ++ dao.tableName ++ "`("
            ++ stringsJoin (data.map fun d => "`" ++ d.field ++ "`") ", "
            ++ ") values (" ++ stringsJoin (List.replicate data.length "?") ", " ++ ")",
          none, p ++ data.map fun d => d.value⟩ ∧
      (∀ (rd : ReflectData) (tag ignoreKey : String) (items : List dataItem)
          (e : Option SqlError),
        structToDataItems rd tag ignoreKey = some (items, e) →
        ∀ d ∈ items, d.op = "value") := by
  refine ⟨getUpdateSql_parts fmtS dao data where_ p W A hdata hkind hwhere hw, ?_, ?_,
    getInsertSql_parts dao data p hdata, structToDataItems_value⟩
  · intro d hd
    have hnv : ¬ d.op = "value" := by rw [hd]; decide
    simp [setClause, setArgs, hnv]
  · intro d hd
    simp [setClause, setArgs, hd]

/-- C15, an instance of the amended claim: `Set("name", "a").SetExp("ts", "NOW()")`
with the condition `id = 1` on table `t`. -/
theorem expression_spliced_by_update_witness :
    getUpdateSql (fun v => match v with
          | Value.str s => s
          | _ => "") ⟨"t", "master", ""⟩
        ((GetWrapper.Set "name" (Value.str "a")).SetExp "ts" "NOW()").dataItems
        [⟨"id", "=", Value.int 1⟩] []
      = some ⟨"update t set `name` = ?, `ts` = NOW() where `id` = ?", none,
          [Value.str "a", Value.int 1]⟩ :=
  (expression_spliced_by_update (fun v => match v with
          | Value.str s => s
          | _ => "") ⟨"t", "master", ""⟩
      [⟨"name", "value", Value.str "a"⟩, ⟨"ts", "exp", Value.str "NOW()"⟩]
      [⟨"id", "=", Value.int 1⟩] [] "`id` = ?" [Value.int 1] (by simp)
      (by
        intro d hd
        simp only [List.mem_cons, List.mem_singleton, List.not_mem_nil, or_false] at hd
        rcases hd with rfl | rfl
        · exact Or.inl rfl
        · exact Or.inr rfl)
      (by simp) rfl).1

/-! ## Rendering on slices in memory -/

/-- After `append` the returned header shows the old elements followed by the new. -/
theorem Heap.view_goAppend (h : Heap) (s : Slice) (vs : List Value) :
    (goAppend h s vs).1.view (goAppend h s vs).2 = h.view s ++ vs := by
  unfold goAppend
  split
  · apply List.ext_getElem
    · simp [Heap.view]
    · intro i h1 h2
      have h3 : i < s.len + vs.length := by
        simpa [Heap.view] using h2
      simp only [Heap.view, Heap.writeFrom, List.getElem_map, List.getElem_range,
        List.getElem_append, List.length_map, List.length_range]
      by_cases hi : i < s.len
      · have hn : ¬ s.len ≤ i := by omega
        simp [hi, hn]
      · have hle : s.len ≤ i := by omega
        have hlt : i - s.len < vs.length := by omega
        simp [hi, hle, List.getElem?_eq_getElem hlt]
  · apply List.ext_getElem
    · simp [Heap.view]
    · intro i h1 h2
      simp only [Heap.view, Heap.writeFrom, List.getElem_map, List.getElem_range] at h2 ⊢
      simp [List.getElem?_eq_getElem h2]

theorem Keeps.start (h0 : Heap) (s0 : Slice) : Keeps h0 s0 h0 s0 :=
  ⟨⟨Nat.le_refl _, fun _ _ _ _ => rfl⟩, Or.inl ⟨rfl, Nat.le_refl _⟩⟩

/-- An `append` to the running header writes outside the frame. -/
theorem Keeps.append (h0 : Heap) (s0 : Slice) (h : Heap) (s : Slice) (vs : List Value)
    (hk : Keeps h0 s0 h s) :
    Keeps h0 s0 (goAppend h s vs).1 (goAppend h s vs).2 := by
  obtain ⟨⟨hnext, hcells⟩, hat⟩ := hk
  unfold goAppend
  split
  · refine ⟨⟨hnext, ?_⟩, ?_⟩
    · intro a i ha hai
      have hn : ¬ (a = s.arr ∧ s.len ≤ i) := by
        rintro ⟨rfl, hle⟩
        rcases hat with ⟨harr, hlen⟩ | hfresh
        · rcases hai with hne | hlt
          · exact hne harr
          · omega
        · omega
      simp only [Heap.writeFrom, if_neg hn]
      exact hcells a i ha hai
    · rcases hat with ⟨harr, hlen⟩ | hfresh
      · exact Or.inl ⟨harr, by simp only; omega⟩
      · exact Or.inr hfresh
  · refine ⟨⟨by simp only; omega, ?_⟩, Or.inr hnext⟩
    intro a i ha hai
    have hn : ¬ (a = h.next ∧ 0 ≤ i) := by
      rintro ⟨rfl, _⟩
      omega
    simp only [Heap.writeFrom, if_neg hn]
    exact hcells a i ha hai

/-- Under the frame an allocated slice shows what it showed. -/
theorem Frame.view (h0 : Heap) (s0 : Slice) (h : Heap) (hf : Frame h0 s0 h)
    (hs : s0.len = 0 ∨ s0.arr < h0.next) : h.view s0 = h0.view s0 := by
  unfold Heap.view
  apply List.map_congr_left
  intro i hi
  have hi' : i < s0.len := List.mem_range.mp hi
  rcases hs with hz | ha
  · omega
  · exact hf.2 s0.arr i ha (Or.inr hi')

theorem getWhereInSqlLoopMem_abs (list : List Value) (r : String) (h : Heap) (s : Slice) :
    getWhereInSqlLoop list r (h.view s)
      = ((getWhereInSqlLoopMem list r h s).1,
          (getWhereInSqlLoopMem list r h s).2.1.view (getWhereInSqlLoopMem list r h s).2.2) := by
  induction list generalizing r h s with
  | nil => rfl
  | cons v rest ih =>
    simp only [getWhereInSqlLoop, getWhereInSqlLoopMem]
    rw [← Heap.view_goAppend]
    exact ih _ _ _

theorem getWhereInSqlLoopMem_keeps (h0 : Heap) (s0 : Slice) (list : List Value)
    (r : String) (h : Heap) (s : Slice) (hk : Keeps h0 s0 h s) :
    Keeps h0 s0 (getWhereInSqlLoopMem list r h s).2.1
      (getWhereInSqlLoopMem list r h s).2.2 := by
  induction list generalizing r h s with
  | nil => exact hk
  | cons v rest ih =>
    simp only [getWhereInSqlLoopMem]
    exact ih _ _ _ (Keeps.append h0 s0 h s [v] hk)

/-- The function `getWhereInSql` on a slice header returns what `getWhereInSql` returns
on the elements the header shows. -/
theorem getWhereInSqlMem_abs (key op : String) (value : Value) (h : Heap) (s : Slice) :
    (getWhereInSqlMem key op value h s).map MemOut.abs
      = getWhereInSql key op value (h.view s) := by
  unfold getWhereInSqlMem getWhereInSql
  split
  · rfl
  · rcases interfaceToSlice value with ⟨list, _ | e⟩
    · simp only
      split
      · rfl
      · rw [getWhereInSqlLoopMem_abs]
        rcases getWhereInSqlLoopMem list "" h s with ⟨r', h', s'⟩
        simp only
        cases sliceTo r' ((r'.length : Int) - 2) <;> rfl
    · rfl

theorem getWhereInSqlMem_keeps (h0 : Heap) (s0 : Slice) (key op : String) (value : Value)
    (h : Heap) (s : Slice) (o : MemOut) (hk : Keeps h0 s0 h s)
    (ho : getWhereInSqlMem key op value h s = some o) : Keeps h0 s0 o.heap o.params := by
  unfold getWhereInSqlMem at ho
  split at ho
  · cases ho; exact hk
  · revert ho
    rcases interfaceToSlice value with ⟨list, _ | e⟩ <;> intro ho
    · simp only at ho
      split at ho
      · cases ho; exact hk
      · have hl := getWhereInSqlLoopMem_keeps h0 s0 list "" h s hk
        revert ho hl
        rcases getWhereInSqlLoopMem list "" h s with ⟨r', h', s'⟩
        intro ho hl
        simp only at ho hl
        revert ho
        cases sliceTo r' ((r'.length : Int) - 2) <;> intro ho
        · cases ho
        · cases ho; exact hl
    · cases ho; exact hk

theorem getWhereBetweenSqlMem_abs (key op : String) (value : Value) (h : Heap)
    (s : Slice) :
    (getWhereBetweenSqlMem key op value h s).map MemOut.abs
      = getWhereBetweenSql key op value (h.view s) := by
  unfold getWhereBetweenSqlMem getWhereBetweenSql
  split
  · rfl
  · rcases interfaceToSlice value with ⟨list, _ | e⟩
    · simp only
      split
      · rfl
      · rcases list[0]? with _ | a <;> rcases list[1]? with _ | b <;>
          simp [MemOut.abs, Heap.view_goAppend]
    · rfl

theorem getWhereBetweenSqlMem_keeps (h0 : Heap) (s0 : Slice) (key op : String)
    (value : Value) (h : Heap) (s : Slice) (o : MemOut) (hk : Keeps h0 s0 h s)
    (ho : getWhereBetweenSqlMem key op value h s = some o) :
    Keeps h0 s0 o.heap o.params := by
  unfold getWhereBetweenSqlMem at ho
  split at ho
  · cases ho; exact hk
  · revert ho
    rcases interfaceToSlice value with ⟨list, _ | e⟩ <;> intro ho
    · simp only at ho
      split at ho
      · cases ho; exact hk
      · revert ho
        rcases list[0]? with _ | a <;> rcases list[1]? with _ | b <;> intro ho
        · cases ho
        · cases ho
        · cases ho
        · cases ho
          exact Keeps.append h0 s0 h s [a, b] hk
    · cases ho; exact hk

theorem getWhereApplySqlMem_abs (key : String) (value : Value) (h : Heap) (s : Slice) :
    (getWhereApplySqlMem key value h s).map MemOut.abs
      = getWhereApplySql key value (h.view s) := by
  unfold getWhereApplySqlMem getWhereApplySql
  split
  · rfl
  · rcases interfaceToSlice value with ⟨list, _ | e⟩
    · simp only
      split
      · rfl
      · rcases list[0]? with _ | first
        · rfl
        · cases first <;> simp [MemOut.abs, Heap.view_goAppend]
    · rfl

theorem getWhereApplySqlMem_keeps (h0 : Heap) (s0 : Slice) (key : String)
    (value : Value) (h : Heap) (s : Slice) (o : MemOut) (hk : Keeps h0 s0 h s)
    (ho : getWhereApplySqlMem key value h s = some o) :
    Keeps h0 s0 o.heap o.params := by
  unfold getWhereApplySqlMem at ho
  split at ho
  · cases ho; exact hk
  · revert ho
    rcases interfaceToSlice value with ⟨list, _ | e⟩ <;> intro ho
    · simp only at ho
      split at ho
      · cases ho; exact hk
      · revert ho
        rcases list[0]? with _ | first <;> intro ho
        · cases ho
        · cases first <;> simp only [Option.some.injEq] at ho <;> subst ho <;>
            first
              | exact hk
              | exact Keeps.append h0 s0 h s _ hk
    · cases ho; exact hk

/-- The loop of `getWhereSql` on a slice header agrees with the loop on the elements
the header shows. -/
theorem getWhereSqlLoopMem_abs (items : List whereItem) (wl : List String) (h : Heap)
    (s : Slice) :
    (getWhereSqlLoopMem items wl h s).map WhereLoopMemOut.abs
      = getWhereSqlLoop items wl (h.view s) := by
  induction items generalizing wl h s with
  | nil => rfl
  | cons item rest ih =>
    simp only [getWhereSqlLoopMem, getWhereSqlLoop]
    split
    · rfl
    · split
      · rfl
      · split
        · rw [← Heap.view_goAppend]
          exact ih _ _ _
        · split
          · rw [← getWhereInSqlMem_abs]
            cases getWhereInSqlMem (keyFormat item.field) item.op item.value h s with
            | none => rfl
            | some out =>
              simp only [Option.map_some', MemOut.abs]
              cases out.err with
              | none => exact ih _ _ _
              | some e => rfl
          · split
            · rw [← getWhereBetweenSqlMem_abs]
              cases getWhereBetweenSqlMem (keyFormat item.field) item.op item.value h s with
              | none => rfl
              | some out =>
                simp only [Option.map_some', MemOut.abs]
                cases out.err with
                | none => exact ih _ _ _
                | some e => rfl
            · split
              · rw [← getWhereApplySqlMem_abs]
                cases getWhereApplySqlMem (keyFormat item.field) item.value h s with
                | none => rfl
                | some out =>
                  simp only [Option.map_some', MemOut.abs]
                  cases out.err with
                  | none => exact ih _ _ _
                  | some e => rfl
              · rfl

theorem getWhereSqlLoopMem_keeps (h0 : Heap) (s0 : Slice) (items : List whereItem)
    (wl : List String) (h : Heap) (s : Slice) (o : WhereLoopMemOut)
    (hk : Keeps h0 s0 h s) (ho : getWhereSqlLoopMem items wl h s = some o) :
    Keeps h0 s0 o.heap o.params := by
  induction items generalizing wl h s with
  | nil =>
    simp only [getWhereSqlLoopMem, Option.some.injEq] at ho
    subst ho
    exact hk
  | cons item rest ih =>
    simp only [getWhereSqlLoopMem] at ho
    split at ho
    · cases ho; exact hk
    · split at ho
      · cases ho; exact hk
      · split at ho
        · exact ih _ _ _ (Keeps.append h0 s0 h s _ hk) ho
        · split at ho
          · revert ho
            cases hm : getWhereInSqlMem (keyFormat item.field) item.op item.value h s with
            | none => intro ho; cases ho
            | some out =>
              have hk' := getWhereInSqlMem_keeps h0 s0 _ _ _ h s out hk hm
              simp only
              cases out.err with
              | none => intro ho; exact ih _ _ _ hk' ho
              | some e => intro ho; cases ho; exact hk'
          · split at ho
            · revert ho
              cases hm : getWhereBetweenSqlMem (keyFormat item.field) item.op item.value
                  h s with
              | none => intro ho; cases ho
              | some out =>
                have hk' := getWhereBetweenSqlMem_keeps h0 s0 _ _ _ h s out hk hm
                simp only
                cases out.err with
                | none => intro ho; exact ih _ _ _ hk' ho
                | some e => intro ho; cases ho; exact hk'
            · split at ho
              · revert ho
                cases hm : getWhereApplySqlMem (keyFormat item.field) item.value h s with
                | none => intro ho; cases ho
                | some out =>
                  have hk' := getWhereApplySqlMem_keeps h0 s0 _ _ h s out hk hm
                  simp only
                  cases out.err with
                  | none => intro ho; exact ih _ _ _ hk' ho
                  | some e => intro ho; cases ho; exact hk'
              · cases ho; exact hk

/-- The function `getWhereSql` on a slice header returns what `getWhereSql` returns on
the elements the header shows. -/
theorem getWhereSqlMem_abs (items : List whereItem) (h : Heap) (s : Slice) :
    (getWhereSqlMem items h s).map MemOut.abs = getWhereSql items (h.view s) := by
  unfold getWhereSqlMem getWhereSql
  split
  · rfl
  · rw [← getWhereSqlLoopMem_abs]
    cases getWhereSqlLoopMem items [] h s with
    | none => rfl
    | some out =>
      simp only [Option.map_some', WhereLoopMemOut.abs]
      cases out.err <;> rfl

theorem getWhereSqlMem_keeps (h0 : Heap) (s0 : Slice) (items : List whereItem)
    (h : Heap) (s : Slice) (o : MemOut) (hk : Keeps h0 s0 h s)
    (ho : getWhereSqlMem items h s = some o) : Keeps h0 s0 o.heap o.params := by
  unfold getWhereSqlMem at ho
  split at ho
  · cases ho; exact hk
  · revert ho
    cases hm : getWhereSqlLoopMem items [] h s with
    | none => intro ho; cases ho
    | some out =>
      have hk' := getWhereSqlLoopMem_keeps h0 s0 items [] h s out hk hm
      simp only
      cases out.err with
      | none => intro ho; cases ho; exact hk'
      | some e => intro ho; cases ho; exact hk'

/-- The function `getSelectSql` on a heap returns what `getSelectSql` returns on the
specification its argument shows. -/
theorem getSelectSqlMem_abs (h : Heap) (tableName : String) (info : queryInfoMem) :
    (getSelectSqlMem h tableName info).map MemOut.abs
      = getSelectSql tableName (info.read h) := by
  have hl : ∀ (q : queryInfo) (p : List Value),
      limitPart { q with whereParams := p } = limitPart q := fun _ _ => rfl
  by_cases ht :
      (if info.fields.tableName ≠ "" then info.fields.tableName else tableName) = ""
  · simp only [getSelectSqlMem, getSelectSql, queryInfoMem.read, if_pos ht]
    rfl
  · simp only [getSelectSqlMem, getSelectSql, queryInfoMem.read, if_neg ht, hl]
    by_cases hne : info.fields.where_.length ≠ 0
    · simp only [if_pos hne]
      rw [← getWhereSqlMem_abs]
      cases getWhereSqlMem info.fields.where_ h info.whereParams with
      | none => rfl
      | some out =>
        simp only [Option.map_some', MemOut.abs]
        cases out.err <;> rfl
    · simp only [if_neg hne]
      rfl

/-- The function `getSelectSql` on a heap stores outside the frame of the parameter
slice of its argument. -/
theorem getSelectSqlMem_frame (h : Heap) (tableName : String) (info : queryInfoMem)
    (o : MemOut) (ho : getSelectSqlMem h tableName info = some o) :
    Frame h info.whereParams o.heap := by
  have hk := Keeps.start h info.whereParams
  by_cases ht :
      (if info.fields.tableName ≠ "" then info.fields.tableName else tableName) = ""
  · simp only [getSelectSqlMem, if_pos ht, Option.some.injEq] at ho
    subst ho
    exact hk.1
  · simp only [getSelectSqlMem, if_neg ht] at ho
    by_cases hne : info.fields.where_.length ≠ 0
    · simp only [if_pos hne] at ho
      revert ho
      cases hm : getWhereSqlMem info.fields.where_ h info.whereParams with
      | none => intro ho; cases ho
      | some out =>
        have hk' := getWhereSqlMem_keeps h info.whereParams _ h _ out hk hm
        simp only
        cases out.err with
        | none => intro ho; cases ho; exact hk'.1
        | some e => intro ho; cases ho; exact hk'.1
    · simp only [if_neg hne, Option.some.injEq] at ho
      subst ho
      exact hk.1

/-- The function `getSelectOneSql` on a heap returns what `getSelectOneSql` returns on
the specification its argument shows. -/
theorem getSelectOneSqlMem_abs (h : Heap) (dao : BaseDao) (info : queryInfoMem) :
    (getSelectOneSqlMem h dao info).map MemOut.abs
      = getSelectOneSql dao (info.read h) := by
  simp only [getSelectOneSqlMem, getSelectOneSql, queryInfoMem.read]
  by_cases hne : info.fields.where_.length ≠ 0
  · simp only [if_pos hne]
    rw [← getWhereSqlMem_abs]
    cases getWhereSqlMem info.fields.where_ h info.whereParams with
    | none => rfl
    | some out =>
      simp only [Option.map_some', MemOut.abs]
      cases out.err <;> rfl
  · simp only [if_neg hne]
    rfl

/-- The function `getSelectOneSql` on a heap stores outside the frame of the parameter
slice of its argument. -/
theorem getSelectOneSqlMem_frame (h : Heap) (dao : BaseDao) (info : queryInfoMem)
    (o : MemOut) (ho : getSelectOneSqlMem h dao info = some o) :
    Frame h info.whereParams o.heap := by
  have hk := Keeps.start h info.whereParams
  simp only [getSelectOneSqlMem] at ho
  by_cases hne : info.fields.where_.length ≠ 0
  · simp only [if_pos hne] at ho
    revert ho
    cases hm : getWhereSqlMem info.fields.where_ h info.whereParams with
    | none => intro ho; cases ho
    | some out =>
      have hk' := getWhereSqlMem_keeps h info.whereParams _ h _ out hk hm
      simp only
      cases out.err with
      | none => intro ho; cases ho; exact hk'.1
      | some e => intro ho; cases ho; exact hk'.1
  · simp only [if_neg hne, Option.some.injEq] at ho
    subst ho
    exact hk.1

/-- `countByWrapper` never panics. -/
theorem countByWrapper_isSome (reg : Registry) (ctx : Context) (dao : BaseDao)
    (w : Wrapper) : ∃ r, (countByWrapper reg ctx dao w).out = some r := by
  obtain ⟨out, hout⟩ := getSelectOneSql_isSome dao
    { w.queryInfo with selectField := ["count(1) as cn"] }
  unfold countByWrapper
  rcases getConnectByWrapper reg ctx dao (some w) false with ⟨conn, _ | e⟩
  · simp only [hout]
    cases out.err <;> exact ⟨_, rfl⟩
  · exact ⟨_, rfl⟩

/-- When the wrapper value is the same and the heap is within the frame of its parameter
slice, the pointer shows the same wrapper. -/
theorem Memory.read_eq_of_frame (m m1 : Memory) (hwr : m1.wrapper = m.wrapper)
    (hf : Frame m.heap m.wrapper.queryInfo.whereParams m1.heap)
    (hw : m.wrapper.queryInfo.whereParams.len = 0 ∨
      m.wrapper.queryInfo.whereParams.arr < m.heap.next) :
    m1.read = m.read := by
  have hv := Frame.view m.heap m.wrapper.queryInfo.whereParams m1.heap hf hw
  simp only [Memory.read, queryInfoMem.read, hwr, hv]

/-- What `countByWrapper` returns on a memory is what `countByWrapper` returns on the
wrapper the pointer shows. -/
theorem countByWrapperMem_out (reg : Registry) (ctx : Context) (dao : BaseDao)
    (m : Memory) :
    (countByWrapperMem reg ctx dao m).map Prod.fst
      = (countByWrapper reg ctx dao m.read).out := by
  have hs := getSelectOneSqlMem_abs m.heap dao
    { m.wrapper.queryInfo with
      fields := { m.wrapper.queryInfo.fields with selectField := ["count(1) as cn"] } }
  have hq : queryInfoMem.read
      { m.wrapper.queryInfo with
        fields := { m.wrapper.queryInfo.fields with selectField := ["count(1) as cn"] } }
      m.heap
      = { m.read.queryInfo with selectField := ["count(1) as cn"] } := rfl
  rw [hq] at hs
  unfold countByWrapperMem countByWrapper
  rcases getConnectByWrapper reg ctx dao (some m.read) false with ⟨conn, _ | e⟩
  · simp only
    rw [← hs]
    cases getSelectOneSqlMem m.heap dao
        { m.wrapper.queryInfo with
          fields :=
            { m.wrapper.queryInfo.fields with selectField := ["count(1) as cn"] } } with
    | none => rfl
    | some out =>
      simp only [Option.map_some', MemOut.abs]
      cases out.err <;> rfl
  · rfl

/-- The memory after `countByWrapper`: the wrapper value is the one the pointer
referred to, and the heap is within the frame of its parameter slice. -/
theorem countByWrapperMem_frame (reg : Registry) (ctx : Context) (dao : BaseDao)
    (m : Memory) (r : Issued) (m1 : Memory)
    (h : countByWrapperMem reg ctx dao m = some (r, m1)) :
    m1.wrapper = m.wrapper ∧ Frame m.heap m.wrapper.queryInfo.whereParams m1.heap := by
  unfold countByWrapperMem at h
  revert h
  rcases getConnectByWrapper reg ctx dao (some m.read) false with ⟨conn, _ | e⟩ <;> intro h
  · simp only at h
    revert h
    cases hm : getSelectOneSqlMem m.heap dao
        { m.wrapper.queryInfo with
          fields :=
            { m.wrapper.queryInfo.fields with selectField := ["count(1) as cn"] } } with
    | none => intro h; cases h
    | some out =>
      have hf := getSelectOneSqlMem_frame m.heap dao _ out hm
      simp only
      cases out.err with
      | none =>
        intro h
        simp only [Option.some.injEq, Prod.mk.injEq] at h
        rw [← h.2]
        exact ⟨rfl, hf⟩
      | some e =>
        intro h
        simp only [Option.some.injEq, Prod.mk.injEq] at h
        rw [← h.2]
        exact ⟨rfl, hf⟩
  · simp only [Option.some.injEq, Prod.mk.injEq] at h
    rw [← h.2]
    exact ⟨rfl, (Keeps.start _ _).1⟩

/-- What `ToSelectSql` returns on a memory is what `ToSelectSql` returns on the wrapper
the pointer shows. -/
theorem ToSelectSqlMem_out (m : Memory) :
    (Wrapper.ToSelectSqlMem m).map (fun r => r.1.abs) = m.read.ToSelectSql := by
  have hs := getSelectSqlMem_abs m.heap "" m.wrapper.queryInfo
  unfold Wrapper.ToSelectSqlMem Wrapper.ToSelectSql
  have hq : m.read.queryInfo = m.wrapper.queryInfo.read m.heap := rfl
  rw [hq, ← hs]
  cases getSelectSqlMem m.heap "" m.wrapper.queryInfo <;> rfl

/-- The memory after `ToSelectSql`. -/
theorem ToSelectSqlMem_frame (m : Memory) (o : MemOut) (m1 : Memory)
    (h : Wrapper.ToSelectSqlMem m = some (o, m1)) :
    m1.wrapper = m.wrapper ∧ m1.heap = o.heap ∧
      Frame m.heap m.wrapper.queryInfo.whereParams m1.heap := by
  unfold Wrapper.ToSelectSqlMem at h
  revert h
  cases hm : getSelectSqlMem m.heap "" m.wrapper.queryInfo with
  | none => intro h; cases h
  | some out =>
    have hf := getSelectSqlMem_frame m.heap "" _ out hm
    intro h
    simp only [Option.some.injEq, Prod.mk.injEq] at h
    rw [← h.2, ← h.1]
    exact ⟨rfl, rfl, hf⟩

/-- C26: rendering never changes the wrapper.  On a memory in which the parameter slice
of the wrapper behind the pointer `w` is allocated, `countByWrapper` (field list
overridden to `count(1) as cn` on its copy) and `ToSelectSql` (limit defaulted and
bound parameters collected on the copy handed to `getSelectSql`) return, the `Wrapper`
value behind `w` is the one the call found, every allocated cell outside the spare
capacity of its parameter slice holds what it held, and so the pointer shows the same
wrapper: the same selected fields, limit and bound-parameter list.  A second rendering
on the memory the first one left returns the same statement, the same SQL text and the
same argument list; the arguments of a rendering are the wrapper's bound parameters
followed by the arguments of its conditions, never those of an earlier rendering. -/
theorem rendering_leaves_wrapper (reg : Registry) (ctx : Context) (dao : BaseDao)
    (m : Memory)
    (hw : m.wrapper.queryInfo.whereParams.len = 0 ∨
      m.wrapper.queryInfo.whereParams.arr < m.heap.next) :
    (∃ r m1 m2,
      countByWrapperMem reg ctx dao m = some (r, m1) ∧
      m1.wrapper = m.wrapper ∧
      (∀ a i, a < m.heap.next →
        (a ≠ m.wrapper.queryInfo.whereParams.arr ∨ i < m.wrapper.queryInfo.whereParams.len) →
        m1.heap.cells a i = m.heap.cells a i) ∧
      m1.read = m.read ∧
      countByWrapperMem reg ctx dao m1 = some (r, m2) ∧
      m2.read = m.read ∧
      (countByWrapper reg ctx dao m.read).out = some r ∧
      ∀ c, r = Issued.call c →
        ∃ W A, getWhereSql m.read.queryInfo.where_ [] = some ⟨W, none, A⟩ ∧
          c.args = m.read.queryInfo.whereParams ++ A ∧
          ∃ rest, c.query = "select count(1) as cn from " ++ rest) ∧
    (∃ o1 m1 o2 m2,
      Wrapper.ToSelectSqlMem m = some (o1, m1) ∧
      m1.wrapper = m.wrapper ∧
      (∀ a i, a < m.heap.next →
        (a ≠ m.wrapper.queryInfo.whereParams.arr ∨ i < m.wrapper.queryInfo.whereParams.len) →
        m1.heap.cells a i = m.heap.cells a i) ∧
      m1.read = m.read ∧
      Wrapper.ToSelectSqlMem m1 = some (o2, m2) ∧
      m2.read = m.read ∧
      o2.result = o1.result ∧ o2.err = o1.err ∧
      m2.heap.view o2.params = m1.heap.view o1.params ∧
      m.read.ToSelectSql = some ⟨o1.result, o1.err, m1.heap.view o1.params⟩ ∧
      (o1.err = none →
        ∃ W A, getWhereSql m.read.queryInfo.where_ [] = some ⟨W, none, A⟩ ∧
          m1.heap.view o1.params = m.read.queryInfo.whereParams ++ A)) := by
  constructor
  · obtain ⟨r, hr⟩ := countByWrapper_isSome reg ctx dao m.read
    have h1 := countByWrapperMem_out reg ctx dao m
    rw [hr] at h1
    obtain ⟨⟨r1, m1⟩, hc1, hfst⟩ := Option.map_eq_some'.mp h1
    simp only at hfst
    subst hfst
    obtain ⟨hwr1, hf1⟩ := countByWrapperMem_frame reg ctx dao m r1 m1 hc1
    have hread1 := Memory.read_eq_of_frame m m1 hwr1 hf1 hw
    have h2 := countByWrapperMem_out reg ctx dao m1
    rw [hread1, hr] at h2
    obtain ⟨⟨r2, m2⟩, hc2, hfst2⟩ := Option.map_eq_some'.mp h2
    simp only at hfst2
    subst hfst2
    obtain ⟨hwr2, hf2⟩ := countByWrapperMem_frame reg ctx dao m1 r2 m2 hc2
    have hw1 : m1.wrapper.queryInfo.whereParams.len = 0 ∨
        m1.wrapper.queryInfo.whereParams.arr < m1.heap.next := by
      rw [hwr1]
      rcases hw with hz | ha
      · exact Or.inl hz
      · exact Or.inr (Nat.lt_of_lt_of_le ha hf1.1)
    have hread2 := Memory.read_eq_of_frame m1 m2 hwr2 hf2 hw1
    refine ⟨r2, m1, m2, hc1, hwr1, hf1.2, hread1, hc2, hread2.trans hread1, hr, ?_⟩
    intro c hc
    exact countByWrapper_call reg ctx dao m.read c (hr.trans (congrArg some hc))
  · obtain ⟨out, hout⟩ := getSelectSql_isSome "" m.read.queryInfo
    have h1 := ToSelectSqlMem_out m
    rw [Wrapper.ToSelectSql, hout] at h1
    obtain ⟨⟨o1, m1⟩, hc1, habs1⟩ := Option.map_eq_some'.mp h1
    simp only at habs1
    obtain ⟨hwr1, hh1, hf1⟩ := ToSelectSqlMem_frame m o1 m1 hc1
    have hread1 := Memory.read_eq_of_frame m m1 hwr1 hf1 hw
    have h2 := ToSelectSqlMem_out m1
    rw [hread1, Wrapper.ToSelectSql, hout] at h2
    obtain ⟨⟨o2, m2⟩, hc2, habs2⟩ := Option.map_eq_some'.mp h2
    simp only at habs2
    obtain ⟨hwr2, hh2, hf2⟩ := ToSelectSqlMem_frame m1 o2 m2 hc2
    have hw1 : m1.wrapper.queryInfo.whereParams.len = 0 ∨
        m1.wrapper.queryInfo.whereParams.arr < m1.heap.next := by
      rw [hwr1]
      rcases hw with hz | ha
      · exact Or.inl hz
      · exact Or.inr (Nat.lt_of_lt_of_le ha hf1.1)
    have hread2 := Memory.read_eq_of_frame m1 m2 hwr2 hf2 hw1
    have e1 : out = ⟨o1.result, o1.err, m1.heap.view o1.params⟩ := by
      rw [← habs1, hh1]; rfl
    have e2 : out = ⟨o2.result, o2.err, m2.heap.view o2.params⟩ := by
      rw [← habs2, hh2]; rfl
    have e12 := e2.symm.trans e1
    simp only [SqlOut.mk.injEq] at e12
    refine ⟨o1, m1, o2, m2, hc1, hwr1, hf1.2, hread1, hc2, hread2.trans hread1,
      e12.1, e12.2.1, e12.2.2, ?_, ?_⟩
    · rw [Wrapper.ToSelectSql, hout, e1]
    · intro herr
      have herr' : out.err = none := by rw [e1]; exact herr
      obtain ⟨W, A, hW, hp⟩ := getSelectSql_ok_params "" m.read.queryInfo out hout herr'
      refine ⟨W, A, hW, ?_⟩
      rw [← hp, e1]

/-- C26, an instance: the parameter slice of the wrapper has one element and one spare
cell in the array `0`.  Counting stores the first argument in the spare cell and
allocates for the second; the statement binds the three values, the spare cell has been
written, and the pointer still shows the one bound parameter; `ToSelectSql` on the
memory counting left returns the wrapper's own field list and the same three values. -/
theorem rendering_leaves_wrapper_witness :
    (countByWrapperMem ⟨fun n => if n = "m" then some (some ⟨1⟩) else none, true⟩ []
        ⟨"t", "m", ""⟩
        ⟨⟨fun a i => if a = 0 ∧ i = 0 then Value.int 7 else Value.nil, 1,
            fun c _ => 2 * c⟩,
          ⟨⟨((((GetWrapper.TableName "t").Select ["id", "name"]).Eq "age"
              (Value.int 30)).Eq "b" (Value.int 31)).queryInfo, ⟨0, 1, 2⟩⟩, [], []⟩⟩).map
      (fun r => (r.1, r.2.read.queryInfo.whereParams, r.2.heap.cells 0 1,
        (Wrapper.ToSelectSqlMem r.2).map fun o => o.1.abs))
      = some (Issued.call ⟨connectInter.db (some ⟨1⟩), DriverMethod.GetContext, [],
          "select count(1) as cn from t where `age` = ? and `b` = ? limit 0, 1",
          [Value.int 7, Value.int 30, Value.int 31]⟩,
        [Value.int 7], Value.int 30,
        some ⟨"select id,name from t where `age` = ? and `b` = ? limit 1024", none,
          [Value.int 7, Value.int 30, Value.int 31]⟩) ∧
    ∃ r m1,
      countByWrapperMem ⟨fun n => if n = "m" then some (some ⟨1⟩) else none, true⟩ []
        ⟨"t", "m", ""⟩
        ⟨⟨fun a i => if a = 0 ∧ i = 0 then Value.int 7 else Value.nil, 1,
            fun c _ => 2 * c⟩,
          ⟨⟨((((GetWrapper.TableName "t").Select ["id", "name"]).Eq "age"
              (Value.int 30)).Eq "b" (Value.int 31)).queryInfo, ⟨0, 1, 2⟩⟩, [], []⟩⟩
        = some (r, m1) ∧
      m1.read.queryInfo
        = { ((((GetWrapper.TableName "t").Select ["id", "name"]).Eq "age"
              (Value.int 30)).Eq "b" (Value.int 31)).queryInfo with
            whereParams := [Value.int 7] } := by
  refine ⟨rfl, ?_⟩
  obtain ⟨⟨r, m1, m2, h1, _, _, h2, _⟩, _⟩ :=
    rendering_leaves_wrapper ⟨fun n => if n = "m" then some (some ⟨1⟩) else none, true⟩ []
      ⟨"t", "m", ""⟩
      ⟨⟨fun a i => if a = 0 ∧ i = 0 then Value.int 7 else Value.nil, 1,
          fun c _ => 2 * c⟩,
        ⟨⟨((((GetWrapper.TableName "t").Select ["id", "name"]).Eq "age"
            (Value.int 30)).Eq "b" (Value.int 31)).queryInfo, ⟨0, 1, 2⟩⟩, [], []⟩⟩
      (Or.inr (by decide))
  exact ⟨r, m1, h1, by rw [h2]; rfl⟩


end Sqlbp
